import Mathlib

/-!
# Orchestrator: job lifecycle, pipeline worker and stores

A shallow embedding of the Go sources under `orcestrator/`:

* `internal/domain/entity` (Job, ConfigFile, ValidationConfigError, Prompt),
* `internal/infrastructure/store/mongodb` (MongoJobRepo, MongoConfigRepo),
* `internal/infrastructure/store/filesystem` (FileRepository),
* `internal/infrastructure/validator` (TerraformAnalyzer.Analyze with its loops over the
  parsed files, and saveResults),
* `internal/infrastructure/llm` (the request AmveraGenerator.GenerateInfrastructure builds,
  extractFilesFromContent),
* `internal/infrastructure/transport` (OrchestratorHandler.handleCreateJob),
* `app/usecase` (ConfigGeneratorService.runOnce / processJob, markFilesWithErrors,
  JobService.DeleteJob / DeployJob / CreateJob, TerraformDeployer.Deploy).

Conventions of the embedding.

* A Go `error` is `Option Error` (`none` is `nil`); a Go pointer result that may be `nil` is an
  `Option`.
* The process state touched by the code (the two Mongo collections, the workspace file system,
  the wall clock) is the record `World`; every operation passes it explicitly.  `World.trace`
  records, in order, the calls the use cases make on their collaborators.
* Answers of the outside world (driver errors, the language model, file-system failures) are
  arguments: every theorem quantifies over them.
* A slice of pointers `[]*T` whose elements are distinct and non-nil (as built by the generator
  and by the driver's decoding) is a `List T`; mutation in place is a `map`.
* The HCL library is not part of the sources: the syntax tree it returns for a text is an
  argument (`hcl.ParseConfig`), and the operations the analyzer calls on the tree
  (`PartialContent`, `JustAttributes`, `Expression.Value`) are functions on that tree.  The
  order in which the Go runtime ranges over a map is an argument as well (`MapOrder`).
* The two subprocesses of `Deploy` are not run: what each phase does (its output, the result of
  waiting for it, the state of the phase context) is an argument (`DeployEnv`).
* The identifiers `uuid.New()` draws are arguments of the functions that call `NewJob`.
-/

set_option autoImplicit false

namespace Orchestrator

/-! ## internal/domain/entity -/

/-- Go: `type JobStatus string`. -/
abbrev JobStatus := String

def JobStatusPending : JobStatus := "pending"
def JobStatusRunning : JobStatus := "running"
def JobStatusFailed : JobStatus := "failed"
def JobStatusReady2Deploy : JobStatus := "ready_to_deploy"
def JobStatusCanceled : JobStatus := "canceled"
def JobStatusDeploying : JobStatus := "deploying"
def JobStatusDeployed : JobStatus := "deployed"

/-- Go: `error` values are modelled by their message. -/
abbrev Error := String

/-- Go: `entity.Job`; times are ticks of the world clock. -/
structure Job where
  ID : String
  Description : String
  Target : String
  Status : JobStatus
  CreatedAt : Nat
  UpdatedAt : Nat
deriving DecidableEq, Repr

/-- Go: `(*Job).UpdateStatus`, the in-memory setter of the entity. -/
def Job.UpdateStatus (j : Job) (status : JobStatus) (now : Nat) : Job :=
  { j with Status := status, UpdatedAt := now }

/-- Go: `(*Job).IsReadyForDeploy`. -/
def Job.IsReadyForDeploy (j : Job) : Bool :=
  j.Status == JobStatusReady2Deploy

/-- Go: `entity.ValidationConfigError`. -/
structure ValidationConfigError where
  File : String
  Message : String
  Line : Int
  Column : Int
deriving DecidableEq, Repr

/-- Go: `entity.ConfigFile`; `ErrorMsg` is the pointee of the Go pointer, `none` for `nil`;
`Type_` is the Go field `Type`. -/
structure ConfigFile where
  JobID : String
  Name : String
  Content : String
  Type_ : String
  HasError : Bool
  ErrorMsg : Option ValidationConfigError
deriving DecidableEq, Repr

/-- Go: `entity.GenerateResponse` (the creation time is not read by the pipeline). -/
structure GenerateResponse where
  Files : List ConfigFile
  RequestID : String
  Status : String
deriving DecidableEq, Repr

/-- Go: `entity.Prompt`. -/
structure Prompt where
  ID : String
  Text : String
deriving DecidableEq, Repr

/-- Go: the constant `terraformPrompt` of prompt.go. -/
def terraformPrompt : String :=
  "You are TerraformAI — output only complete, deployable Terraform HCL files inside Markdown code fences.\nRules:\n\n1. Output only fenced code blocks — no prose, comments, or text outside them.\n2. Fence format must be exactly:\n   ```<filename>\n   ...HCL...\n   ```\n   — no spaces, no language tags.\n3. Each file = one fenced block (e.g. main.tf, variables.tf, outputs.tf, iam.tf).\n4. All HCL must be valid and runnable (terraform init && apply) with sensible defaults.\n   - Declare and define all variables.\n   - No undefined references.\n   - Include provider config.\n5. If needed, create IAM/VPC/etc. resources referenced by others.\n6. No helper text or examples outside code fences.\n7. End every block with closing triple backticks.\n8. Use placeholders like \"REPLACE_ME\" for secrets.\n9. Generate only what’s needed for the given request.\n\nExample:\n```main.tf\n# valid HCL here\n```\n```variables.tf\n# valid variables here\n```\n\nNow, for the next user instruction, output the Terraform files exactly as above."

def TerraformPrompt : Prompt := { ID := "terraform", Text := terraformPrompt }

def TerraformPromptV2 : Prompt :=
  { ID := "terraform",
    Text := "You are TerraformAI, an AI agent that builds and deploys Cloud Infrastructure written in Terraform HCL. Generate a description of the Terraform program you will define, followed by a single Terraform HCL program in response to each of my Instructions. Make sure the configuration is deployable. Create IAM roles as needed. If variables are used, make sure default values are supplied. Be sure to include a valid provider configuration within a valid region. Make sure there are no undeclared resources (e.g., as references) or variables, i.e., all resources and variables needed in the configuration should be fully specified. Please write your complete HCL template inside <iac_template></iac_template> tags." }

def AnsiblePrompt : Prompt := { ID := "ansible", Text := "" }

def K8sPrompt : Prompt := { ID := "k8s", Text := "" }

/-! ## Documents of the Mongo collections

Neither `entity.Job` nor `entity.ConfigFile` carries `bson` struct tags (only `json` and `db`
ones), so the driver's struct codec stores every field under its lower-cased Go name:
`id`, `status`, `updatedat`, ... for a job and `jobid`, `name`, `haserror`, ... for a file.
A filter `bson.M{key: value}` selects the documents whose field `key` holds `value`. -/

/-- The BSON values that occur in the filters and updates of the repositories. -/
inductive BsonValue where
  | str (s : String)
  | bool (b : Bool)
  | time (t : Nat)
  | null
  | embedded
deriving DecidableEq, Repr

/-- A stored document of the `jobs` collection: the fields decoded into `entity.Job` and the
other keys of the document, which decoding ignores. -/
structure JobDoc where
  job : Job
  extra : List (String × BsonValue)
deriving DecidableEq, Repr

/-- The value a `jobs` document holds under a key. -/
def JobDoc.field (d : JobDoc) (key : String) : Option BsonValue :=
  if key = "id" then some (.str d.job.ID)
  else if key = "description" then some (.str d.job.Description)
  else if key = "target" then some (.str d.job.Target)
  else if key = "status" then some (.str d.job.Status)
  else if key = "createdat" then some (.time d.job.CreatedAt)
  else if key = "updatedat" then some (.time d.job.UpdatedAt)
  else d.extra.lookup key

/-- The value a `config_files` document (an encoded `entity.ConfigFile`) holds under a key. -/
def ConfigFile.field (f : ConfigFile) (key : String) : Option BsonValue :=
  if key = "jobid" then some (.str f.JobID)
  else if key = "name" then some (.str f.Name)
  else if key = "content" then some (.str f.Content)
  else if key = "type" then some (.str f.Type_)
  else if key = "haserror" then some (.bool f.HasError)
  else if key = "errormsg" then some (if f.ErrorMsg.isSome then .embedded else .null)
  else none

/-- Sets a key of an association list, replacing an existing binding. -/
def setKey {β : Type} (key : String) (v : β) : List (String × β) → List (String × β)
  | [] => [(key, v)]
  | (k, x) :: rest => if k = key then (key, v) :: rest else (k, x) :: setKey key v rest

/-- Driver: `UpdateOne` applies the update to the first document matching the filter and reports
the number of matched documents (0 or 1). -/
def updateOne {α : Type} (p : α → Bool) (f : α → α) : List α → List α × Nat
  | [] => ([], 0)
  | d :: ds =>
    if p d then (f d :: ds, 1)
    else ((updateOne p f ds).1.cons d, (updateOne p f ds).2)

/-- Driver: `DeleteOne` removes the first document matching the filter and reports the number of
deleted documents (0 or 1). -/
def deleteOne {α : Type} (p : α → Bool) : List α → List α × Nat
  | [] => ([], 0)
  | d :: ds =>
    if p d then (ds, 1)
    else ((deleteOne p ds).1.cons d, (deleteOne p ds).2)

/-! ## internal/infrastructure/store/mongodb/job.go -/

/-- Go: `mongo.ErrNoDocuments`. -/
def ErrNoDocuments : Error := "mongo: no documents in result"

/-- The error of a failed driver call (network, context deadline, ...). -/
def ErrDriver : Error := "mongo: driver error"

/-- Go: the `$set` of `MongoJobRepo.UpdateStatus`: key `status` is the entity's Status field,
key `updated_at` is not a key of the encoded entity (that one is `updatedat`). -/
def JobDoc.setStatus (status : JobStatus) (now : Nat) (d : JobDoc) : JobDoc :=
  { job := { d.job with Status := status },
    extra := setKey "updated_at" (.time now) d.extra }

/-- Go: `MongoJobRepo.UpdateStatus`.  `dbErr` says whether the driver call itself fails. -/
def MongoJobRepo.UpdateStatus (dbErr : Bool) (now : Nat) (jobsCol : List JobDoc) (id : String)
    (status : JobStatus) : List JobDoc × Option Error :=
  if dbErr then (jobsCol, some ErrDriver)
  else
    let res := updateOne (fun d => d.field "id" == some (.str id)) (JobDoc.setStatus status now) jobsCol
    if res.2 = 0 then (res.1, some ErrNoDocuments) else (res.1, none)

/-- Go: `MongoJobRepo.GetByID`; the result is (job, err) and a missing job is (nil, nil). -/
def MongoJobRepo.GetByID (dbErr : Bool) (jobsCol : List JobDoc) (id : String) :
    Option Job × Option Error :=
  if dbErr then (none, some ErrDriver)
  else ((jobsCol.find? (fun d => d.field "id" == some (.str id))).map JobDoc.job, none)

/-- Go: `MongoJobRepo.ListByStatus`. -/
def MongoJobRepo.ListByStatus (dbErr : Bool) (jobsCol : List JobDoc) (status : JobStatus) :
    List Job × Option Error :=
  if dbErr then ([], some ErrDriver)
  else ((jobsCol.filter (fun d => d.field "status" == some (.str status))).map JobDoc.job, none)

/-- Go: `MongoJobRepo.Create`. -/
def MongoJobRepo.Create (dbErr : Bool) (now : Nat) (jobsCol : List JobDoc) (job : Job) :
    List JobDoc × Option Error :=
  if dbErr then (jobsCol, some ErrDriver)
  else (jobsCol ++ [{ job := { job with CreatedAt := now, UpdatedAt := now }, extra := [] }], none)

/-- Go: `MongoJobRepo.Delete`. -/
def MongoJobRepo.Delete (dbErr : Bool) (jobsCol : List JobDoc) (id : String) :
    List JobDoc × Option Error :=
  if dbErr then (jobsCol, some ErrDriver)
  else
    let res := deleteOne (fun d => d.field "id" == some (.str id)) jobsCol
    if res.2 = 0 then (res.1, some ErrNoDocuments) else (res.1, none)

/-! ## internal/infrastructure/store/mongodb/config_file.go -/

/-- Go: `MongoConfigRepo.SaveFiles`: one `InsertMany` of the files (the driver gives every
inserted document a fresh `_id`, so inserting an equal file again adds a document).
`dbErr = some k` is a driver failure after `k` documents were written. -/
def MongoConfigRepo.SaveFiles (dbErr : Option Nat) (col : List ConfigFile)
    (files : List ConfigFile) : List ConfigFile × Option Error :=
  if files.length = 0 then (col, none)
  else
    match dbErr with
    | some k => (col ++ files.take k, some ErrDriver)
    | none => (col ++ files, none)

/-- Go: `MongoConfigRepo.findFiles`. -/
def MongoConfigRepo.findFiles (dbErr : Bool) (col : List ConfigFile)
    (filter : String × BsonValue) : List ConfigFile × Option Error :=
  if dbErr then ([], some ErrDriver)
  else (col.filter (fun f => f.field filter.1 == some filter.2), none)

/-- Go: `MongoConfigRepo.GetFilesByJobID`, filter `bson.M{"jobid": jobID}`. -/
def MongoConfigRepo.GetFilesByJobID (dbErr : Bool) (col : List ConfigFile) (jobID : String) :
    List ConfigFile × Option Error :=
  match MongoConfigRepo.findFiles dbErr col ("jobid", .str jobID) with
  | (_, some err) => ([], some err)
  | (files, none) => (files, none)

/-- Go: `MongoConfigRepo.DeleteRequest`, a `DeleteMany` with filter
`bson.M{"job_id": requestID}`. -/
def MongoConfigRepo.DeleteRequest (dbErr : Bool) (col : List ConfigFile) (requestID : String) :
    List ConfigFile × Option Error :=
  if dbErr then (col, some ErrDriver)
  else (col.filter (fun f => !(f.field "job_id" == some (.str requestID))), none)

/-! ## The workspace file system and internal/infrastructure/store/filesystem -/

/-- What a path of the workspace holds. `metadata` is the `metadata.json` snapshot written by the
mirror (request id, creation time, the files as they were when it was written). -/
inductive FsNode where
  | dir
  | file (content : String)
  | metadata (requestID : String) (createdAt : Nat) (files : List ConfigFile)
deriving DecidableEq, Repr

/-- The file system: the paths that exist, with what they hold. Paths are relative to the
working directory of the process and spelled as `filepath.Clean` spells them. -/
abbrev FS := List (String × FsNode)

/-- Go: the elements of a path, the pieces between its separators (always at least one). -/
def splitSlash : List Char → List (List Char)
  | [] => [[]]
  | c :: cs =>
    if c = '/' then [] :: splitSlash cs
    else
      match splitSlash cs with
      | [] => [[c]]
      | piece :: pieces => (c :: piece) :: pieces

/-- The elements joined by single separators. -/
def joinSlash : List (List Char) → List Char
  | [] => []
  | [c] => c
  | c :: d :: rest => c ++ '/' :: joinSlash (d :: rest)

/-- Go: the treatment of one path element by `filepath.Clean`; `st` holds the elements written
so far, last first. An empty element and `.` are dropped; `..` removes the last element written
unless there is none or it is itself a `..` (then, in a path that is not rooted, `..` is
written); any other element is written. -/
def cleanStep (rooted : Bool) (st : List (List Char)) (c : List Char) : List (List Char) :=
  if c = [] ∨ c = ['.'] then st
  else if c = ['.', '.'] then
    match st with
    | [] => if rooted then [] else [c]
    | top :: rest => if top = ['.', '.'] then c :: top :: rest else rest
  else c :: st

/-- Go: the elements `filepath.Clean` writes for the elements of a path, in order. -/
def cleanComps (rooted : Bool) (comps : List (List Char)) : List (List Char) :=
  (comps.foldl (cleanStep rooted) []).reverse

/-- Go: `filepath.Clean` on the characters of a path (separator `/`, no volume name). -/
def cleanChars (path : List Char) : List Char :=
  if path = [] then ['.']
  else
    let rooted := path.head? == some '/'
    let out := (if rooted then ['/'] else []) ++ joinSlash (cleanComps rooted (splitSlash path))
    if out = [] then ['.'] else out

/-- Go: `filepath.Clean`. -/
def filepathClean (path : String) : String :=
  String.mk (cleanChars path.toList)

/-- Go: `filepath.Join` of two elements: empty elements are ignored, the others are joined
with the separator and the result is cleaned (`filepath.Join("./deployments", "j1")` is
`deployments/j1`); the join of no non-empty element is empty. -/
def joinPath (a b : String) : String :=
  if a = "" then (if b = "" then "" else filepathClean b)
  else filepathClean (a ++ "/" ++ b)

/-- Whether a path element is an ordinary name: not empty, not `.` and not `..`. -/
def isNormal (c : List Char) : Prop := c ≠ [] ∧ c ≠ ['.'] ∧ c ≠ ['.', '.']

instance (c : List Char) : Decidable (isNormal c) := by
  unfold isNormal
  infer_instance

/-- Go: `os.MkdirAll`: succeeds when the path is a directory already, creates it when nothing is
there, and fails when the path holds something that is not a directory. -/
def mkdirAll (fs : FS) (path : String) : Option FS :=
  match fs.lookup path with
  | none => some (fs ++ [(path, FsNode.dir)])
  | some FsNode.dir => some fs
  | some _ => none

/-- Go: `os.WriteFile` / `os.Create` followed by the writes: replaces the content of the path,
and fails when the path is a directory. The file system does not record which directories
exist above a path: a failure for a missing parent directory is, like a failure for missing
permissions or a full disk, one of the failures the callers inject. -/
def writeNode (fs : FS) (path : String) (node : FsNode) : Option FS :=
  match fs.lookup path with
  | some FsNode.dir => none
  | _ => some (setKey path node fs)

/-- Failures of the operating system injected into one mirror call: `MkdirAll` fails, the write
of the file at an index fails, the write of the metadata fails. -/
structure MirrorFault where
  mkdir : Bool
  writeAt : Option Nat
  metadata : Bool
deriving DecidableEq, Repr

/-- No injected failure. -/
def noMirrorFault : MirrorFault := { mkdir := false, writeAt := none, metadata := false }

/-- Go: the loop of `FileRepository.SaveFiles` writing every file under the request directory;
`i` is the index of the head of the list. -/
def writeFiles (failAt : Option Nat) (requestDir : String) :
    FS → Nat → List ConfigFile → FS × Option Error
  | fs, _, [] => (fs, none)
  | fs, i, file :: rest =>
    if failAt = some i then (fs, some ("failed to write file " ++ file.Name))
    else
      match writeNode fs (joinPath requestDir file.Name) (FsNode.file file.Content) with
      | none => (fs, some ("failed to write file " ++ file.Name))
      | some fs1 => writeFiles failAt requestDir fs1 (i + 1) rest

/-- Go: `FileRepository.SaveFiles`. -/
def FileRepository.SaveFiles (fault : MirrorFault) (now : Nat) (basePath : String) (fs : FS)
    (files : List ConfigFile) (requestID : String) : FS × Option Error :=
  let requestDir := joinPath basePath requestID
  if fault.mkdir then (fs, some "failed to create request directory")
  else
    match mkdirAll fs requestDir with
    | none => (fs, some "failed to create request directory")
    | some fs1 =>
      match writeFiles fault.writeAt requestDir fs1 0 files with
      | (fs2, some err) => (fs2, some err)
      | (fs2, none) =>
        if fault.metadata then (fs2, some "failed to write metadata")
        else
          match writeNode fs2 (joinPath requestDir "metadata.json")
              (FsNode.metadata requestID now files) with
          | none => (fs2, some "failed to write metadata")
          | some fs3 => (fs3, none)

/-- Go: `FileRepository.DeleteRequest`: `os.RemoveAll` of the request directory, which removes
the path and everything below it. -/
def FileRepository.DeleteRequest (basePath : String) (fs : FS) (requestID : String) :
    FS × Option Error :=
  let requestDir := joinPath basePath requestID
  (fs.filter (fun e => !(e.1 == requestDir || (requestDir ++ "/").isPrefixOf e.1)), none)

/-- Whether the path exists and is a directory (Go: `os.Stat` without error and `IsDir`). -/
def isDir (fs : FS) (path : String) : Bool :=
  fs.lookup path == some FsNode.dir

/-! ## internal/infrastructure/validator (Analyze from the call of saveResults on) -/

/-- Go: `validator.AnalysisResult`. -/
structure AnalysisResult where
  Passed : Bool
  Errors : List ValidationConfigError
deriving DecidableEq, Repr

/-- Go: the line `saveResults` prints for one diagnostic. -/
def reportLine (err : ValidationConfigError) : String :=
  "File: " ++ err.File ++ ", Line: " ++ toString err.Line ++ ", Column: " ++ toString err.Column
    ++ ", Message: " ++ err.Message ++ "\n"

/-- Go: `TerraformAnalyzer.saveResults`. `osErr` injects a failure of the operating system
(permissions, full disk) into the directory creation or the writes. -/
def TerraformAnalyzer.saveResults (osErr : Bool) (fs : FS) (result : AnalysisResult)
    (outputDir : String) : FS × Option Error :=
  if result.Errors.length = 0 then (fs, none)
  else if osErr then (fs, some "create output directory")
  else
    match mkdirAll fs outputDir with
    | none => (fs, some "create output directory")
    | some fs1 =>
      match writeNode fs1 (joinPath outputDir "analysis_results.txt")
          (FsNode.file (String.join (result.Errors.map reportLine))) with
      | none => (fs1, some "create results file")
      | some fs2 => (fs2, none)

/-- Go: `TerraformAnalyzer.Analyze`, lines 69-74: the result collected by the loop over the files
(`collect`, lines 32-67, a function of the files) is saved; when saving fails the function
returns a nil result together with the error. -/
def TerraformAnalyzer.Analyze (collect : List ConfigFile → AnalysisResult) (osErr : Bool)
    (fs : FS) (files : List ConfigFile) (outputDir : String) :
    FS × Option AnalysisResult × Option Error :=
  let result := collect files
  match TerraformAnalyzer.saveResults osErr fs result (joinPath outputDir "static_validator") with
  | (fs1, some err) => (fs1, none, some ("save results: " ++ err))
  | (fs1, none) => (fs1, some result, none)

/-! ## internal/infrastructure/llm: the request of GenerateInfrastructure -/

/-- Go: one element of the `messages` array of the request. -/
structure ChatMessage where
  role : String
  content : String
deriving DecidableEq, Repr

/-- Go: the request map built by `AmveraGenerator.GenerateInfrastructure`. -/
structure ChatRequest where
  model : String
  messages : List ChatMessage
  temperature : Nat
  verbosity : String
deriving DecidableEq, Repr

/-- Go: `AmveraGenerator.GenerateInfrastructure`, lines 42-54: the request sent to the model. -/
def AmveraGenerator.request (model verbosity : String) (description : String) (prompt : Prompt) :
    ChatRequest :=
  let fullPrompt := prompt.Text ++ " " ++ description
  { model := model,
    messages := [{ role := "user", content := fullPrompt }],
    temperature := 1,
    verbosity := verbosity }

/-- Go: `AmveraGenerator.GenerateInfrastructure`: the request is sent (`makeRequest`, the HTTP
exchange) and the answer parsed into files (`parseResponse`); either step may fail. -/
def AmveraGenerator.GenerateInfrastructure (model verbosity : String)
    (makeRequest : ChatRequest → Except Error String)
    (parseResponse : String → Except Error (List ConfigFile))
    (requestID : String) (description : String) (prompt : Prompt) :
    GenerateResponse × Option Error :=
  match makeRequest (AmveraGenerator.request model verbosity description prompt) with
  | .error err =>
    ({ Files := [], RequestID := "", Status := "" }, some ("failed to make Amvera request: " ++ err))
  | .ok response =>
    match parseResponse response with
    | .error err =>
      ({ Files := [], RequestID := "", Status := "" },
        some ("failed to parse Amvera response: " ++ err))
    | .ok files => ({ Files := files, RequestID := requestID, Status := "success" }, none)

/-! ## app/usecase: the world the services run in -/

/-- A call made by a use case on one of its collaborators. `generate` also records on behalf of
which job the generator was called. -/
inductive Event where
  | generate (jobID : String) (description : String) (prompt : Prompt)
  | updateStatus (id : String) (status : JobStatus)
  | saveFiles (files : List ConfigFile)
  | mirror (files : List ConfigFile) (requestID : String)
  | analyze (files : List ConfigFile) (workDir : String)
  | deleteRequest (requestID : String)
  | deleteJob (id : String)
deriving DecidableEq, Repr

/-- The state shared by the services: the `jobs` and `config_files` collections, the file system
holding the workspaces, the clock, and the calls made so far (oldest first). -/
structure World where
  jobs : List JobDoc
  configFiles : List ConfigFile
  fs : FS
  clock : Nat
  trace : List Event
deriving DecidableEq, Repr

/-- How a Go function call ends: it returns its `error` result, or it panics. -/
inductive Exit where
  | returned (err : Option Error)
  | panicked (msg : String)
deriving DecidableEq, Repr

/-- The answers of the collaborators during the handling of one job: the language model, driver
errors of the status updates (by requested status) and of the two `SaveFiles` calls, failures of
the mirror, the diagnostics the analyzer collects and a failure while it saves its report. -/
structure Outcomes where
  llm : String → Prompt → GenerateResponse × Option Error
  updateErr : JobStatus → Bool
  saveErr : Option Nat
  mirrorFault : MirrorFault
  collect : List ConfigFile → AnalysisResult
  reportErr : Bool
  resaveErr : Option Nat

/-- Go: a call `s.jobsRepo.UpdateStatus(ctx, id, status)` on the Mongo job repository; it reads
the clock once. -/
def World.UpdateStatus (dbErr : Bool) (w : World) (id : String) (status : JobStatus) :
    World × Option Error :=
  let res := MongoJobRepo.UpdateStatus dbErr w.clock w.jobs id status
  ({ w with jobs := res.1, clock := w.clock + 1, trace := w.trace ++ [Event.updateStatus id status] },
    res.2)

/-- Go: a call `s.configRepo.SaveFiles(ctx, files)` on the Mongo file repository. -/
def World.SaveFiles (dbErr : Option Nat) (w : World) (files : List ConfigFile) :
    World × Option Error :=
  let res := MongoConfigRepo.SaveFiles dbErr w.configFiles files
  ({ w with configFiles := res.1, trace := w.trace ++ [Event.saveFiles files] }, res.2)

/-- Go: a call `s.configFileRepo.SaveFiles(ctx, files, jobID)` on the workspace mirror. -/
def World.mirror (fault : MirrorFault) (basePath : String) (w : World) (files : List ConfigFile)
    (jobID : String) : World × Option Error :=
  let res := FileRepository.SaveFiles fault w.clock basePath w.fs files jobID
  ({ w with fs := res.1, clock := w.clock + 1, trace := w.trace ++ [Event.mirror files jobID] },
    res.2)

/-- Go: a call `s.staticVal.Analyze(files, workDir)`. -/
def World.Analyze (collect : List ConfigFile → AnalysisResult) (osErr : Bool) (w : World)
    (files : List ConfigFile) (workDir : String) : World × Option AnalysisResult × Option Error :=
  let res := TerraformAnalyzer.Analyze collect osErr w.fs files workDir
  ({ w with fs := res.1, trace := w.trace ++ [Event.analyze files workDir] }, res.2.1, res.2.2)

/-! ## app/usecase/generate_config.go -/

/-- Go: the body of the outer loop of `markFilesWithErrors` for one file. -/
def markFile (errors : List ValidationConfigError) (file : ConfigFile) : ConfigFile :=
  errors.foldl
    (fun f err => if err.File = f.Name then { f with HasError := true, ErrorMsg := some err } else f)
    { file with HasError := false, ErrorMsg := none }

/-- Go: `markFilesWithErrors`. -/
def markFilesWithErrors (files : List ConfigFile) (errors : List ValidationConfigError) :
    List ConfigFile :=
  files.map (markFile errors)

/-- Go: the loop of `processJob` that stamps the owning job id on every generated file. -/
def stampJobID (jobID : String) (files : List ConfigFile) : List ConfigFile :=
  files.map (fun f => { f with JobID := jobID })

/-- Go: `ConfigGeneratorService.processJob`; `basePath` is the base path of the mirror
(`s.configFileRepo.GetBasePath()`). -/
def processJob (o : Outcomes) (basePath : String) (w : World) (job : Job) : World × Exit :=
  let jobID := job.ID
  -- 1) Generate via LLM
  let w1 := { w with trace := w.trace ++ [Event.generate jobID job.Description TerraformPrompt] }
  match o.llm job.Description TerraformPrompt with
  | (_, some err) =>
    let w2 := (w1.UpdateStatus (o.updateErr JobStatusFailed) jobID JobStatusFailed).1
    (w2, Exit.returned (some ("llm generate: " ++ err)))
  | (generatedResponse, none) =>
    let files := stampJobID jobID generatedResponse.Files
    -- 2) Save generated files
    match w1.SaveFiles o.saveErr files with
    | (w2, some err) =>
      let w3 := (w2.UpdateStatus (o.updateErr JobStatusFailed) jobID JobStatusFailed).1
      (w3, Exit.returned (some ("save files: " ++ err)))
    | (w2, none) =>
      let w3 := (w2.mirror o.mirrorFault basePath files jobID).1
      -- 3) Static validation
      let workDir := joinPath basePath jobID
      match w3.Analyze o.collect o.reportErr files workDir with
      | (w4, staticRes, err) =>
        let w5 :=
          if err.isSome then (w4.UpdateStatus (o.updateErr JobStatusFailed) jobID JobStatusFailed).1
          else w4
        match staticRes with
        | none => (w5, Exit.panicked "invalid memory address or nil pointer dereference")
        | some res =>
          let marked := markFilesWithErrors files res.Errors
          let w6 := (w5.SaveFiles o.resaveErr marked).1
          -- 6) ready_to_deploy
          let w7 := (w6.UpdateStatus (o.updateErr JobStatusReady2Deploy) jobID JobStatusReady2Deploy).1
          (w7, Exit.returned none)

/-- Go: the loop of `ConfigGeneratorService.runOnce` over the listed jobs (lines 123-137);
`plan` gives the answers of the collaborators while a job is handled. A panic of `processJob`
is not recovered and ends the loop. -/
def runJobs (plan : Job → Outcomes) (basePath : String) : World → List Job → World × Exit
  | w, [] => (w, Exit.returned none)
  | w, job :: rest =>
    match w.UpdateStatus ((plan job).updateErr JobStatusRunning) job.ID JobStatusRunning with
    | (w1, some _) => runJobs plan basePath w1 rest
    | (w1, none) =>
      match processJob (plan job) basePath w1 job with
      | (w2, Exit.panicked msg) => (w2, Exit.panicked msg)
      | (w2, Exit.returned _) => runJobs plan basePath w2 rest

/-- Go: `ConfigGeneratorService.runOnce`. `listErr` is a driver error of the listing. -/
def runOnce (listErr : Bool) (plan : Job → Outcomes) (basePath : String) (w : World) :
    World × Exit :=
  match MongoJobRepo.ListByStatus listErr w.jobs JobStatusPending with
  | (_, some err) => (w, Exit.returned (some ("list pending jobs: " ++ err)))
  | (jobs, none) =>
    if jobs.length = 0 then (w, Exit.returned none)
    else runJobs plan basePath w jobs

/-! ## app/usecase/job_service.go -/

/-- Go: `JobService.DeleteJob`; `filesErr` and `jobErr` are driver errors of the two deletes. -/
def JobService.DeleteJob (filesErr jobErr : Bool) (w : World) (jobID : String) :
    World × Option Error :=
  let w1 := { w with trace := w.trace ++ [Event.deleteRequest jobID] }
  match MongoConfigRepo.DeleteRequest filesErr w1.configFiles jobID with
  | (col, some err) => ({ w1 with configFiles := col }, some ("delete config files: " ++ err))
  | (col, none) =>
    let w2 := { w1 with configFiles := col, trace := w1.trace ++ [Event.deleteJob jobID] }
    match MongoJobRepo.Delete jobErr w2.jobs jobID with
    | (jobsCol, some err) => ({ w2 with jobs := jobsCol }, some ("delete job: " ++ err))
    | (jobsCol, none) => ({ w2 with jobs := jobsCol }, none)

/-! ## The lifecycle graph of the specification and example data -/

/-- The lifecycle graph as the specification words it (section 4.1): PENDING→RUNNING,
RUNNING→FAILED, RUNNING→READY_TO_DEPLOY, READY_TO_DEPLOY→DEPLOYING, DEPLOYING→DEPLOYED,
DEPLOYING→FAILED. This definition follows the specification, not the code. -/
def lifecycleEdge (cur req : JobStatus) : Bool :=
  (cur == JobStatusPending && req == JobStatusRunning)
    || (cur == JobStatusRunning && req == JobStatusFailed)
    || (cur == JobStatusRunning && req == JobStatusReady2Deploy)
    || (cur == JobStatusReady2Deploy && req == JobStatusDeploying)
    || (cur == JobStatusDeploying && req == JobStatusDeployed)
    || (cur == JobStatusDeploying && req == JobStatusFailed)

/-- A job that has been deployed. -/
def deployedJob : Job :=
  { ID := "j1", Description := "a vpc", Target := "terraform", Status := JobStatusDeployed,
    CreatedAt := 0, UpdatedAt := 0 }

/-! ## Observations on traces and stores -/

/-- Whether an event is a call of the generator on behalf of the job with the given id. -/
def isGenerateFor (id : String) : Event → Bool
  | Event.generate jobID _ _ => jobID == id
  | _ => false

/-- The number of generator calls made on behalf of a job. -/
def generateCalls (id : String) (trace : List Event) : Nat :=
  trace.countP (isGenerateFor id)

/-- The ids of the stored jobs, in collection order. -/
def storedIDs (jobsCol : List JobDoc) : List String :=
  jobsCol.map (fun d => d.job.ID)

/-- Whether the RUNNING update issued by `runJobs` for a job succeeds in a store holding the
given ids: the driver call does not fail and a job with that id is stored. -/
def claimSucceeds (plan : Job → Outcomes) (ids : List String) (job : Job) : Bool :=
  !((plan job).updateErr JobStatusRunning) && ids.contains job.ID

/-- The status updates requested in a trace, in order. -/
def statusUpdates : List Event → List (String × JobStatus)
  | [] => []
  | Event.updateStatus id status :: rest => (id, status) :: statusUpdates rest
  | _ :: rest => statusUpdates rest

/-- The prompt selection as the specification words it (section 6): a fixed instruction string
selected by the target, each of terraform, kubernetes and ansible selecting its own prompt.
This definition follows the specification, not the code. -/
def promptForTarget (target : String) : Option Prompt :=
  if target = "terraform" then some TerraformPrompt
  else if target = "kubernetes" then some K8sPrompt
  else if target = "ansible" then some AnsiblePrompt
  else none

/-! ## Example data -/

/-- A pending job asking for Kubernetes manifests. -/
def pendingJob1 : Job :=
  { ID := "j1", Description := "a vpc", Target := "kubernetes", Status := JobStatusPending,
    CreatedAt := 0, UpdatedAt := 0 }

/-- A second pending job. -/
def pendingJob2 : Job :=
  { ID := "j2", Description := "a bucket", Target := "terraform", Status := JobStatusPending,
    CreatedAt := 0, UpdatedAt := 0 }

/-- A store holding the two pending jobs, no files, and an empty workspace base directory. -/
def world0 : World :=
  { jobs := [{ job := pendingJob1, extra := [] }, { job := pendingJob2, extra := [] }],
    configFiles := [],
    fs := [("deployments", FsNode.dir)],
    clock := 1,
    trace := [] }

/-- A generated Terraform file, as the generator builds it (no owner yet, no annotation). -/
def mainTf : ConfigFile :=
  { JobID := "", Name := "main.tf", Content := "resource \"a\" \"b\" {}", Type_ := "terraform",
    HasError := false, ErrorMsg := none }

/-- A generated file whose fence label is the name of the analyzer's report directory. -/
def reportDirFile : ConfigFile :=
  { JobID := "", Name := "static_validator", Content := "notes", Type_ := "unknown",
    HasError := false, ErrorMsg := none }

/-- The advisory diagnostic of the analyzer for the resource of `mainTf`. -/
def lifecycleDiag : ValidationConfigError :=
  { File := "main.tf", Message := "Resource a.b missing lifecycle block in main.tf: ", Line := 1,
    Column := 1 }

/-- Collaborators that all answer without failure: the generator returns the given files and
the analyzer collects the advisory diagnostic for `main.tf`. -/
def answers (files : List ConfigFile) : Outcomes :=
  { llm := fun _ _ => ({ Files := files, RequestID := "r1", Status := "success" }, none),
    updateErr := fun _ => false,
    saveErr := none,
    mirrorFault := noMirrorFault,
    collect := fun _ => { Passed := true, Errors := [lifecycleDiag] },
    reportErr := false,
    resaveErr := none }

/-- Collaborators whose generator fails. -/
def answersGenerationFails : Outcomes :=
  { answers [] with
    llm := fun _ _ => ({ Files := [], RequestID := "", Status := "" }, some "amvera api error: 500") }

/-- Collaborators whose first save to the primary store fails after no document was written. -/
def answersSaveFails : Outcomes :=
  { answers [mainTf] with saveErr := some 0 }

/-- Collaborators under which every tolerated failure happens at once: the mirror cannot create
the workspace, the analyzer reports a failed run (`Passed` false), the re-persist fails and so
does the READY_TO_DEPLOY update. -/
def answersTolerated : Outcomes :=
  { answers [mainTf] with
    updateErr := fun status => status == JobStatusReady2Deploy,
    mirrorFault := { mkdir := true, writeAt := none, metadata := false },
    collect := fun _ => { Passed := false, Errors := [lifecycleDiag] },
    resaveErr := some 0 }

/-! ## The HCL library as the analyzer uses it (github.com/hashicorp/hcl/v2)

The analyzer works on the syntax tree the library's parser returns.  This section models the
part of the library the analyzer calls: diagnostics, bodies with attributes and nested blocks,
`PartialContent`, `JustAttributes`, `Blocks.OfType`, the value of an expression in the nil
evaluation context, and the file registry of `hclparse.Parser`.  The parser proper
(`hclsyntax.ParseConfig`, from text to syntax tree) is an argument of the analyzer. -/

namespace hcl

/-- Library: `hcl.DiagnosticSeverity`. -/
inductive DiagnosticSeverity where
  | DiagInvalid
  | DiagError
  | DiagWarning
deriving DecidableEq, Repr

/-- Library: `hcl.Pos`, the line and column of a source position. -/
structure Pos where
  Line : Int
  Column : Int
deriving DecidableEq, Repr

/-- Library: `hcl.Diagnostic`; `Subject` is the start of the subject range (every diagnostic
of the parser, of the body operations and of the analyzer carries a subject). -/
structure Diagnostic where
  Severity : DiagnosticSeverity
  Summary : String
  Detail : String
  Subject : Pos
deriving DecidableEq, Repr

/-- Library: `Diagnostics.HasErrors`: some diagnostic has severity `DiagError`. -/
def HasErrors (diags : List Diagnostic) : Bool :=
  diags.any (fun d => d.Severity == DiagnosticSeverity.DiagError)

/-- What the analyzer observes of a `cty.Value`: whether its type is an object type and, if so,
the names of its attributes (`AsValueMap`). -/
inductive Value where
  | object (keys : List String)
  | other
deriving DecidableEq, Repr

/-- Library: an `hcl.Expression`, given by what `Value(nil)` returns for it: the value and the
diagnostics of the evaluation in the nil context. -/
structure Expression where
  val : Value
  valDiags : List Diagnostic
deriving DecidableEq, Repr

/-- Library: `Expression.Value(nil)`. -/
def Expression.Value (e : Expression) : Value × List Diagnostic :=
  (e.val, e.valDiags)

/-- Library: a literal expression such as `"hunter2"`: a known primitive value, no
diagnostic. -/
def Expression.literal : Expression :=
  { val := Value.other, valDiags := [] }

/-- Library: a reference expression such as `var.db_password` whose root starts at the given
position: in the nil context its evaluation fails with `Variables not allowed`. -/
def Expression.reference (root : Pos) : Expression :=
  { val := Value.other,
    valDiags := [{ Severity := DiagnosticSeverity.DiagError, Summary := "Variables not allowed",
                   Detail := "Variables may not be used here.", Subject := root }] }

/-- Library: an object constructor `{ k = v, ... }` with the given literal keys and literal
values. -/
def Expression.objectCons (keys : List String) : Expression :=
  { val := Value.object keys, valDiags := [] }

/-- Library: `hcl.Attribute`; `Range` is the start of the attribute's range. -/
structure Attribute where
  Name : String
  Expr : Expression
  Range : Pos
deriving DecidableEq, Repr

/-- Library: `hcl.Block` together with its body (attributes and nested blocks); the ranges are
given by their start positions. `Type_` is the Go field `Type`. -/
inductive Block where
  | mk (Type_ : String) (Labels : List String) (Attributes : List Attribute)
      (Blocks : List Block) (DefRange TypeRange OpenBraceRange : Pos) (LabelRanges : List Pos)

/-- Library: an `hcl.Body` of native syntax: its attributes (a map keyed by name, listed in
source order) and its nested blocks in source order. -/
structure Body where
  Attributes : List Attribute
  Blocks : List Block

def Block.Type_ : Block → String
  | Block.mk t _ _ _ _ _ _ _ => t

def Block.Labels : Block → List String
  | Block.mk _ l _ _ _ _ _ _ => l

def Block.Body : Block → Body
  | Block.mk _ _ attrs blocks _ _ _ _ => { Attributes := attrs, Blocks := blocks }

def Block.DefRange : Block → Pos
  | Block.mk _ _ _ _ r _ _ _ => r

def Block.TypeRange : Block → Pos
  | Block.mk _ _ _ _ _ r _ _ => r

def Block.OpenBraceRange : Block → Pos
  | Block.mk _ _ _ _ _ _ r _ => r

def Block.LabelRanges : Block → List Pos
  | Block.mk _ _ _ _ _ _ _ r => r

/-- Library: `hcl.AttributeSchema` (the analyzer leaves `Required` false). -/
structure AttributeSchema where
  Name : String
deriving DecidableEq, Repr

/-- Library: `hcl.BlockHeaderSchema`. -/
structure BlockHeaderSchema where
  Type_ : String
  LabelNames : List String
deriving DecidableEq, Repr

/-- Library: `hcl.BodySchema`. -/
structure BodySchema where
  Attributes : List AttributeSchema
  Blocks : List BlockHeaderSchema
deriving DecidableEq, Repr

/-- Library: `hcl.BodyContent`: the attributes found (a map keyed by name) and the blocks
accepted, in source order. -/
structure BodyContent where
  Attributes : List Attribute
  Blocks : List Block

/-- Library: the treatment of one block by `PartialContent`: a block whose type the schema does
not name is left out silently; a block with more or fewer labels than the schema names is left
out with an error diagnostic; any other block is accepted. -/
def partialBlock (schema : BodySchema) (block : Block) : List Block × List Diagnostic :=
  match schema.Blocks.reverse.find? (fun s => s.Type_ == block.Type_) with
  | none => ([], [])
  | some blockS =>
    if block.Labels.length > blockS.LabelNames.length then
      ([], [{ Severity := DiagnosticSeverity.DiagError,
              Summary := "Extraneous label for " ++ block.Type_,
              Detail :=
                if blockS.LabelNames.length = 0 then
                  "No labels are expected for " ++ block.Type_ ++ " blocks."
                else
                  "Only " ++ toString blockS.LabelNames.length ++ " labels ("
                    ++ ", ".intercalate blockS.LabelNames ++ ") are expected for "
                    ++ block.Type_ ++ " blocks.",
              Subject := block.LabelRanges.getD blockS.LabelNames.length block.DefRange }])
    else if block.Labels.length < blockS.LabelNames.length then
      ([], [{ Severity := DiagnosticSeverity.DiagError,
              Summary := "Missing " ++ blockS.LabelNames.getD block.Labels.length ""
                ++ " for " ++ block.Type_,
              Detail := "All " ++ block.Type_ ++ " blocks must have "
                ++ toString blockS.LabelNames.length ++ " labels ("
                ++ ", ".intercalate blockS.LabelNames ++ ").",
              Subject := block.OpenBraceRange }])
    else ([block], [])

/-- Library: `Body.PartialContent` (content and diagnostics; the remaining body is not used by
the analyzer). -/
def Body.PartialContent (b : Body) (schema : BodySchema) : BodyContent × List Diagnostic :=
  ({ Attributes := schema.Attributes.filterMap
        (fun s => b.Attributes.find? (fun a => a.Name == s.Name)),
     Blocks := (b.Blocks.map (partialBlock schema)).flatMap (fun r => r.1) },
   (b.Blocks.map (partialBlock schema)).flatMap (fun r => r.2))

/-- Library: `Body.JustAttributes`: all attributes of the body, with an error diagnostic naming
the first nested block when the body has nested blocks. -/
def Body.JustAttributes (b : Body) : List Attribute × List Diagnostic :=
  (b.Attributes,
   match b.Blocks with
   | [] => []
   | example_ :: _ =>
     [{ Severity := DiagnosticSeverity.DiagError,
        Summary := "Unexpected \"" ++ example_.Type_ ++ "\" block",
        Detail := "Blocks are not allowed here.",
        Subject := example_.TypeRange }])

/-- Library: `Blocks.OfType`. -/
def OfType (blocks : List Block) (typeName : String) : List Block :=
  blocks.filter (fun b => b.Type_ == typeName)

/-- Library: `hclsyntax.ParseConfig`, the parser proper, as a function from the source text and
the file name to the file body and the diagnostics. -/
abbrev ParseConfig := String → String → Body × List Diagnostic

/-- Library: `hclparse.Parser.ParseHCL`. The parser keeps a registry of the files it has parsed,
keyed by file name: a name parsed before yields the registered file again, with no
diagnostics and without looking at the source; otherwise the source is parsed and the file
registered. The result is the file body, the diagnostics and the new registry. -/
def ParseHCL (parseConfig : ParseConfig) (files : List (String × Body)) (src filename : String) :
    Body × List Diagnostic × List (String × Body) :=
  match files.lookup filename with
  | some existing => (existing, [], files)
  | none =>
    ((parseConfig src filename).1, (parseConfig src filename).2,
      (filename, (parseConfig src filename).1) :: files)

end hcl

/-- Go: the order in which a `range` over a map visits its entries is not specified and may
differ from one iteration to the next. `order n` is the order the runtime picks for the `n`-th
map iteration of a run: some permutation of the entries. -/
structure MapOrder where
  order : Nat → List hcl.Attribute → List hcl.Attribute
  perm : ∀ n attrs, (order n attrs).Perm attrs

/-- The runtime visits every map in source order. -/
def sourceOrder : MapOrder :=
  { order := fun _ attrs => attrs, perm := fun _ _ => List.Perm.refl _ }

/-- The runtime visits every map in reverse source order. -/
def reverseOrder : MapOrder :=
  { order := fun _ attrs => attrs.reverse, perm := fun _ attrs => List.reverse_perm attrs }

/-! ## internal/infrastructure/validator/static_terraform_validator.go: the analysis -/

/-- Go: `SensitiveKeywords`. -/
def SensitiveKeywords : List String :=
  ["password", "secret", "key", "token", "access_key", "secret_key"]

/-- Go: `strings.Contains`. -/
def stringsContains (s substr : String) : Bool :=
  s.toList.tails.any (fun t => substr.toList.isPrefixOf t)

/-- Go: the lower-case mappings of `unicode.CaseRanges` beyond ASCII, as ranges: a rune `r`
with `lo ≤ r ≤ hi` and `r - lo` a multiple of `step` has the lower case `r + delta`. These are
the simple lower-case mappings of the Unicode character database; the only two with an ASCII
lower case are U+0130 (lower case `i`) and the Kelvin sign U+212A (lower case `k`). -/
def lowerCaseRanges : List (Nat × Nat × Nat × Int) :=
  [(0xC0, 0xD6, 1, 32), (0xD8, 0xDE, 1, 32), (0x100, 0x12E, 2, 1), (0x130, 0x130, 1, -199),
   (0x132, 0x136, 2, 1), (0x139, 0x147, 2, 1), (0x14A, 0x176, 2, 1), (0x178, 0x178, 1, -121),
   (0x179, 0x17D, 2, 1), (0x181, 0x181, 1, 210), (0x182, 0x184, 2, 1), (0x186, 0x186, 1, 206),
   (0x187, 0x187, 1, 1), (0x189, 0x18A, 1, 205), (0x18B, 0x18B, 1, 1), (0x18E, 0x18E, 1, 79),
   (0x18F, 0x18F, 1, 202), (0x190, 0x190, 1, 203), (0x191, 0x191, 1, 1), (0x193, 0x193, 1, 205),
   (0x194, 0x194, 1, 207), (0x196, 0x196, 1, 211), (0x197, 0x197, 1, 209), (0x198, 0x198, 1, 1),
   (0x19C, 0x19C, 1, 211), (0x19D, 0x19D, 1, 213), (0x19F, 0x19F, 1, 214), (0x1A0, 0x1A4, 2, 1),
   (0x1A6, 0x1A6, 1, 218), (0x1A7, 0x1A7, 1, 1), (0x1A9, 0x1A9, 1, 218), (0x1AC, 0x1AC, 1, 1),
   (0x1AE, 0x1AE, 1, 218), (0x1AF, 0x1AF, 1, 1), (0x1B1, 0x1B2, 1, 217), (0x1B3, 0x1B5, 2, 1),
   (0x1B7, 0x1B7, 1, 219), (0x1B8, 0x1B8, 1, 1), (0x1BC, 0x1BC, 1, 1), (0x1C4, 0x1C4, 1, 2),
   (0x1C5, 0x1C5, 1, 1), (0x1C7, 0x1C7, 1, 2), (0x1C8, 0x1C8, 1, 1), (0x1CA, 0x1CA, 1, 2),
   (0x1CB, 0x1DB, 2, 1), (0x1DE, 0x1EE, 2, 1), (0x1F1, 0x1F1, 1, 2), (0x1F2, 0x1F4, 2, 1),
   (0x1F6, 0x1F6, 1, -97), (0x1F7, 0x1F7, 1, -56), (0x1F8, 0x21E, 2, 1), (0x220, 0x220, 1, -130),
   (0x222, 0x232, 2, 1), (0x23A, 0x23A, 1, 10795), (0x23B, 0x23B, 1, 1), (0x23D, 0x23D, 1, -163),
   (0x23E, 0x23E, 1, 10792), (0x241, 0x241, 1, 1), (0x243, 0x243, 1, -195),
   (0x244, 0x244, 1, 69), (0x245, 0x245, 1, 71), (0x246, 0x24E, 2, 1), (0x370, 0x372, 2, 1),
   (0x376, 0x376, 1, 1), (0x37F, 0x37F, 1, 116), (0x386, 0x386, 1, 38), (0x388, 0x38A, 1, 37),
   (0x38C, 0x38C, 1, 64), (0x38E, 0x38F, 1, 63), (0x391, 0x3A1, 1, 32), (0x3A3, 0x3AB, 1, 32),
   (0x3CF, 0x3CF, 1, 8), (0x3D8, 0x3EE, 2, 1), (0x3F4, 0x3F4, 1, -60), (0x3F7, 0x3F7, 1, 1),
   (0x3F9, 0x3F9, 1, -7), (0x3FA, 0x3FA, 1, 1), (0x3FD, 0x3FF, 1, -130), (0x400, 0x40F, 1, 80),
   (0x410, 0x42F, 1, 32), (0x460, 0x480, 2, 1), (0x48A, 0x4BE, 2, 1), (0x4C0, 0x4C0, 1, 15),
   (0x4C1, 0x4CD, 2, 1), (0x4D0, 0x52E, 2, 1), (0x531, 0x556, 1, 48), (0x10A0, 0x10C5, 1, 7264),
   (0x10C7, 0x10C7, 1, 7264), (0x10CD, 0x10CD, 1, 7264), (0x13A0, 0x13EF, 1, 38864),
   (0x13F0, 0x13F5, 1, 8), (0x1C90, 0x1CBA, 1, -3008), (0x1CBD, 0x1CBF, 1, -3008),
   (0x1E00, 0x1E94, 2, 1), (0x1E9E, 0x1E9E, 1, -7615), (0x1EA0, 0x1EFE, 2, 1),
   (0x1F08, 0x1F0F, 1, -8), (0x1F18, 0x1F1D, 1, -8), (0x1F28, 0x1F2F, 1, -8),
   (0x1F38, 0x1F3F, 1, -8), (0x1F48, 0x1F4D, 1, -8), (0x1F59, 0x1F5F, 2, -8),
   (0x1F68, 0x1F6F, 1, -8), (0x1F88, 0x1F8F, 1, -8), (0x1F98, 0x1F9F, 1, -8),
   (0x1FA8, 0x1FAF, 1, -8), (0x1FB8, 0x1FB9, 1, -8), (0x1FBA, 0x1FBB, 1, -74),
   (0x1FBC, 0x1FBC, 1, -9), (0x1FC8, 0x1FCB, 1, -86), (0x1FCC, 0x1FCC, 1, -9),
   (0x1FD8, 0x1FD9, 1, -8), (0x1FDA, 0x1FDB, 1, -100), (0x1FE8, 0x1FE9, 1, -8),
   (0x1FEA, 0x1FEB, 1, -112), (0x1FEC, 0x1FEC, 1, -7), (0x1FF8, 0x1FF9, 1, -128),
   (0x1FFA, 0x1FFB, 1, -126), (0x1FFC, 0x1FFC, 1, -9), (0x2126, 0x2126, 1, -7517),
   (0x212A, 0x212A, 1, -8383), (0x212B, 0x212B, 1, -8262), (0x2132, 0x2132, 1, 28),
   (0x2160, 0x216F, 1, 16), (0x2183, 0x2183, 1, 1), (0x24B6, 0x24CF, 1, 26),
   (0x2C00, 0x2C2F, 1, 48), (0x2C60, 0x2C60, 1, 1), (0x2C62, 0x2C62, 1, -10743),
   (0x2C63, 0x2C63, 1, -3814), (0x2C64, 0x2C64, 1, -10727), (0x2C67, 0x2C6B, 2, 1),
   (0x2C6D, 0x2C6D, 1, -10780), (0x2C6E, 0x2C6E, 1, -10749), (0x2C6F, 0x2C6F, 1, -10783),
   (0x2C70, 0x2C70, 1, -10782), (0x2C72, 0x2C72, 1, 1), (0x2C75, 0x2C75, 1, 1),
   (0x2C7E, 0x2C7F, 1, -10815), (0x2C80, 0x2CE2, 2, 1), (0x2CEB, 0x2CED, 2, 1),
   (0x2CF2, 0x2CF2, 1, 1), (0xA640, 0xA66C, 2, 1), (0xA680, 0xA69A, 2, 1),
   (0xA722, 0xA72E, 2, 1), (0xA732, 0xA76E, 2, 1), (0xA779, 0xA77B, 2, 1),
   (0xA77D, 0xA77D, 1, -35332), (0xA77E, 0xA786, 2, 1), (0xA78B, 0xA78B, 1, 1),
   (0xA78D, 0xA78D, 1, -42280), (0xA790, 0xA792, 2, 1), (0xA796, 0xA7A8, 2, 1),
   (0xA7AA, 0xA7AA, 1, -42308), (0xA7AB, 0xA7AB, 1, -42319), (0xA7AC, 0xA7AC, 1, -42315),
   (0xA7AD, 0xA7AD, 1, -42305), (0xA7AE, 0xA7AE, 1, -42308), (0xA7B0, 0xA7B0, 1, -42258),
   (0xA7B1, 0xA7B1, 1, -42282), (0xA7B2, 0xA7B2, 1, -42261), (0xA7B3, 0xA7B3, 1, 928),
   (0xA7B4, 0xA7C2, 2, 1), (0xA7C4, 0xA7C4, 1, -48), (0xA7C5, 0xA7C5, 1, -42307),
   (0xA7C6, 0xA7C6, 1, -35384), (0xA7C7, 0xA7C9, 2, 1), (0xA7D0, 0xA7D0, 1, 1),
   (0xA7D6, 0xA7D8, 2, 1), (0xA7F5, 0xA7F5, 1, 1), (0xFF21, 0xFF3A, 1, 32),
   (0x10400, 0x10427, 1, 40), (0x104B0, 0x104D3, 1, 40), (0x10570, 0x1057A, 1, 39),
   (0x1057C, 0x1058A, 1, 39), (0x1058C, 0x10592, 1, 39), (0x10594, 0x10595, 1, 39),
   (0x10C80, 0x10CB2, 1, 64), (0x118A0, 0x118BF, 1, 32), (0x16E40, 0x16E5F, 1, 32),
   (0x1E900, 0x1E921, 1, 34)]

/-- Go: `unicode.ToLower`. -/
def unicodeToLower (c : Char) : Char :=
  if c.toNat < 128 then
    if 65 ≤ c.toNat ∧ c.toNat ≤ 90 then Char.ofNat (c.toNat + 32) else c
  else
    match lowerCaseRanges.find?
        (fun r => r.1 ≤ c.toNat && c.toNat ≤ r.2.1 && (c.toNat - r.1) % r.2.2.1 == 0) with
    | some r => Char.ofNat (Int.toNat (c.toNat + r.2.2.2))
    | none => c

/-- Go: `strings.ToLower`. -/
def stringsToLower (s : String) : String :=
  String.mk (s.toList.map unicodeToLower)

/-- Go: `strings.HasSuffix`. -/
def stringsHasSuffix (s suffix : String) : Bool :=
  suffix.toList.isSuffixOf s.toList

/-- Go: the conversion of a diagnostic into an `entity.ValidationConfigError` done by `Analyze`
(lines 44-49 and 57-62). -/
def toValidationError (fileName : String) (diag : hcl.Diagnostic) : ValidationConfigError :=
  { File := fileName,
    Message := diag.Summary ++ ": " ++ diag.Detail,
    Line := diag.Subject.Line,
    Column := diag.Subject.Column }

/-- Go: the schema of `analyzeFile`. -/
def fileSchema : hcl.BodySchema :=
  { Attributes := [],
    Blocks := [{ Type_ := "terraform", LabelNames := [] },
               { Type_ := "provider", LabelNames := ["name"] },
               { Type_ := "resource", LabelNames := ["type", "name"] },
               { Type_ := "data", LabelNames := ["type", "name"] },
               { Type_ := "variable", LabelNames := ["name"] },
               { Type_ := "output", LabelNames := ["name"] },
               { Type_ := "module", LabelNames := ["name"] }] }

/-- Go: `tfSchema` of `analyzeTerraformBlocks`. -/
def tfSchema : hcl.BodySchema :=
  { Attributes := [], Blocks := [{ Type_ := "required_providers", LabelNames := [] }] }

/-- Go: `resSchema` of `analyzeResourceBlocks`. -/
def resSchema : hcl.BodySchema :=
  { Attributes := [{ Name := "tags" }], Blocks := [{ Type_ := "lifecycle", LabelNames := [] }] }

/-- Go: the diagnostic for a provider entry that is an object without a `version` key. -/
def missingVersionDiag (fileName : String) (attr : hcl.Attribute) : hcl.Diagnostic :=
  { Severity := hcl.DiagnosticSeverity.DiagWarning,
    Summary := "Provider " ++ attr.Name ++ " missing version constraint in " ++ fileName,
    Detail := "",
    Subject := attr.Range }

/-- Go: the diagnostic for a provider entry that is not an object. -/
def nonObjectDiag (fileName : String) (attr : hcl.Attribute) : hcl.Diagnostic :=
  { Severity := hcl.DiagnosticSeverity.DiagWarning,
    Summary := "Provider " ++ attr.Name ++ " has non-object requirement in " ++ fileName,
    Detail := "",
    Subject := attr.Range }

/-- Go: the body of the loop of `analyzeTerraformBlocks` over the entries of a
`required_providers` block (lines 118-136), for one entry. -/
def providerEntryDiags (fileName : String) (attr : hcl.Attribute) : List hcl.Diagnostic :=
  attr.Expr.Value.2 ++
    (match attr.Expr.Value.1 with
     | hcl.Value.object keys =>
       if keys.contains "version" then [] else [missingVersionDiag fileName attr]
     | hcl.Value.other => [nonObjectDiag fileName attr])

/-- Go: the body of the loop of `analyzeTerraformBlocks` over the `required_providers` blocks
(lines 114-137), for one block; the map of its attributes is ranged over in the order of the
`n`-th map iteration. -/
def requiredProvidersDiags (ord : MapOrder) (n : Nat) (fileName : String)
    (rpBlock : hcl.Block) : List hcl.Diagnostic :=
  rpBlock.Body.JustAttributes.2
    ++ (ord.order n rpBlock.Body.JustAttributes.1).flatMap (providerEntryDiags fileName)

/-- Go: the loop of `analyzeTerraformBlocks` over the `required_providers` blocks of one
`terraform` block; the result is the diagnostics and the number of map iterations so far. -/
def requiredProvidersLoop (ord : MapOrder) (fileName : String) :
    Nat → List hcl.Block → List hcl.Diagnostic × Nat
  | n, [] => ([], n)
  | n, rpBlock :: rest =>
    (requiredProvidersDiags ord n fileName rpBlock
        ++ (requiredProvidersLoop ord fileName (n + 1) rest).1,
      (requiredProvidersLoop ord fileName (n + 1) rest).2)

/-- Go: the body of the outer loop of `analyzeTerraformBlocks` (lines 105-138), for one
`terraform` block. -/
def terraformBlockDiags (ord : MapOrder) (n : Nat) (fileName : String) (block : hcl.Block) :
    List hcl.Diagnostic × Nat :=
  ((block.Body.PartialContent tfSchema).2
      ++ (requiredProvidersLoop ord fileName n
            (hcl.OfType (block.Body.PartialContent tfSchema).1.Blocks "required_providers")).1,
    (requiredProvidersLoop ord fileName n
      (hcl.OfType (block.Body.PartialContent tfSchema).1.Blocks "required_providers")).2)

/-- Go: the outer loop of `analyzeTerraformBlocks` over the `terraform` blocks. -/
def terraformBlocksLoop (ord : MapOrder) (fileName : String) :
    Nat → List hcl.Block → List hcl.Diagnostic × Nat
  | n, [] => ([], n)
  | n, block :: rest =>
    ((terraformBlockDiags ord n fileName block).1
        ++ (terraformBlocksLoop ord fileName (terraformBlockDiags ord n fileName block).2 rest).1,
      (terraformBlocksLoop ord fileName (terraformBlockDiags ord n fileName block).2 rest).2)

/-- Go: `TerraformAnalyzer.analyzeTerraformBlocks`; `n` counts the map iterations made so far
in the run. -/
def TerraformAnalyzer.analyzeTerraformBlocks (ord : MapOrder) (n : Nat)
    (content : hcl.BodyContent) (fileName : String) : List hcl.Diagnostic × Nat :=
  terraformBlocksLoop ord fileName n (hcl.OfType content.Blocks "terraform")

/-- Go: the diagnostic for a resource without lifecycle block. -/
def missingLifecycleDiag (fileName resType resName : String) (block : hcl.Block) :
    hcl.Diagnostic :=
  { Severity := hcl.DiagnosticSeverity.DiagWarning,
    Summary := "Resource " ++ resType ++ "." ++ resName ++ " missing lifecycle block in "
      ++ fileName,
    Detail := "",
    Subject := block.DefRange }

/-- Go: the diagnostic for a resource without tags attribute. -/
def missingTagsDiag (fileName resType resName : String) (block : hcl.Block) : hcl.Diagnostic :=
  { Severity := hcl.DiagnosticSeverity.DiagWarning,
    Summary := "Resource " ++ resType ++ "." ++ resName ++ " missing tags attribute in "
      ++ fileName,
    Detail := "",
    Subject := block.DefRange }

/-- Go: the diagnostic for a sensitive attribute with a literal value. -/
def sensitiveDiag (fileName resType resName : String) (attr : hcl.Attribute) : hcl.Diagnostic :=
  { Severity := hcl.DiagnosticSeverity.DiagWarning,
    Summary := "Potential hardcoded sensitive value in attribute " ++ attr.Name
      ++ " of resource " ++ resType ++ "." ++ resName ++ " in " ++ fileName,
    Detail := "",
    Subject := attr.Range }

/-- Go: the body of the loop of `analyzeResourceBlocks` over the attributes of a resource
(lines 177-189), for one attribute: the inner loop over `SensitiveKeywords`. -/
def sensitiveAttrDiags (fileName resType resName : String) (attr : hcl.Attribute) :
    List hcl.Diagnostic :=
  SensitiveKeywords.flatMap (fun kw =>
    if stringsContains (stringsToLower attr.Name) kw then
      if !hcl.HasErrors attr.Expr.Value.2 then [sensitiveDiag fileName resType resName attr]
      else []
    else [])

/-- Go: the two checks of `analyzeResourceBlocks` on the partial content of a resource body
(lines 159-173): no accepted `lifecycle` block, no `tags` attribute. -/
def lifecycleTagsDiags (fileName : String) (block : hcl.Block) : List hcl.Diagnostic :=
  (if (hcl.OfType (block.Body.PartialContent resSchema).1.Blocks "lifecycle").length = 0
    then [missingLifecycleDiag fileName (block.Labels.getD 0 "") (block.Labels.getD 1 "") block]
    else [])
  ++ (if (block.Body.PartialContent resSchema).1.Attributes.any (fun a => a.Name == "tags")
      then []
      else [missingTagsDiag fileName (block.Labels.getD 0 "") (block.Labels.getD 1 "") block])

/-- Go: the body of the loop of `analyzeResourceBlocks` (lines 146-190), for one resource
block; `Labels[0]` and `Labels[1]` exist because `PartialContent` accepts a resource block
only with two labels; the map of all attributes is ranged over in the order of the `n`-th map
iteration. -/
def resourceBlockDiags (ord : MapOrder) (n : Nat) (fileName : String) (block : hcl.Block) :
    List hcl.Diagnostic :=
  (block.Body.PartialContent resSchema).2
    ++ lifecycleTagsDiags fileName block
    ++ block.Body.JustAttributes.2
    ++ (ord.order n block.Body.JustAttributes.1).flatMap
        (sensitiveAttrDiags fileName (block.Labels.getD 0 "") (block.Labels.getD 1 ""))

/-- Go: the loop of `analyzeResourceBlocks` over the resource blocks. -/
def resourceBlocksLoop (ord : MapOrder) (fileName : String) :
    Nat → List hcl.Block → List hcl.Diagnostic × Nat
  | n, [] => ([], n)
  | n, block :: rest =>
    (resourceBlockDiags ord n fileName block
        ++ (resourceBlocksLoop ord fileName (n + 1) rest).1,
      (resourceBlocksLoop ord fileName (n + 1) rest).2)

/-- Go: `TerraformAnalyzer.analyzeResourceBlocks`. -/
def TerraformAnalyzer.analyzeResourceBlocks (ord : MapOrder) (n : Nat)
    (content : hcl.BodyContent) (fileName : String) : List hcl.Diagnostic × Nat :=
  resourceBlocksLoop ord fileName n (hcl.OfType content.Blocks "resource")

/-- Go: `TerraformAnalyzer.analyzeFile`. -/
def TerraformAnalyzer.analyzeFile (ord : MapOrder) (n : Nat) (body : hcl.Body)
    (fileName : String) : List hcl.Diagnostic × Nat :=
  ((body.PartialContent fileSchema).2
      ++ (TerraformAnalyzer.analyzeTerraformBlocks ord n (body.PartialContent fileSchema).1
            fileName).1
      ++ (TerraformAnalyzer.analyzeResourceBlocks ord
            (TerraformAnalyzer.analyzeTerraformBlocks ord n (body.PartialContent fileSchema).1
              fileName).2
            (body.PartialContent fileSchema).1 fileName).1,
    (TerraformAnalyzer.analyzeResourceBlocks ord
      (TerraformAnalyzer.analyzeTerraformBlocks ord n (body.PartialContent fileSchema).1
        fileName).2
      (body.PartialContent fileSchema).1 fileName).2)

/-- The state of the loop of `Analyze` over the files: the registry of the parser, the number
of map iterations made, the result built so far, and (for the statements only) the
diagnostics behind `result.Errors`, each with the name of its file. -/
structure AnalyzeState where
  parserFiles : List (String × hcl.Body)
  iterations : Nat
  result : AnalysisResult
  collected : List (String × hcl.Diagnostic)

/-- Go: whether `Analyze` analyzes the file (line 37: declared type terraform and name ending
in `.tf`). -/
def isAnalyzed (file : ConfigFile) : Bool :=
  !(file.Type_ != "terraform" || !stringsHasSuffix file.Name ".tf")

/-- Go: the body of the loop of `TerraformAnalyzer.Analyze` (lines 36-66), for one file. -/
def analyzeStep (parseConfig : hcl.ParseConfig) (ord : MapOrder) (st : AnalyzeState)
    (file : ConfigFile) : AnalyzeState :=
  if file.Type_ != "terraform" || !stringsHasSuffix file.Name ".tf" then st
  else
    match hcl.ParseHCL parseConfig st.parserFiles file.Content file.Name with
    | (hclFile, fileDiags, parserFiles) =>
      if hcl.HasErrors fileDiags then
        { parserFiles := parserFiles,
          iterations := st.iterations,
          result := { Passed := false,
                      Errors := st.result.Errors ++ fileDiags.map (toValidationError file.Name) },
          collected := st.collected ++ fileDiags.map (fun d => (file.Name, d)) }
      else
        let analysis := TerraformAnalyzer.analyzeFile ord st.iterations hclFile file.Name
        { parserFiles := parserFiles,
          iterations := analysis.2,
          result := { Passed := if hcl.HasErrors analysis.1 then false else st.result.Passed,
                      Errors := st.result.Errors
                        ++ analysis.1.map (toValidationError file.Name) },
          collected := st.collected ++ analysis.1.map (fun d => (file.Name, d)) }

/-- Go: the state in which the loop of `Analyze` starts: a new parser, `Passed` true. -/
def analyzeStart : AnalyzeState :=
  { parserFiles := [], iterations := 0, result := { Passed := true, Errors := [] },
    collected := [] }

/-- Go: `TerraformAnalyzer.Analyze`, lines 32-67: the loop over the files. -/
def TerraformAnalyzer.analyzeFiles (parseConfig : hcl.ParseConfig) (ord : MapOrder)
    (files : List ConfigFile) : AnalyzeState :=
  files.foldl (analyzeStep parseConfig ord) analyzeStart

/-- Go: the result `Analyze` has built when it reaches `saveResults`. -/
def TerraformAnalyzer.collect (parseConfig : hcl.ParseConfig) (ord : MapOrder)
    (files : List ConfigFile) : AnalysisResult :=
  (TerraformAnalyzer.analyzeFiles parseConfig ord files).result

/-! ## The structural conditions of the specification, read on the syntax tree -/

/-- Whether a `required_providers` entry has a version: its value is an object with a
`version` key. -/
def entryHasVersion (attr : hcl.Attribute) : Bool :=
  match attr.Expr.Value.1 with
  | hcl.Value.object keys => keys.contains "version"
  | hcl.Value.other => false

/-- Whether a resource block has a lifecycle sub-block: a nested block of type `lifecycle`,
which takes no label. -/
def hasLifecycleBlock (block : hcl.Block) : Bool :=
  block.Body.Blocks.any (fun b => b.Type_ == "lifecycle" && b.Labels.length == 0)

/-- Whether a resource block has a `tags` attribute. -/
def hasTagsAttribute (block : hcl.Block) : Bool :=
  block.Body.Attributes.any (fun a => a.Name == "tags")

/-- Whether the character `c` is the character `k` up to case, for a `k` that is a lower-case
ASCII letter or an ASCII character without case: `c` is `k` itself or a capital letter of
`k`, which is the ASCII capital or one of the two capital letters beyond ASCII that belong to
an ASCII letter (the Kelvin sign for `k`, the capital I with dot above for `i`). Another
lower-case letter, such as the long s (U+017F), is not `s` up to case. This definition follows
the specification (compared case-insensitively), not the code. -/
def sameIgnoringCase (c k : Char) : Bool :=
  c == k || (65 ≤ c.toNat && c.toNat ≤ 90 && c.toNat + 32 == k.toNat)
    || (k == 'k' && c.toNat == 0x212A) || (k == 'i' && c.toNat == 0x130)

/-- Whether the characters of the keyword are, up to case, the first characters of the
text. -/
def prefixIgnoringCase : List Char → List Char → Bool
  | [], _ => true
  | _ :: _, [] => false
  | k :: ks, c :: cs => sameIgnoringCase c k && prefixIgnoringCase ks cs

/-- Whether the keyword occurs in the text up to case. This definition follows the
specification, not the code. -/
def containsIgnoringCase (s kw : String) : Bool :=
  s.toList.tails.any (prefixIgnoringCase kw.toList)

/-- Whether an attribute name, compared case-insensitively, contains a sensitive keyword.
This definition follows the specification, not the code: it does not lower-case the name. -/
def isSensitiveName (name : String) : Bool :=
  SensitiveKeywords.any (containsIgnoringCase name)

/-- Whether a character of a keyword is an ASCII character other than a capital letter. -/
def isFoldedAscii (k : Char) : Bool :=
  0 < k.toNat && k.toNat < 128 && !(65 ≤ k.toNat && k.toNat ≤ 90)

/-! ## Example configuration texts and what the parser returns for them -/

/-- A resource block that is never closed. -/
def unterminatedText : String := "resource \"a\" \"b\" \x7b\n"

/-- An argument whose value is written in single quotes. -/
def singleQuoteText : String := "name = \x27web\x27\n"

/-- A terraform block whose required_providers entry `aws` is an object without version. -/
def providersText : String :=
  "terraform \x7b\n  required_providers \x7b\n    aws = \x7b\n      source = \"hashicorp/aws\"\n    \x7d\n  \x7d\n\x7d\n"

/-- A resource whose attribute `db_password` is a literal. -/
def secretLiteralText : String :=
  "resource \"aws_db_instance\" \"db\" \x7b\n  db_password = \"hunter2\"\n\x7d\n"

/-- A resource whose attribute `db_password` is a reference. -/
def secretReferenceText : String :=
  "resource \"aws_db_instance\" \"db\" \x7b\n  db_password = var.db_password\n\x7d\n"

/-- A resource with two sensitive attributes, both literals. -/
def twoSecretsText : String :=
  "resource \"aws_db_instance\" \"db\" \x7b\n  password = \"x\"\n  token = \"y\"\n\x7d\n"

/-- The body of a file holding one resource block with the given labels and attributes. -/
def resourceBody (resType resName : String) (attrs : List hcl.Attribute) : hcl.Body :=
  { Attributes := [],
    Blocks := [hcl.Block.mk "resource" [resType, resName] attrs [] ⟨1, 1⟩ ⟨1, 1⟩ ⟨1, 18⟩
      [⟨1, 10⟩, ⟨1, 14⟩]] }

/-- What the library's parser returns for the example texts (and an empty body for any other
text): the syntax tree, and for the two malformed texts the parser's error diagnostics. -/
def exampleParseConfig : hcl.ParseConfig := fun src _ =>
  if src = unterminatedText then
    (resourceBody "a" "b" [],
      [{ Severity := hcl.DiagnosticSeverity.DiagError,
         Summary := "Unclosed configuration block",
         Detail := "There is no closing brace for this block before the end of the file. This may be caused by incorrect brace nesting elsewhere in this file.",
         Subject := ⟨1, 18⟩ }])
  else if src = singleQuoteText then
    ({ Attributes := [], Blocks := [] },
      [{ Severity := hcl.DiagnosticSeverity.DiagError,
         Summary := "Invalid character",
         Detail := "Single quotes are not valid. Use double quotes (\") to enclose strings.",
         Subject := ⟨1, 8⟩ },
       { Severity := hcl.DiagnosticSeverity.DiagError,
         Summary := "Invalid expression",
         Detail := "Expected the start of an expression, but found an invalid expression token.",
         Subject := ⟨1, 8⟩ }])
  else if src = mainTf.Content then (resourceBody "a" "b" [], [])
  else if src = providersText then
    ({ Attributes := [],
       Blocks := [hcl.Block.mk "terraform" [] []
         [hcl.Block.mk "required_providers" []
           [{ Name := "aws", Expr := hcl.Expression.objectCons ["source"], Range := ⟨3, 5⟩ }]
           [] ⟨2, 3⟩ ⟨2, 3⟩ ⟨2, 22⟩ []]
         ⟨1, 1⟩ ⟨1, 1⟩ ⟨1, 11⟩ []] }, [])
  else if src = secretLiteralText then
    (resourceBody "aws_db_instance" "db"
      [{ Name := "db_password", Expr := hcl.Expression.literal, Range := ⟨2, 3⟩ }], [])
  else if src = secretReferenceText then
    (resourceBody "aws_db_instance" "db"
      [{ Name := "db_password", Expr := hcl.Expression.reference ⟨2, 17⟩, Range := ⟨2, 3⟩ }], [])
  else if src = twoSecretsText then
    (resourceBody "aws_db_instance" "db"
      [{ Name := "password", Expr := hcl.Expression.literal, Range := ⟨2, 3⟩ },
       { Name := "token", Expr := hcl.Expression.literal, Range := ⟨3, 3⟩ }], [])
  else ({ Attributes := [], Blocks := [] }, [])

/-- A Terraform file with the given name and text, as the generator builds it. -/
def tfFile (name content : String) : ConfigFile :=
  { JobID := "", Name := name, Content := content, Type_ := "terraform", HasError := false,
    ErrorMsg := none }

/-! ## app/usecase/deployer.go -/

/-- What happens when `runCmd` runs the command of one phase under the phase's context:
* `startFailed`: `cmd.Start` returns an error; no process runs;
* `exited`: the process runs to its end, writing `output` to the log; `waitErr` is the result
  of `cmd.Wait` (`none` for exit status 0);
* `interrupted`: the phase context (the phase's own bound or the caller's deadline or cancel)
  is done first; the process is killed and awaited, and `runCmd` returns the context's error.
`ctxErr` is what the phase context's `Err()` returns when `Deploy` inspects it afterwards. -/
inductive PhaseOutcome where
  | startFailed (err : Error) (ctxErr : Option Error)
  | exited (output : String) (waitErr : Option Error) (ctxErr : Option Error)
  | interrupted (output : String) (ctxErr : Error)
deriving DecidableEq, Repr

/-- What the process of the phase wrote to the log file (standard output and error). -/
def PhaseOutcome.output : PhaseOutcome → String
  | PhaseOutcome.startFailed _ _ => ""
  | PhaseOutcome.exited output _ _ => output
  | PhaseOutcome.interrupted output _ => output

/-- Go: the error `runCmd` returns. -/
def PhaseOutcome.err : PhaseOutcome → Option Error
  | PhaseOutcome.startFailed err _ => some err
  | PhaseOutcome.exited _ waitErr _ => waitErr
  | PhaseOutcome.interrupted _ ctxErr => some ctxErr

/-- Go: the phase context's `Err()` after `runCmd` returned. -/
def PhaseOutcome.ctxErr : PhaseOutcome → Option Error
  | PhaseOutcome.startFailed _ ctxErr => ctxErr
  | PhaseOutcome.exited _ _ ctxErr => ctxErr
  | PhaseOutcome.interrupted _ ctxErr => some ctxErr

/-- The answers of the operating system during one call of `Deploy`: failures of `os.Stat`
(other than the path not existing), of `os.MkdirAll`, of `os.Create` and of the four writes of
`Deploy` itself to the log; the formatted start and end times; and what happens in the two
phases. -/
structure DeployEnv where
  statErr : Bool
  mkdirErr : Bool
  createErr : Bool
  headerErr : Bool
  initBannerErr : Bool
  applyBannerErr : Bool
  footerErr : Bool
  startedAt : String
  endedAt : String
  init : PhaseOutcome
  apply : PhaseOutcome

/-- The outcome of one call of `Deploy`: the file system afterwards, the returned log path,
how the call ended, and the commands `runCmd` was called with, in order. -/
structure DeployRun where
  fs : FS
  logPath : String
  exit : Exit
  commands : List (List String)
deriving DecidableEq, Repr

/-- Go: the command of the init phase. -/
def initCommand : List String := ["terraform", "init", "-input=false"]

/-- Go: the command of the apply phase. -/
def applyCommand : List String := ["terraform", "apply", "-auto-approve", "-input=false"]

/-- Go: the header `Deploy` writes first. -/
def logHeader (jobID startedAt relPath : String) : String :=
  "job_id: " ++ jobID ++ "\nstarted_at: " ++ startedAt ++ "\ndir: " ++ relPath
    ++ "\n\n--- COMMAND OUTPUT ---\n\n"

/-- Go: the banner of the init phase. -/
def initBanner : String := "\n--- terraform init ---\n"

/-- Go: the banner of the apply phase. -/
def applyBanner : String := "\n--- terraform apply ---\n"

/-- Go: the footer written after both phases succeeded. -/
def logFooter (endedAt : String) : String :=
  "\n--- SUCCESS ---\nended_at: " ++ endedAt ++ "\n"

/-- Go: the error `Deploy` returns for a failed phase: the `canceled or timed out` error when
the phase context is done, the `failed` error wrapping the error of `runCmd` otherwise. -/
def phaseError (phase : String) (outcome : PhaseOutcome) (err : Error) : Error :=
  match outcome.ctxErr with
  | some ctxErr => "terraform " ++ phase ++ " canceled or timed out: " ++ ctxErr
  | none => "terraform " ++ phase ++ " failed: " ++ err

/-- Go: `TerraformDeployer.Deploy`. The log file holds everything written to it so far. -/
def TerraformDeployer.Deploy (env : DeployEnv) (fs : FS) (job : Option Job) : DeployRun :=
  match job with
  | none =>
    { fs := fs, logPath := "",
      exit := Exit.panicked "invalid memory address or nil pointer dereference", commands := [] }
  | some job =>
    if job.ID == "" then
      { fs := fs, logPath := "", exit := Exit.returned (some "job id is empty"), commands := [] }
    else
      let relPath := joinPath "./deployments" job.ID
      if env.statErr || (fs.lookup relPath).isNone then
        { fs := fs, logPath := "",
          exit := Exit.returned (some ("deployment directory not found " ++ relPath)),
          commands := [] }
      else if !isDir fs relPath then
        { fs := fs, logPath := "",
          exit := Exit.returned (some ("deployment path is not a directory: " ++ relPath)),
          commands := [] }
      else
        let logDir := joinPath relPath "terraform-deployer-logs"
        match (if env.mkdirErr then none else mkdirAll fs logDir) with
        | none =>
          { fs := fs, logPath := "", exit := Exit.returned (some "create logs dir"),
            commands := [] }
        | some fs1 =>
          let logPath := joinPath logDir (job.ID ++ ".log")
          match (if env.createErr then none else writeNode fs1 logPath (FsNode.file "")) with
          | none =>
            { fs := fs1, logPath := "", exit := Exit.returned (some "create log file"),
              commands := [] }
          | some fs2 =>
            let header := logHeader job.ID env.startedAt relPath
            if env.headerErr then
              { fs := fs2, logPath := logPath,
                exit := Exit.returned (some "write header to log"), commands := [] }
            else if env.initBannerErr then
              { fs := setKey logPath (FsNode.file header) fs2, logPath := logPath,
                exit := Exit.returned (some "write log"), commands := [] }
            else
              let afterInit := header ++ initBanner ++ env.init.output
              match env.init.err with
              | some err =>
                { fs := setKey logPath (FsNode.file afterInit) fs2, logPath := logPath,
                  exit := Exit.returned (some (phaseError "init" env.init err)),
                  commands := [initCommand] }
              | none =>
                if env.applyBannerErr then
                  { fs := setKey logPath (FsNode.file afterInit) fs2, logPath := logPath,
                    exit := Exit.returned (some "write log"), commands := [initCommand] }
                else
                  let afterApply := afterInit ++ applyBanner ++ env.apply.output
                  match env.apply.err with
                  | some err =>
                    { fs := setKey logPath (FsNode.file afterApply) fs2, logPath := logPath,
                      exit := Exit.returned (some (phaseError "apply" env.apply err)),
                      commands := [initCommand, applyCommand] }
                  | none =>
                    if env.footerErr then
                      { fs := setKey logPath (FsNode.file afterApply) fs2, logPath := logPath,
                        exit := Exit.returned (some "write footer to log"),
                        commands := [initCommand, applyCommand] }
                    else
                      { fs := setKey logPath (FsNode.file (afterApply ++ logFooter env.endedAt))
                          fs2,
                        logPath := logPath, exit := Exit.returned none,
                        commands := [initCommand, applyCommand] }

/-- An environment in which the operating system never fails and both phases exit with status 0,
writing the given outputs. -/
def deployOk (initOutput applyOutput : String) : DeployEnv :=
  { statErr := false, mkdirErr := false, createErr := false, headerErr := false,
    initBannerErr := false, applyBannerErr := false, footerErr := false,
    startedAt := "2024-01-01T00:00:00Z", endedAt := "2024-01-01T00:05:00Z",
    init := PhaseOutcome.exited initOutput none none,
    apply := PhaseOutcome.exited applyOutput none none }

/-- A file system in which the workspace of job `j1` exists. -/
def workspaceFs : FS :=
  [("deployments", FsNode.dir), ("deployments/j1", FsNode.dir),
   ("deployments/j1/main.tf", FsNode.file "resource \"a\" \"b\" \x7b\x7d")]

/-- An environment in which the init phase runs into its bound after writing `partial`. -/
def deployInitTimeout : DeployEnv :=
  { deployOk "" "" with
    init := PhaseOutcome.interrupted "partial" "context deadline exceeded" }

/-! ## app/usecase/job_service.go: DeployJob and CreateJob -/

/-- The outcome of one call of `DeployJob`: the world afterwards, how the call ended, the jobs
the deploy executor was invoked with (`none` for a nil job) and the commands the executor
ran. -/
structure DeployJobRun where
  world : World
  exit : Exit
  deployCalls : List (Option Job)
  commands : List (List String)
deriving DecidableEq, Repr

/-- Go: `JobService.DeployJob`; `getErr` and `updateErr` are driver errors of `GetByID` and of
the status update, `env` gives the answers of the operating system to the executor. A panic of
the executor is not recovered. -/
def JobService.DeployJob (getErr updateErr : Bool) (env : DeployEnv) (w : World)
    (jobID : String) : DeployJobRun :=
  match MongoJobRepo.GetByID getErr w.jobs jobID with
  | (_, some err) =>
    { world := w, exit := Exit.returned (some ("err get job from store: " ++ err)),
      deployCalls := [], commands := [] }
  | (job, none) =>
    let run := TerraformDeployer.Deploy env w.fs job
    let w1 := { w with fs := run.fs }
    match run.exit with
    | Exit.panicked msg =>
      { world := w1, exit := Exit.panicked msg, deployCalls := [job], commands := run.commands }
    | Exit.returned (some err) =>
      { world := w1, exit := Exit.returned (some ("err deploy job: " ++ err)),
        deployCalls := [job], commands := run.commands }
    | Exit.returned none =>
      match w1.UpdateStatus updateErr jobID JobStatusDeployed with
      | (w2, some err) =>
        { world := w2, exit := Exit.returned (some ("err update status: " ++ err)),
          deployCalls := [job], commands := run.commands }
      | (w2, none) =>
        { world := w2, exit := Exit.returned none, deployCalls := [job],
          commands := run.commands }

/-- Go: `entity.NewJob`; `id` is what `uuid.New().String()` returns for this call and `now` the
time it reads. -/
def NewJob (id : String) (now : Nat) (description target : String) : Job :=
  { ID := id, Description := description, Target := target, Status := JobStatusPending,
    CreatedAt := now, UpdatedAt := now }

/-- Go: `JobService.CreateJob`; `uuid` is the identifier drawn by its call of `NewJob`, `dbErr`
a driver error of the insert. -/
def JobService.CreateJob (dbErr : Bool) (uuid : String) (w : World)
    (description target : String) : World × Option Error :=
  let job := NewJob uuid w.clock description target
  match MongoJobRepo.Create dbErr w.clock w.jobs job with
  | (col, some err) => ({ w with jobs := col, clock := w.clock + 1 }, some ("create job: " ++ err))
  | (col, none) => ({ w with jobs := col, clock := w.clock + 1 }, none)

/-! ## internal/infrastructure/transport/orcestrator_handler.go: handleCreateJob -/

/-- Go: `createJobReq`, the decoded request body. -/
structure createJobReq where
  Description : String
  Target : String
deriving DecidableEq, Repr

/-- The value a handler encodes as the response body: a job, or the object with the single key
`error`. -/
inductive ResponseBody where
  | job (j : Job)
  | error (msg : String)
deriving DecidableEq, Repr

/-- The response a handler writes: the status code and the encoded value. -/
structure HTTPResponse where
  code : Nat
  body : ResponseBody
deriving DecidableEq, Repr

/-- Go: `OrchestratorHandler.handleCreateJob`. `decoded` is the result of decoding the request
body; `uuid₁` is the identifier drawn by the handler's own call of `NewJob`, `uuid₂` the one
drawn afterwards inside `CreateJob`. -/
def OrchestratorHandler.handleCreateJob (dbErr : Bool) (uuid₁ uuid₂ : String) (w : World)
    (decoded : Except Error createJobReq) : World × HTTPResponse :=
  match decoded with
  | Except.error err =>
    (w, { code := 400, body := ResponseBody.error ("bad request body: " ++ err) })
  | Except.ok req =>
    if req.Description == "" || req.Target == "" then
      (w, { code := 400, body := ResponseBody.error "description and target are required" })
    else
      let job := NewJob uuid₁ w.clock req.Description req.Target
      match JobService.CreateJob dbErr uuid₂ w req.Description req.Target with
      | (w1, some err) => (w1, { code := 500, body := ResponseBody.error err })
      | (w1, none) => (w1, { code := 201, body := ResponseBody.job job })

/-- The job `j1` with the given status. -/
def jobWithStatus (status : JobStatus) : Job :=
  { pendingJob1 with Status := status }

/-- A world whose store holds the job `j1` with the given status and whose file system holds
its workspace. -/
def deployWorld (status : JobStatus) : World :=
  { jobs := [{ job := jobWithStatus status, extra := [] }],
    configFiles := [],
    fs := workspaceFs,
    clock := 1,
    trace := [] }

/-- An environment in which the init phase exits with status 1 while its context is live. -/
def deployInitExit1 : DeployEnv :=
  { deployOk "" "" with
    init := PhaseOutcome.exited "Error: no configuration files" (some "exit status 1") none }

/-- An environment in which both phases exit with status 0 after writing a line each. -/
def deployBothOk : DeployEnv :=
  deployOk "Terraform has been successfully initialized!\n" "Apply complete!\n"

/-! ## internal/infrastructure/llm/amvera_generator.go: extractFilesFromContent -/

/-- Go: `unicode.IsSpace`, the characters `strings.TrimSpace` removes. -/
def unicodeIsSpace (c : Char) : Bool :=
  c == '\t' || c == '\n' || c.toNat == 0x0B || c.toNat == 0x0C || c == '\r' || c == ' '
    || c.toNat == 0x85 || c.toNat == 0xA0 || c.toNat == 0x1680
    || (0x2000 ≤ c.toNat && c.toNat ≤ 0x200A)
    || c.toNat == 0x2028 || c.toNat == 0x2029 || c.toNat == 0x202F || c.toNat == 0x205F
    || c.toNat == 0x3000

/-- Go: `strings.TrimSpace`. -/
def stringsTrimSpace (s : String) : String :=
  String.mk ((s.toList.dropWhile unicodeIsSpace).reverse.dropWhile unicodeIsSpace).reverse

/-- Go: `strings.HasPrefix`. -/
def stringsHasPrefix (s pre : String) : Bool :=
  pre.toList.isPrefixOf s.toList

/-- Go: `strings.TrimPrefix`. -/
def stringsTrimPrefix (s pre : String) : String :=
  if stringsHasPrefix s pre then String.mk (s.toList.drop pre.length) else s

/-- Go: `strings.Split(s, "\n")` on the characters of `s`: the pieces between the newlines,
always at least one. -/
def splitNewline : List Char → List (List Char)
  | [] => [[]]
  | c :: cs =>
    if c = '\n' then [] :: splitNewline cs
    else
      match splitNewline cs with
      | [] => [[c]]
      | piece :: pieces => (c :: piece) :: pieces

/-- Go: `strings.Split(content, "\n")`. -/
def stringsSplitNewline (content : String) : List String :=
  (splitNewline content.toList).map String.mk

/-- Go: `AmveraGenerator.detectFileType`. -/
def AmveraGenerator.detectFileType (fileName : String) : String :=
  let lower := stringsToLower fileName
  if stringsHasSuffix lower ".tf" then "terraform"
  else if stringsHasSuffix lower ".yaml" || stringsHasSuffix lower ".yml" then "kubernetes"
  else if stringsHasSuffix lower ".yml" || stringsHasSuffix lower ".yaml" then "ansible"
  else "unknown"

/-- Go: the variables of the loop of `extractFilesFromContent`. -/
structure ExtractState where
  files : List ConfigFile
  currentFile : Option ConfigFile
  inCodeBlock : Bool
deriving DecidableEq, Repr

/-- Go: the file name an opening fence line gives (lines 234-237). -/
def fenceFileName (line : String) : String :=
  let fileName := stringsTrimPrefix line "```"
  if fileName == "" then "main.tf" else fileName

/-- Go: the body of the loop of `extractFilesFromContent` (lines 226-256), for one line. -/
def extractStep (st : ExtractState) (rawLine : String) : ExtractState :=
  let line := stringsTrimSpace rawLine
  if stringsHasPrefix line "```" then
    match st.inCodeBlock, st.currentFile with
    | true, some currentFile =>
      { files := st.files ++ [currentFile], currentFile := none,
        inCodeBlock := !st.inCodeBlock }
    | _, _ =>
      { files := st.files,
        currentFile := some
          { JobID := "", Name := fenceFileName line, Content := "",
            Type_ := AmveraGenerator.detectFileType (fenceFileName line), HasError := false,
            ErrorMsg := none },
        inCodeBlock := !st.inCodeBlock }
  else
    match st.inCodeBlock, st.currentFile with
    | true, some currentFile =>
      { st with
        currentFile := some
          { currentFile with
            Content := (if currentFile.Content != "" then currentFile.Content ++ "\n"
              else currentFile.Content) ++ line } }
    | _, _ => st

/-- Go: `AmveraGenerator.extractFilesFromContent`. -/
def AmveraGenerator.extractFilesFromContent (content : String) : List ConfigFile :=
  let st := (stringsSplitNewline content).foldl extractStep
    { files := [], currentFile := none, inCodeBlock := false }
  match st.currentFile with
  | some currentFile => st.files ++ [currentFile]
  | none => st.files

/-- Whether a line of the text is a fence line: trimmed, it starts with three backticks. -/
def isFenceLine (rawLine : String) : Bool :=
  stringsHasPrefix (stringsTrimSpace rawLine) "```"

/-- The label of a fence line: what follows the three backticks, trimmed of the surrounding
white space of the line. -/
def fenceLabel (rawLine : String) : String :=
  String.mk ((stringsTrimSpace rawLine).toList.drop 3)

/-- The file names the specification expects for the fence lines of a text, in order: the
fence lines are paired off, each pair (and a last fence line left without partner) gives one
file, named by the label of the opening line or `main.tf` when the label is empty. This
definition follows the specification, not the code. -/
def pairedNames : List String → List String
  | [] => []
  | [opening] => [if fenceLabel opening = "" then "main.tf" else fenceLabel opening]
  | opening :: _ :: rest =>
    (if fenceLabel opening = "" then "main.tf" else fenceLabel opening) :: pairedNames rest

/-- A text with two closed blocks (the second without label), prose between them, and a
trailing block that is never closed. -/
def fencedText : String :=
  "Here are the files:\n```main.tf\nresource \"a\" \"b\" \x7b\x7d\n```\nand\n  ```\nx = 1\n```yaml\n```vars.tf\nvariable \"v\" \x7b\x7d"

/-! ## Further example texts -/

/-- A resource that has a tags attribute and a lifecycle block and no sensitive attribute. -/
def compliantText : String :=
  "resource \"aws_instance\" \"web\" \x7b\n  ami = \"ami-123\"\n  tags = \x7b\n    Name = \"web\"\n  \x7d\n  lifecycle \x7b\n    prevent_destroy = true\n  \x7d\n\x7d\n"

/-- A resource whose attribute `secret_key` is a literal. -/
def secretKeyText : String :=
  "resource \"aws_iam_access_key\" \"k\" \x7b\n  secret_key = \"abc\"\n\x7d\n"

/-- A resource whose attribute `DB_Password`, written with capitals, is a literal. -/
def secretUpperText : String :=
  "resource \"aws_db_instance\" \"db\" \x7b\n  DB_Password = \"hunter2\"\n\x7d\n"

/-- A resource whose attribute is spelled `token` with the Kelvin sign (U+212A) for its `k`,
and is a literal. -/
def secretKelvinText : String :=
  "resource \"aws_db_instance\" \"db\" \x7b\n  to\u212Aen = \"abc\"\n\x7d\n"

/-- The resource block the parser returns for `compliantText`. -/
def compliantBlock : hcl.Block :=
  hcl.Block.mk "resource" ["aws_instance", "web"]
    [{ Name := "ami", Expr := hcl.Expression.literal, Range := ⟨2, 3⟩ },
     { Name := "tags", Expr := hcl.Expression.objectCons ["Name"], Range := ⟨3, 3⟩ }]
    [hcl.Block.mk "lifecycle" []
      [{ Name := "prevent_destroy", Expr := hcl.Expression.literal, Range := ⟨7, 5⟩ }]
      [] ⟨6, 3⟩ ⟨6, 3⟩ ⟨6, 13⟩ []]
    ⟨1, 1⟩ ⟨1, 1⟩ ⟨1, 31⟩ [⟨1, 10⟩, ⟨1, 25⟩]

/-- What the parser of the library returns for the further texts; any other text is handed to
`exampleParseConfig`. -/
def furtherParseConfig : hcl.ParseConfig := fun src name =>
  if src = compliantText then ({ Attributes := [], Blocks := [compliantBlock] }, [])
  else if src = secretKeyText then
    (resourceBody "aws_iam_access_key" "k"
      [{ Name := "secret_key", Expr := hcl.Expression.literal, Range := ⟨2, 3⟩ }], [])
  else if src = secretUpperText then
    (resourceBody "aws_db_instance" "db"
      [{ Name := "DB_Password", Expr := hcl.Expression.literal, Range := ⟨2, 3⟩ }], [])
  else if src = secretKelvinText then
    (resourceBody "aws_db_instance" "db"
      [{ Name := "to\u212Aen", Expr := hcl.Expression.literal, Range := ⟨2, 3⟩ }], [])
  else exampleParseConfig src name

/-- Library: the error diagnostic of `JustAttributes` for a body whose first nested block is
`nested`. -/
def unexpectedBlockDiag (nested : hcl.Block) : hcl.Diagnostic :=
  { Severity := hcl.DiagnosticSeverity.DiagError,
    Summary := "Unexpected \"" ++ nested.Type_ ++ "\" block",
    Detail := "Blocks are not allowed here.",
    Subject := nested.TypeRange }

/-! # Theorems -/

/-! ## Lemmas on the driver operations -/

theorem JobDoc.field_id (d : JobDoc) (id : String) :
    (d.field "id" == some (BsonValue.str id)) = (d.job.ID == id) := by
  simp [JobDoc.field]

theorem JobDoc.field_status (d : JobDoc) (s : String) :
    (d.field "status" == some (BsonValue.str s)) = (d.job.Status == s) := by
  simp [JobDoc.field]

theorem ConfigFile.field_jobid (f : ConfigFile) (id : String) :
    (f.field "jobid" == some (BsonValue.str id)) = (f.JobID == id) := by
  simp [ConfigFile.field]

theorem ConfigFile.field_job_id (f : ConfigFile) (id : String) :
    (f.field "job_id" == some (BsonValue.str id)) = false := by
  simp [ConfigFile.field]

theorem updateOne_count_zero {α : Type} (p : α → Bool) (f : α → α) (l : List α) :
    (updateOne p f l).2 = 0 ↔ ∀ d ∈ l, p d = false := by
  induction l with
  | nil => simp [updateOne]
  | cons d ds ih =>
    by_cases h : p d = true
    · simp [updateOne, h]
    · simp [updateOne, h, ih]

theorem updateOne_unchanged {α : Type} (p : α → Bool) (f : α → α) (l : List α)
    (h : (updateOne p f l).2 = 0) : (updateOne p f l).1 = l := by
  induction l with
  | nil => simp [updateOne]
  | cons d ds ih =>
    by_cases hp : p d = true
    · simp [updateOne, hp] at h
    · simp [updateOne, hp] at h ⊢
      exact ih h

theorem updateOne_find {α : Type} (p : α → Bool) (f : α → α) (hf : ∀ d, p (f d) = p d)
    (l : List α) : (updateOne p f l).1.find? p = (l.find? p).map f := by
  induction l with
  | nil => simp [updateOne]
  | cons d ds ih =>
    by_cases hp : p d = true
    · simp [updateOne, hp, List.find?, hf]
    · simp [updateOne, hp, List.find?, ih]

theorem updateOne_filter_not {α : Type} (p : α → Bool) (f : α → α) (hf : ∀ d, p (f d) = p d)
    (l : List α) : (updateOne p f l).1.filter (fun d => !p d) = l.filter (fun d => !p d) := by
  induction l with
  | nil => simp [updateOne]
  | cons d ds ih =>
    by_cases hp : p d = true
    · simp [updateOne, hp, List.filter, hf]
    · simp [updateOne, hp, List.filter, ih]

theorem updateOne_map {α β : Type} (p : α → Bool) (f : α → α) (g : α → β)
    (hg : ∀ d, g (f d) = g d) (l : List α) : (updateOne p f l).1.map g = l.map g := by
  induction l with
  | nil => simp [updateOne]
  | cons d ds ih =>
    by_cases hp : p d = true
    · simp [updateOne, hp, hg]
    · simp [updateOne, hp, ih]

theorem setStatus_field_id (status : JobStatus) (now : Nat) (id : String) (d : JobDoc) :
    ((JobDoc.setStatus status now d).field "id" == some (BsonValue.str id))
      = (d.field "id" == some (BsonValue.str id)) := by
  simp [JobDoc.field, JobDoc.setStatus]

/-! ## C1: the status update of the job store -/

/-- C1 (as stated, refuted): the pair (DEPLOYED, PENDING) is not an edge of the lifecycle graph,
yet the store's status update of a DEPLOYED job to PENDING reports no error and changes the
stored job to PENDING. -/
theorem UpdateStatus_not_guarded_by_lifecycle :
    lifecycleEdge JobStatusDeployed JobStatusPending = false ∧
    MongoJobRepo.UpdateStatus false 7 [{ job := deployedJob, extra := [] }] "j1" JobStatusPending
      = ([{ job := { deployedJob with Status := JobStatusPending },
            extra := [("updated_at", BsonValue.time 7)] }], none) := by
  constructor
  · decide
  · decide

/-- C1 (amended): the status update of the job store does not look at the current status.
Without a driver error it succeeds exactly when a job with the given id is stored; the first
such job then has the requested status, whatever its status was; when no job has the id the
update reports `ErrNoDocuments` and the collection is unchanged; jobs with another id are never
changed; and with a driver error the collection is unchanged. -/
theorem UpdateStatus_succeeds_iff_stored (now : Nat) (jobsCol : List JobDoc) (id : String)
    (status : JobStatus) :
    ((MongoJobRepo.UpdateStatus false now jobsCol id status).2 = none
        ↔ ∃ d ∈ jobsCol, d.job.ID = id) ∧
    ((MongoJobRepo.UpdateStatus false now jobsCol id status).2 = none →
        (MongoJobRepo.GetByID false (MongoJobRepo.UpdateStatus false now jobsCol id status).1 id).1.map
          Job.Status = some status) ∧
    ((MongoJobRepo.UpdateStatus false now jobsCol id status).2 ≠ none →
        MongoJobRepo.UpdateStatus false now jobsCol id status = (jobsCol, some ErrNoDocuments)) ∧
    ((MongoJobRepo.UpdateStatus false now jobsCol id status).1.filter (fun d => !(d.job.ID == id))
        = jobsCol.filter (fun d => !(d.job.ID == id))) ∧
    MongoJobRepo.UpdateStatus true now jobsCol id status = (jobsCol, some ErrDriver) := by
  have hcount := updateOne_count_zero (fun d : JobDoc => d.field "id" == some (BsonValue.str id))
    (JobDoc.setStatus status now) jobsCol
  have hfind := updateOne_find (fun d : JobDoc => d.field "id" == some (BsonValue.str id))
    (JobDoc.setStatus status now) (setStatus_field_id status now id) jobsCol
  have hfilter := updateOne_filter_not (fun d : JobDoc => d.field "id" == some (BsonValue.str id))
    (JobDoc.setStatus status now) (setStatus_field_id status now id) jobsCol
  simp only [JobDoc.field_id] at hcount hfind hfilter
  refine ⟨?_, ?_, ?_, ?_, ?_⟩
  · simp only [MongoJobRepo.UpdateStatus, JobDoc.field_id]
    by_cases h0 : (updateOne (fun d : JobDoc => d.job.ID == id) (JobDoc.setStatus status now)
        jobsCol).2 = 0
    · have := hcount.mp h0
      simp [h0]
      intro d hd
      simpa using this d hd
    · have hne : ¬ ∀ d ∈ jobsCol, (d.job.ID == id) = false := fun h => h0 (hcount.mpr h)
      simp [h0]
      push_neg at hne
      obtain ⟨d, hd, hd'⟩ := hne
      exact ⟨d, hd, by simpa using hd'⟩
  · simp only [MongoJobRepo.UpdateStatus, MongoJobRepo.GetByID, JobDoc.field_id]
    by_cases h0 : (updateOne (fun d : JobDoc => d.job.ID == id) (JobDoc.setStatus status now)
        jobsCol).2 = 0
    · simp [h0]
    · simp only [h0, if_false, Bool.false_eq_true, hfind]
      intro _
      have hne : ¬ ∀ d ∈ jobsCol, (d.job.ID == id) = false := fun h => h0 (hcount.mpr h)
      push_neg at hne
      obtain ⟨d, hd, hd'⟩ := hne
      have hsome : (jobsCol.find? (fun d => d.job.ID == id)).isSome := by
        rw [List.find?_isSome]
        exact ⟨d, hd, by simpa using hd'⟩
      obtain ⟨x, hx⟩ := Option.isSome_iff_exists.mp hsome
      simp [hx, JobDoc.setStatus]
  · simp only [MongoJobRepo.UpdateStatus, JobDoc.field_id]
    by_cases h0 : (updateOne (fun d : JobDoc => d.job.ID == id) (JobDoc.setStatus status now)
        jobsCol).2 = 0
    · simp [h0, updateOne_unchanged _ _ _ h0]
    · simp [h0]
  · simp only [MongoJobRepo.UpdateStatus, JobDoc.field_id]
    by_cases h0 : (updateOne (fun d : JobDoc => d.job.ID == id) (JobDoc.setStatus status now)
        jobsCol).2 = 0
    · simp [h0, updateOne_unchanged _ _ _ h0]
    · simpa [h0] using hfilter
  · simp [MongoJobRepo.UpdateStatus]

/-- C1 (amended), at a concrete store: a DEPLOYED job is stored under the id, the update to
PENDING succeeds and the stored status is PENDING afterwards. -/
theorem UpdateStatus_succeeds_iff_stored_witness :
    (MongoJobRepo.UpdateStatus false 7 [{ job := deployedJob, extra := [] }] "j1"
        JobStatusPending).2 = none ∧
    (MongoJobRepo.GetByID false (MongoJobRepo.UpdateStatus false 7
        [{ job := deployedJob, extra := [] }] "j1" JobStatusPending).1 "j1").1.map Job.Status
      = some JobStatusPending :=
  have h := UpdateStatus_succeeds_iff_stored 7 [{ job := deployedJob, extra := [] }] "j1"
    JobStatusPending
  ⟨h.1.mpr ⟨_, List.mem_singleton.mpr rfl, rfl⟩,
    h.2.1 (h.1.mpr ⟨_, List.mem_singleton.mpr rfl, rfl⟩)⟩

/-! ## C8: markFilesWithErrors -/

theorem markFile_fields (errors : List ValidationConfigError) (file : ConfigFile) :
    (markFile errors file).Name = file.Name ∧ (markFile errors file).JobID = file.JobID ∧
    (markFile errors file).Content = file.Content ∧ (markFile errors file).Type_ = file.Type_ := by
  unfold markFile
  induction errors using List.reverseRecOn with
  | nil => simp
  | append_singleton l e ih =>
    rw [List.foldl_append]
    simp only [List.foldl_cons, List.foldl_nil]
    split <;> simp [ih]

theorem markFile_eq (errors : List ValidationConfigError) (file : ConfigFile) :
    markFile errors file =
      { file with
        HasError := ((errors.filter (fun d => d.File = file.Name)).getLast?).isSome,
        ErrorMsg := (errors.filter (fun d => d.File = file.Name)).getLast? } := by
  induction errors using List.reverseRecOn with
  | nil => simp [markFile]
  | append_singleton l e ih =>
    have hn := (markFile_fields l file).1
    unfold markFile at ih hn ⊢
    rw [List.foldl_append]
    simp only [List.foldl_cons, List.foldl_nil, hn]
    by_cases h : e.File = file.Name
    · simp [h, List.filter_append, ih]
    · simp [h, List.filter_append, ih]

theorem getLast?_filter_isSome (diags : List ValidationConfigError) (name : String) :
    ((diags.filter (fun d => d.File = name)).getLast?).isSome = true ↔ ∃ d ∈ diags, d.File = name := by
  rw [List.getLast?_isSome]
  simp [List.filter_eq_nil_iff]

/-- C8: after `markFilesWithErrors(files, diags)` every file keeps its other fields, has
`HasError` true exactly when some diagnostic of `diags` names it, has as `ErrorMsg` the last such
diagnostic of `diags` (none when there is no such diagnostic), and so has `HasError` true exactly
when `ErrorMsg` is present; the previous annotation of the file plays no role. -/
theorem markFilesWithErrors_last_diagnostic (files : List ConfigFile)
    (diags : List ValidationConfigError) :
    markFilesWithErrors files diags
      = files.map (fun f =>
          { f with
            HasError := ((diags.filter (fun d => d.File = f.Name)).getLast?).isSome,
            ErrorMsg := (diags.filter (fun d => d.File = f.Name)).getLast? }) ∧
    ∀ g ∈ markFilesWithErrors files diags,
      (g.HasError = true ↔ ∃ d ∈ diags, d.File = g.Name) ∧
      g.ErrorMsg = (diags.filter (fun d => d.File = g.Name)).getLast? ∧
      (g.HasError = true ↔ g.ErrorMsg.isSome = true) := by
  have hmap : markFilesWithErrors files diags
      = files.map (fun f =>
          { f with
            HasError := ((diags.filter (fun d => d.File = f.Name)).getLast?).isSome,
            ErrorMsg := (diags.filter (fun d => d.File = f.Name)).getLast? }) := by
    unfold markFilesWithErrors
    exact List.map_congr_left (fun f _ => markFile_eq diags f)
  refine ⟨hmap, ?_⟩
  intro g hg
  rw [hmap, List.mem_map] at hg
  obtain ⟨f, _, rfl⟩ := hg
  refine ⟨?_, rfl, Iff.rfl⟩
  exact getLast?_filter_isSome diags f.Name

/-- C8, at a concrete input: a file that carried a stale annotation and is named by two
diagnostics retains the second one; a file named by none is cleared. -/
theorem markFilesWithErrors_last_diagnostic_witness :
    markFilesWithErrors
        [{ JobID := "j1", Name := "main.tf", Content := "x", Type_ := "terraform", HasError := true,
           ErrorMsg := some { File := "old.tf", Message := "stale", Line := 9, Column := 9 } },
         { JobID := "j1", Name := "vars.tf", Content := "y", Type_ := "terraform", HasError := true,
           ErrorMsg := some { File := "old.tf", Message := "stale", Line := 9, Column := 9 } }]
        [{ File := "main.tf", Message := "first", Line := 1, Column := 2 },
         { File := "other.tf", Message := "elsewhere", Line := 5, Column := 5 },
         { File := "main.tf", Message := "second", Line := 3, Column := 4 }]
      = [{ JobID := "j1", Name := "main.tf", Content := "x", Type_ := "terraform", HasError := true,
           ErrorMsg := some { File := "main.tf", Message := "second", Line := 3, Column := 4 } },
         { JobID := "j1", Name := "vars.tf", Content := "y", Type_ := "terraform",
           HasError := false, ErrorMsg := none }] :=
  (markFilesWithErrors_last_diagnostic _ _).1.trans (by decide)

/-! ## Lemmas on processJob and runJobs -/

theorem World.UpdateStatus_trace (dbErr : Bool) (w : World) (id : String) (status : JobStatus) :
    (w.UpdateStatus dbErr id status).1.trace = w.trace ++ [Event.updateStatus id status] := rfl

theorem World.UpdateStatus_frame (dbErr : Bool) (w : World) (id : String) (status : JobStatus) :
    (w.UpdateStatus dbErr id status).1.configFiles = w.configFiles ∧
    (w.UpdateStatus dbErr id status).1.fs = w.fs := ⟨rfl, rfl⟩

theorem World.SaveFiles_trace (dbErr : Option Nat) (w : World) (files : List ConfigFile) :
    (w.SaveFiles dbErr files).1.trace = w.trace ++ [Event.saveFiles files] := rfl

theorem Analyze_result_no_error (collect : List ConfigFile → AnalysisResult) (osErr : Bool)
    (fs : FS) (files : List ConfigFile) (outputDir : String) (res : AnalysisResult)
    (h : (TerraformAnalyzer.Analyze collect osErr fs files outputDir).2.1 = some res) :
    (TerraformAnalyzer.Analyze collect osErr fs files outputDir).2.2 = none ∧ res = collect files := by
  unfold TerraformAnalyzer.Analyze at h ⊢
  rcases hs : TerraformAnalyzer.saveResults osErr fs (collect files)
    (joinPath outputDir "static_validator") with ⟨fs1, _ | e⟩
  · simp only [hs] at h ⊢
    simp at h
    simp [h]
  · simp [hs] at h

theorem processJob_generation_failure (o : Outcomes) (basePath : String) (w : World) (job : Job)
    (resp : GenerateResponse) (err : Error)
    (hgen : o.llm job.Description TerraformPrompt = (resp, some err)) :
    (processJob o basePath w job).2 = Exit.returned (some ("llm generate: " ++ err)) ∧
    (processJob o basePath w job).1.trace
      = w.trace ++ [Event.generate job.ID job.Description TerraformPrompt,
          Event.updateStatus job.ID JobStatusFailed] ∧
    (processJob o basePath w job).1.configFiles = w.configFiles ∧
    (processJob o basePath w job).1.fs = w.fs ∧
    (processJob o basePath w job).1.jobs
      = (MongoJobRepo.UpdateStatus (o.updateErr JobStatusFailed) w.clock w.jobs job.ID
          JobStatusFailed).1 := by
  simp [processJob, hgen, World.UpdateStatus]

theorem processJob_save_failure (o : Outcomes) (basePath : String) (w : World) (job : Job)
    (resp : GenerateResponse) (err : Error)
    (hgen : o.llm job.Description TerraformPrompt = (resp, none))
    (hsave : (MongoConfigRepo.SaveFiles o.saveErr w.configFiles
      (stampJobID job.ID resp.Files)).2 = some err) :
    (processJob o basePath w job).2 = Exit.returned (some ("save files: " ++ err)) ∧
    (processJob o basePath w job).1.trace
      = w.trace ++ [Event.generate job.ID job.Description TerraformPrompt,
          Event.saveFiles (stampJobID job.ID resp.Files),
          Event.updateStatus job.ID JobStatusFailed] ∧
    (processJob o basePath w job).1.fs = w.fs ∧
    (processJob o basePath w job).1.jobs
      = (MongoJobRepo.UpdateStatus (o.updateErr JobStatusFailed) w.clock w.jobs job.ID
          JobStatusFailed).1 := by
  simp [processJob, hgen, World.UpdateStatus, World.SaveFiles, hsave]


theorem processJob_validated (o : Outcomes) (basePath : String) (w : World) (job : Job)
    (resp : GenerateResponse) (res : AnalysisResult)
    (hgen : o.llm job.Description TerraformPrompt = (resp, none))
    (hsave : (MongoConfigRepo.SaveFiles o.saveErr w.configFiles
      (stampJobID job.ID resp.Files)).2 = none)
    (hval : (TerraformAnalyzer.Analyze o.collect o.reportErr
      (FileRepository.SaveFiles o.mirrorFault w.clock basePath w.fs
        (stampJobID job.ID resp.Files) job.ID).1
      (stampJobID job.ID resp.Files) (joinPath basePath job.ID)).2.1 = some res) :
    (processJob o basePath w job).2 = Exit.returned none ∧
    (processJob o basePath w job).1.trace
      = w.trace ++ [Event.generate job.ID job.Description TerraformPrompt,
          Event.saveFiles (stampJobID job.ID resp.Files),
          Event.mirror (stampJobID job.ID resp.Files) job.ID,
          Event.analyze (stampJobID job.ID resp.Files) (joinPath basePath job.ID),
          Event.saveFiles (markFilesWithErrors (stampJobID job.ID resp.Files) res.Errors),
          Event.updateStatus job.ID JobStatusReady2Deploy] ∧
    (processJob o basePath w job).1.jobs
      = (MongoJobRepo.UpdateStatus (o.updateErr JobStatusReady2Deploy) (w.clock + 1) w.jobs job.ID
          JobStatusReady2Deploy).1 ∧
    (processJob o basePath w job).1.configFiles
      = (MongoConfigRepo.SaveFiles o.resaveErr
          (MongoConfigRepo.SaveFiles o.saveErr w.configFiles (stampJobID job.ID resp.Files)).1
          (markFilesWithErrors (stampJobID job.ID resp.Files) res.Errors)).1 := by
  have hne := (Analyze_result_no_error _ _ _ _ _ _ hval).1
  simp [processJob, hgen, World.UpdateStatus, World.SaveFiles, hsave, World.mirror, World.Analyze,
    hval, hne]


theorem Analyze_nil_result_error (collect : List ConfigFile → AnalysisResult) (osErr : Bool)
    (fs : FS) (files : List ConfigFile) (outputDir : String)
    (h : (TerraformAnalyzer.Analyze collect osErr fs files outputDir).2.1 = none) :
    ((TerraformAnalyzer.Analyze collect osErr fs files outputDir).2.2).isSome = true := by
  unfold TerraformAnalyzer.Analyze at h ⊢
  rcases hs : TerraformAnalyzer.saveResults osErr fs (collect files)
    (joinPath outputDir "static_validator") with ⟨fs1, _ | e⟩
  · simp [hs] at h
  · simp [hs]

theorem processJob_engine_error (o : Outcomes) (basePath : String) (w : World) (job : Job)
    (resp : GenerateResponse)
    (hgen : o.llm job.Description TerraformPrompt = (resp, none))
    (hsave : (MongoConfigRepo.SaveFiles o.saveErr w.configFiles
      (stampJobID job.ID resp.Files)).2 = none)
    (hval : (TerraformAnalyzer.Analyze o.collect o.reportErr
      (FileRepository.SaveFiles o.mirrorFault w.clock basePath w.fs
        (stampJobID job.ID resp.Files) job.ID).1
      (stampJobID job.ID resp.Files) (joinPath basePath job.ID)).2.1 = none) :
    (processJob o basePath w job).2
      = Exit.panicked "invalid memory address or nil pointer dereference" ∧
    (processJob o basePath w job).1.trace
      = w.trace ++ [Event.generate job.ID job.Description TerraformPrompt,
          Event.saveFiles (stampJobID job.ID resp.Files),
          Event.mirror (stampJobID job.ID resp.Files) job.ID,
          Event.analyze (stampJobID job.ID resp.Files) (joinPath basePath job.ID),
          Event.updateStatus job.ID JobStatusFailed] ∧
    (processJob o basePath w job).1.jobs
      = (MongoJobRepo.UpdateStatus (o.updateErr JobStatusFailed) (w.clock + 1) w.jobs job.ID
          JobStatusFailed).1 ∧
    (processJob o basePath w job).1.configFiles
      = (MongoConfigRepo.SaveFiles o.saveErr w.configFiles (stampJobID job.ID resp.Files)).1 := by
  have hne := Analyze_nil_result_error _ _ _ _ _ hval
  simp [processJob, hgen, World.UpdateStatus, World.SaveFiles, hsave, World.mirror, World.Analyze,
    hval, hne]

theorem UpdateStatus_storedIDs (dbErr : Bool) (now : Nat) (jobsCol : List JobDoc) (id : String)
    (status : JobStatus) :
    storedIDs (MongoJobRepo.UpdateStatus dbErr now jobsCol id status).1 = storedIDs jobsCol := by
  unfold MongoJobRepo.UpdateStatus storedIDs
  cases dbErr
  · simp only [Bool.false_eq_true, if_false]
    split <;> exact updateOne_map _ _ _ (fun d => by simp [JobDoc.setStatus]) _
  · simp

theorem processJob_paths (o : Outcomes) (basePath : String) (w : World) (job : Job) :
    ∃ rest : List Event,
      (processJob o basePath w job).1.trace
        = w.trace ++ Event.generate job.ID job.Description TerraformPrompt :: rest ∧
      (∀ id, rest.countP (isGenerateFor id) = 0) ∧
      storedIDs (processJob o basePath w job).1.jobs = storedIDs w.jobs := by
  rcases hgen : o.llm job.Description TerraformPrompt with ⟨resp, _ | err⟩
  · rcases hsave : (MongoConfigRepo.SaveFiles o.saveErr w.configFiles
        (stampJobID job.ID resp.Files)).2 with _ | e
    · rcases hval : (TerraformAnalyzer.Analyze o.collect o.reportErr
          (FileRepository.SaveFiles o.mirrorFault w.clock basePath w.fs
            (stampJobID job.ID resp.Files) job.ID).1
          (stampJobID job.ID resp.Files) (joinPath basePath job.ID)).2.1 with _ | res
      · obtain ⟨_, ht, hj, _⟩ := processJob_engine_error o basePath w job resp hgen hsave hval
        exact ⟨_, ht, by intro id; simp [isGenerateFor], by rw [hj, UpdateStatus_storedIDs]⟩
      · obtain ⟨_, ht, hj, _⟩ := processJob_validated o basePath w job resp res hgen hsave hval
        exact ⟨_, ht, by intro id; simp [isGenerateFor], by rw [hj, UpdateStatus_storedIDs]⟩
    · obtain ⟨_, ht, _, hj⟩ := processJob_save_failure o basePath w job resp e hgen hsave
      exact ⟨_, ht, by intro id; simp [isGenerateFor], by rw [hj, UpdateStatus_storedIDs]⟩
  · obtain ⟨_, ht, _, _, hj⟩ := processJob_generation_failure o basePath w job resp err hgen
    exact ⟨_, ht, by intro id; simp [isGenerateFor], by rw [hj, UpdateStatus_storedIDs]⟩

theorem processJob_generateCalls (o : Outcomes) (basePath : String) (w : World) (job : Job)
    (id : String) :
    generateCalls id (processJob o basePath w job).1.trace
      = generateCalls id w.trace + (if job.ID = id then 1 else 0) := by
  obtain ⟨rest, ht, hrest, _⟩ := processJob_paths o basePath w job
  unfold generateCalls
  rw [ht, List.countP_append, List.countP_cons, hrest id]
  simp [isGenerateFor]


theorem UpdateStatus_ok_iff (dbErr : Bool) (now : Nat) (jobsCol : List JobDoc) (id : String)
    (status : JobStatus) :
    (MongoJobRepo.UpdateStatus dbErr now jobsCol id status).2 = none
      ↔ dbErr = false ∧ id ∈ storedIDs jobsCol := by
  have hcount := updateOne_count_zero (fun d : JobDoc => d.field "id" == some (BsonValue.str id))
    (JobDoc.setStatus status now) jobsCol
  unfold MongoJobRepo.UpdateStatus storedIDs
  cases dbErr
  · simp only [Bool.false_eq_true, if_false, true_and]
    by_cases h0 : (updateOne (fun d : JobDoc => d.field "id" == some (BsonValue.str id))
        (JobDoc.setStatus status now) jobsCol).2 = 0
    · have := hcount.mp h0
      simp only [JobDoc.field_id] at this
      simp [h0]
      intro d hd
      simpa using this d hd
    · have hne : ¬ ∀ d ∈ jobsCol, (d.field "id" == some (BsonValue.str id)) = false :=
        fun h => h0 (hcount.mpr h)
      simp only [JobDoc.field_id] at hne
      simp [h0]
      push_neg at hne
      obtain ⟨d, hd, hd'⟩ := hne
      exact ⟨d, hd, by simpa using hd'⟩
  · simp

theorem claim_ok_iff (plan : Job → Outcomes) (w : World) (job : Job) :
    (w.UpdateStatus ((plan job).updateErr JobStatusRunning) job.ID JobStatusRunning).2 = none
      ↔ claimSucceeds plan (storedIDs w.jobs) job = true := by
  unfold World.UpdateStatus claimSucceeds
  simp [UpdateStatus_ok_iff]

theorem runJobs_storedIDs (plan : Job → Outcomes) (basePath : String) (jobs : List Job) :
    ∀ w : World, storedIDs (runJobs plan basePath w jobs).1.jobs = storedIDs w.jobs := by
  induction jobs with
  | nil => intro w; rfl
  | cons job rest ih =>
    intro w
    have hw1 : storedIDs (w.UpdateStatus ((plan job).updateErr JobStatusRunning) job.ID
        JobStatusRunning).1.jobs = storedIDs w.jobs := UpdateStatus_storedIDs _ _ _ _ _
    rcases hc : w.UpdateStatus ((plan job).updateErr JobStatusRunning) job.ID JobStatusRunning
      with ⟨w1, _ | e⟩
    · rw [hc] at hw1
      have hp2 := (processJob_paths (plan job) basePath w1 job).choose_spec.2.2
      rcases hp : processJob (plan job) basePath w1 job with ⟨w2, e | msg⟩
      · rw [hp] at hp2
        simp only [runJobs, hc, hp]
        rw [ih w2, hp2, hw1]
      · rw [hp] at hp2
        simp only [runJobs, hc, hp]
        rw [hp2, hw1]
    · rw [hc] at hw1
      simp only [runJobs, hc]
      rw [ih w1, hw1]

theorem runJobs_generateCalls (plan : Job → Outcomes) (basePath : String) (id : String)
    (jobs : List Job) :
    ∀ w : World, (runJobs plan basePath w jobs).2 = Exit.returned none →
      generateCalls id (runJobs plan basePath w jobs).1.trace
        = generateCalls id w.trace
          + jobs.countP (fun j => j.ID == id && claimSucceeds plan (storedIDs w.jobs) j) := by
  induction jobs with
  | nil => intro w _; simp [runJobs]
  | cons job rest ih =>
    intro w hret
    have hw1 : storedIDs (w.UpdateStatus ((plan job).updateErr JobStatusRunning) job.ID
        JobStatusRunning).1.jobs = storedIDs w.jobs := UpdateStatus_storedIDs _ _ _ _ _
    have ht1 : (w.UpdateStatus ((plan job).updateErr JobStatusRunning) job.ID
        JobStatusRunning).1.trace = w.trace ++ [Event.updateStatus job.ID JobStatusRunning] := rfl
    have hclaim := claim_ok_iff plan w job
    rcases hc : w.UpdateStatus ((plan job).updateErr JobStatusRunning) job.ID JobStatusRunning
      with ⟨w1, _ | e⟩
    · rw [hc] at hw1 ht1 hclaim
      have hcl : claimSucceeds plan (storedIDs w.jobs) job = true := hclaim.mp rfl
      have hp2 := (processJob_paths (plan job) basePath w1 job).choose_spec.2.2
      have hg := processJob_generateCalls (plan job) basePath w1 job id
      rcases hp : processJob (plan job) basePath w1 job with ⟨w2, e | msg⟩
      · rw [hp] at hp2 hg
        simp only [runJobs, hc, hp] at hret ⊢
        rw [ih w2 hret, hg, hp2, hw1, List.countP_cons]
        have ht1' : w1.trace = w.trace ++ [Event.updateStatus job.ID JobStatusRunning] := ht1
        have h1 : generateCalls id w1.trace = generateCalls id w.trace := by
          simp [generateCalls, ht1', List.countP_append, isGenerateFor]
        rw [h1]
        by_cases hid : job.ID = id
        · simp [hid, hcl]; omega
        · simp [hid]
      · simp only [runJobs, hc, hp] at hret
        exact absurd hret (by simp)
    · rw [hc] at hw1 ht1 hclaim
      have hcl : claimSucceeds plan (storedIDs w.jobs) job = false := by
        cases h : claimSucceeds plan (storedIDs w.jobs) job
        · rfl
        · exact absurd (hclaim.mpr h) (by simp)
      simp only [runJobs, hc] at hret ⊢
      rw [ih w1 hret, hw1, List.countP_cons]
      have ht1' : w1.trace = w.trace ++ [Event.updateStatus job.ID JobStatusRunning] := ht1
      have h1 : generateCalls id w1.trace = generateCalls id w.trace := by
        simp [generateCalls, ht1', List.countP_append, isGenerateFor]
      rw [h1]
      simp [hcl]


theorem UpdateStatus_GetByID (now : Nat) (jobsCol : List JobDoc) (id : String)
    (status : JobStatus) (h : id ∈ storedIDs jobsCol) :
    (MongoJobRepo.GetByID false (MongoJobRepo.UpdateStatus false now jobsCol id status).1 id).1.map
      Job.Status = some status := by
  have hfind := updateOne_find (fun d : JobDoc => d.field "id" == some (BsonValue.str id))
    (JobDoc.setStatus status now) (setStatus_field_id status now id) jobsCol
  have hsome : (jobsCol.find? (fun d => d.field "id" == some (BsonValue.str id))).isSome := by
    rw [List.find?_isSome]
    simp only [storedIDs, List.mem_map] at h
    obtain ⟨d, hd, hd'⟩ := h
    exact ⟨d, hd, by simp [JobDoc.field_id, hd']⟩
  obtain ⟨x, hx⟩ := Option.isSome_iff_exists.mp hsome
  unfold MongoJobRepo.UpdateStatus MongoJobRepo.GetByID
  simp only [Bool.false_eq_true, if_false]
  split <;> simp [hfind, hx, JobDoc.setStatus]

theorem statusUpdates_append (xs ys : List Event) :
    statusUpdates (xs ++ ys) = statusUpdates xs ++ statusUpdates ys := by
  induction xs with
  | nil => rfl
  | cons e rest ih => cases e <;> simp [statusUpdates, ih]

/-! ## C5: generation or first-persistence failure -/

/-- C5: in `processJob`, when `GenerateInfrastructure` fails, or when it succeeds and the first
`SaveFiles` to the primary store fails, the only status update issued is the one to FAILED (and
the stored status is FAILED once the store performs it), `processJob` returns an error, and the
calls made are exactly the generator call, in the second case the failed save, and the FAILED
update: no mirror, no validation, no re-persist, no READY_TO_DEPLOY update; the workspace is
untouched, and in the generation-failure case the file collection is unchanged. -/
theorem processJob_aborts_as_failed (o : Outcomes) (basePath : String) (w : World) (job : Job)
    (resp : GenerateResponse) (err : Error) :
    (o.llm job.Description TerraformPrompt = (resp, some err) →
      (processJob o basePath w job).2 = Exit.returned (some ("llm generate: " ++ err)) ∧
      (processJob o basePath w job).1.trace
        = w.trace ++ [Event.generate job.ID job.Description TerraformPrompt,
            Event.updateStatus job.ID JobStatusFailed] ∧
      (processJob o basePath w job).1.configFiles = w.configFiles ∧
      (processJob o basePath w job).1.fs = w.fs ∧
      (o.updateErr JobStatusFailed = false → job.ID ∈ storedIDs w.jobs →
        (MongoJobRepo.GetByID false (processJob o basePath w job).1.jobs job.ID).1.map Job.Status
          = some JobStatusFailed)) ∧
    (o.llm job.Description TerraformPrompt = (resp, none) →
      (MongoConfigRepo.SaveFiles o.saveErr w.configFiles (stampJobID job.ID resp.Files)).2
        = some err →
      (processJob o basePath w job).2 = Exit.returned (some ("save files: " ++ err)) ∧
      (processJob o basePath w job).1.trace
        = w.trace ++ [Event.generate job.ID job.Description TerraformPrompt,
            Event.saveFiles (stampJobID job.ID resp.Files),
            Event.updateStatus job.ID JobStatusFailed] ∧
      (processJob o basePath w job).1.fs = w.fs ∧
      (o.updateErr JobStatusFailed = false → job.ID ∈ storedIDs w.jobs →
        (MongoJobRepo.GetByID false (processJob o basePath w job).1.jobs job.ID).1.map Job.Status
          = some JobStatusFailed)) := by
  constructor
  · intro hgen
    obtain ⟨he, ht, hc, hf, hj⟩ := processJob_generation_failure o basePath w job resp err hgen
    refine ⟨he, ht, hc, hf, ?_⟩
    intro hu hs
    rw [hj, hu]
    exact UpdateStatus_GetByID _ _ _ _ hs
  · intro hgen hsave
    obtain ⟨he, ht, hf, hj⟩ := processJob_save_failure o basePath w job resp err hgen hsave
    refine ⟨he, ht, hf, ?_⟩
    intro hu hs
    rw [hj, hu]
    exact UpdateStatus_GetByID _ _ _ _ hs

/-- C5, at concrete inputs: with a failing generator, and with a failing first save, the job of
the example store ends FAILED and `processJob` returns the wrapped error. -/
theorem processJob_aborts_as_failed_witness :
    ((processJob answersGenerationFails "./deployments" world0 pendingJob1).2
        = Exit.returned (some "llm generate: amvera api error: 500") ∧
      (MongoJobRepo.GetByID false
        (processJob answersGenerationFails "./deployments" world0 pendingJob1).1.jobs "j1").1.map
          Job.Status = some JobStatusFailed) ∧
    ((processJob answersSaveFails "./deployments" world0 pendingJob1).2
        = Exit.returned (some ("save files: " ++ ErrDriver)) ∧
      (MongoJobRepo.GetByID false
        (processJob answersSaveFails "./deployments" world0 pendingJob1).1.jobs "j1").1.map
          Job.Status = some JobStatusFailed) :=
  have h1 := (processJob_aborts_as_failed answersGenerationFails "./deployments" world0
    pendingJob1 { Files := [], RequestID := "", Status := "" } "amvera api error: 500").1 rfl
  have h2 := (processJob_aborts_as_failed answersSaveFails "./deployments" world0
    pendingJob1 { Files := [mainTf], RequestID := "r1", Status := "success" } ErrDriver).2 rfl
    (by decide)
  ⟨⟨h1.1, h1.2.2.2.2 rfl (by decide)⟩, ⟨h2.1, h2.2.2.2 rfl (by decide)⟩⟩

/-! ## C7: readiness does not depend on diagnostics or tolerated failures -/

/-- C7: when generation and the first persistence succeed and the validator returns a result,
`processJob` returns no error, the calls it makes are exactly generate, save, mirror, analyze,
re-persist of the annotated files and one status update, to READY_TO_DEPLOY (so the last status
update is READY_TO_DEPLOY and FAILED is never requested), and the stored status is
READY_TO_DEPLOY once the store performs the update. Nothing is assumed on the diagnostics, on
`Passed`, on the mirror, on the re-persist, or on the READY_TO_DEPLOY update itself. -/
theorem processJob_reaches_ready (o : Outcomes) (basePath : String) (w : World) (job : Job)
    (resp : GenerateResponse) (res : AnalysisResult)
    (hgen : o.llm job.Description TerraformPrompt = (resp, none))
    (hsave : (MongoConfigRepo.SaveFiles o.saveErr w.configFiles
      (stampJobID job.ID resp.Files)).2 = none)
    (hval : (TerraformAnalyzer.Analyze o.collect o.reportErr
      (FileRepository.SaveFiles o.mirrorFault w.clock basePath w.fs
        (stampJobID job.ID resp.Files) job.ID).1
      (stampJobID job.ID resp.Files) (joinPath basePath job.ID)).2.1 = some res) :
    (processJob o basePath w job).2 = Exit.returned none ∧
    (processJob o basePath w job).1.trace
      = w.trace ++ [Event.generate job.ID job.Description TerraformPrompt,
          Event.saveFiles (stampJobID job.ID resp.Files),
          Event.mirror (stampJobID job.ID resp.Files) job.ID,
          Event.analyze (stampJobID job.ID resp.Files) (joinPath basePath job.ID),
          Event.saveFiles (markFilesWithErrors (stampJobID job.ID resp.Files) res.Errors),
          Event.updateStatus job.ID JobStatusReady2Deploy] ∧
    statusUpdates (processJob o basePath w job).1.trace
      = statusUpdates w.trace ++ [(job.ID, JobStatusReady2Deploy)] ∧
    (o.updateErr JobStatusReady2Deploy = false → job.ID ∈ storedIDs w.jobs →
      (MongoJobRepo.GetByID false (processJob o basePath w job).1.jobs job.ID).1.map Job.Status
        = some JobStatusReady2Deploy) := by
  obtain ⟨he, ht, hj, _⟩ := processJob_validated o basePath w job resp res hgen hsave hval
  refine ⟨he, ht, ?_, ?_⟩
  · rw [ht, statusUpdates_append]
    rfl
  · intro hu hs
    rw [hj, hu]
    exact UpdateStatus_GetByID _ _ _ _ hs

/-- C7, at a concrete input where the mirror fails, the analyzer reports `Passed` false with a
diagnostic, the re-persist fails and the READY_TO_DEPLOY update fails: `processJob` returns no
error and the only status update it requests is READY_TO_DEPLOY. -/
theorem processJob_reaches_ready_witness :
    (processJob answersTolerated "./deployments" world0 pendingJob1).2 = Exit.returned none ∧
    statusUpdates (processJob answersTolerated "./deployments" world0 pendingJob1).1.trace
      = [("j1", JobStatusReady2Deploy)] :=
  have h := processJob_reaches_ready answersTolerated "./deployments" world0 pendingJob1
    { Files := [mainTf], RequestID := "r1", Status := "success" }
    { Passed := false, Errors := [lifecycleDiag] } rfl (by decide) (by decide)
  ⟨h.1, h.2.2.1⟩

/-! ## C10: the prompt passed to the generation adapter -/

/-- C10 (as stated, refuted): for a job whose target is kubernetes the specification selects the
Kubernetes prompt, which differs from the Terraform prompt; `processJob` calls the generator
with the Terraform prompt. -/
theorem processJob_prompt_not_selected_by_target :
    pendingJob1.Target = "kubernetes" ∧
    promptForTarget pendingJob1.Target = some K8sPrompt ∧
    K8sPrompt ≠ TerraformPrompt ∧
    (processJob (answers [mainTf]) "./deployments" world0 pendingJob1).1.trace.head?
      = some (Event.generate "j1" "a vpc" TerraformPrompt) := by
  refine ⟨rfl, rfl, ?_, rfl⟩
  intro h
  have hid := congrArg Prompt.ID h
  revert hid
  decide

/-- C10 (amended): whatever the job's target, `processJob` calls the generation adapter exactly
once, first of all its calls, with the job's description and the fixed Terraform prompt; and the
text the adapter sends to the model for that call is the single user message made of the
Terraform prompt text, one space, and the job's description. -/
theorem processJob_passes_terraform_prompt (o : Outcomes) (basePath : String) (w : World)
    (job : Job) (model verbosity : String) :
    (∃ rest : List Event,
      (processJob o basePath w job).1.trace
        = w.trace ++ Event.generate job.ID job.Description TerraformPrompt :: rest ∧
      ∀ id, rest.countP (isGenerateFor id) = 0) ∧
    (AmveraGenerator.request model verbosity job.Description TerraformPrompt).messages
      = [{ role := "user", content := terraformPrompt ++ " " ++ job.Description }] := by
  obtain ⟨rest, ht, hrest, _⟩ := processJob_paths o basePath w job
  exact ⟨⟨rest, ht, hrest⟩, rfl⟩

/-! ## C3: the files fetched after processJob -/

/-- C3 (code evaluated at the failing input): the generator returns the single file `main.tf`
for job `j1`, every call succeeds and `processJob` returns no error; fetching the files of `j1`
then returns two records named `main.tf`, the one inserted before validation (has_error false)
and the annotated one inserted by the re-persist (has_error true). -/
theorem processJob_persists_files_twice :
    (processJob (answers [mainTf]) "./deployments" world0 pendingJob1).2 = Exit.returned none ∧
    MongoConfigRepo.GetFilesByJobID false
        (processJob (answers [mainTf]) "./deployments" world0 pendingJob1).1.configFiles "j1"
      = ([{ mainTf with JobID := "j1" },
          { mainTf with JobID := "j1", HasError := true, ErrorMsg := some lifecycleDiag }],
         none) := by
  constructor <;> decide

/-! ## C4: DeleteJob -/

/-- C4 (code evaluated at the failing input): in the world left by `processJob` for job `j1`
(two file records owned by `j1`, workspace `deployments/j1`), `DeleteJob("j1")` returns no
error and removes the job, yet fetching the files of `j1` still returns both records (the delete
filters on the key `job_id`, the records are stored and fetched under `jobid`) and the workspace
directory still exists. -/
theorem DeleteJob_leaves_files_and_workspace :
    (JobService.DeleteJob false false
        (processJob (answers [mainTf]) "./deployments" world0 pendingJob1).1 "j1").2 = none ∧
    storedIDs (JobService.DeleteJob false false
        (processJob (answers [mainTf]) "./deployments" world0 pendingJob1).1 "j1").1.jobs
      = ["j2"] ∧
    (MongoConfigRepo.GetFilesByJobID false (JobService.DeleteJob false false
        (processJob (answers [mainTf]) "./deployments" world0 pendingJob1).1 "j1").1.configFiles
        "j1").1.map ConfigFile.Name = ["main.tf", "main.tf"] ∧
    isDir (JobService.DeleteJob false false
        (processJob (answers [mainTf]) "./deployments" world0 pendingJob1).1 "j1").1.fs
        (joinPath "./deployments" "j1") = true := by
  refine ⟨?_, ?_, ?_, ?_⟩ <;> decide

/-! ## C6: an engine-level error of the static validator -/

/-- C6 (code evaluated at the failing input): the generator returns a file named
`static_validator` and `main.tf`; the mirror writes the first as a regular file, so the analyzer
cannot create its report directory and returns a nil result with an error. `processJob` then
requests the FAILED status, which is stored, and panics on the nil result: nothing is
re-persisted and READY_TO_DEPLOY is never requested. -/
theorem processJob_panics_on_engine_error :
    (TerraformAnalyzer.Analyze (answers [reportDirFile, mainTf]).collect false
        (FileRepository.SaveFiles noMirrorFault 1 "./deployments" world0.fs
          (stampJobID "j1" [reportDirFile, mainTf]) "j1").1
        (stampJobID "j1" [reportDirFile, mainTf]) (joinPath "./deployments" "j1")).2
      = (none, some "save results: create output directory") ∧
    (processJob (answers [reportDirFile, mainTf]) "./deployments" world0 pendingJob1).2
      = Exit.panicked "invalid memory address or nil pointer dereference" ∧
    statusUpdates
        (processJob (answers [reportDirFile, mainTf]) "./deployments" world0 pendingJob1).1.trace
      = [("j1", JobStatusFailed)] ∧
    (MongoJobRepo.GetByID false
        (processJob (answers [reportDirFile, mainTf]) "./deployments" world0 pendingJob1).1.jobs
        "j1").1.map Job.Status = some JobStatusFailed ∧
    (processJob (answers [reportDirFile, mainTf]) "./deployments" world0 pendingJob1).1.configFiles
      = stampJobID "j1" [reportDirFile, mainTf] := by
  refine ⟨?_, ?_, ?_, ?_, ?_⟩ <;> decide

/-! ## C2: two workers and the same pending job -/

/-- C2 (as stated, refuted): two workers list the pending jobs of the same store, which hold job
`j1`, and run their loops one after the other; the RUNNING update of the second worker succeeds
as well (its first status request is followed by a generator call) and the generator is called
for `j1` twice, not once. -/
theorem two_workers_generate_twice :
    pendingJob1 ∈ (MongoJobRepo.ListByStatus false world0.jobs JobStatusPending).1 ∧
    generateCalls "j1" (runJobs (fun _ => answers [mainTf]) "./deployments" world0
      (MongoJobRepo.ListByStatus false world0.jobs JobStatusPending).1).1.trace = 1 ∧
    generateCalls "j1" (runJobs (fun _ => answers [mainTf]) "./deployments"
      (runJobs (fun _ => answers [mainTf]) "./deployments" world0
        (MongoJobRepo.ListByStatus false world0.jobs JobStatusPending).1).1
      (MongoJobRepo.ListByStatus false world0.jobs JobStatusPending).1).1.trace = 2 := by
  refine ⟨?_, ?_, ?_⟩ <;> decide

/-- C2 (amended): two workers run the loop of `runOnce` one after the other (in either order,
the workers being arbitrary) against the same store, each over a snapshot whose only entry with
the job's id is the same job. When the job is stored, neither RUNNING update meets a driver
error and both loops run to completion, both claims succeed (the update does not look at the
current status), neither worker skips the job, and the generator is called for the job once by
each worker, twice in total. -/
theorem two_workers_both_claim (planA planB : Job → Outcomes) (basePath : String) (w : World)
    (snapA snapB : List Job) (job : Job)
    (hstored : job.ID ∈ storedIDs w.jobs)
    (hA : snapA.filter (fun j => j.ID == job.ID) = [job])
    (hB : snapB.filter (fun j => j.ID == job.ID) = [job])
    (hclaimA : (planA job).updateErr JobStatusRunning = false)
    (hclaimB : (planB job).updateErr JobStatusRunning = false)
    (hretA : (runJobs planA basePath w snapA).2 = Exit.returned none)
    (hretB : (runJobs planB basePath (runJobs planA basePath w snapA).1 snapB).2
      = Exit.returned none) :
    generateCalls job.ID (runJobs planA basePath w snapA).1.trace
      = generateCalls job.ID w.trace + 1 ∧
    generateCalls job.ID
        (runJobs planB basePath (runJobs planA basePath w snapA).1 snapB).1.trace
      = generateCalls job.ID w.trace + 2 := by
  have count_one : ∀ (plan : Job → Outcomes) (snap : List Job),
      snap.filter (fun j => j.ID == job.ID) = [job] →
      (plan job).updateErr JobStatusRunning = false →
      snap.countP (fun j => j.ID == job.ID && claimSucceeds plan (storedIDs w.jobs) j) = 1 := by
    intro plan snap hs hc
    have hfun : (fun j : Job => j.ID == job.ID && claimSucceeds plan (storedIDs w.jobs) j)
        = (fun j : Job => claimSucceeds plan (storedIDs w.jobs) j && j.ID == job.ID) := by
      funext j
      exact Bool.and_comm _ _
    rw [hfun, ← List.countP_filter, hs]
    simp [claimSucceeds, hc, hstored]
  have hA1 := runJobs_generateCalls planA basePath job.ID snapA w hretA
  have hB1 := runJobs_generateCalls planB basePath job.ID snapB _ hretB
  rw [runJobs_storedIDs] at hB1
  rw [count_one planA snapA hA hclaimA] at hA1
  rw [count_one planB snapB hB hclaimB, hA1] at hB1
  exact ⟨hA1, hB1⟩

/-- C2 (amended), at the example store: both workers hold the snapshot of the two pending jobs,
both loops return, and the generator is called twice for `j1`. -/
theorem two_workers_both_claim_witness :
    generateCalls "j1" (runJobs (fun _ => answers [mainTf]) "./deployments"
      (runJobs (fun _ => answers [mainTf]) "./deployments" world0
        [pendingJob1, pendingJob2]).1 [pendingJob1, pendingJob2]).1.trace = 2 :=
  (two_workers_both_claim (fun _ => answers [mainTf]) (fun _ => answers [mainTf]) "./deployments"
    world0 [pendingJob1, pendingJob2] [pendingJob1, pendingJob2] pendingJob1
    (by decide) (by decide) (by decide) rfl rfl (by decide) (by decide)).2

/-! ## C9: isolation of per-job failures in runOnce -/

/-- C9 (code evaluated at the failing input): the store lists the pending jobs `j1` and `j2`;
for `j1` the generator returns a file named `static_validator` next to `main.tf`, so the
analyzer returns a nil result with an error and `processJob` panics (the defect of C6).
`runOnce` then does not return: the panic ends the loop, `j2` is never claimed (the only status
requests are RUNNING and FAILED for `j1`), the generator is never called for `j2`, and `j2`
stays PENDING. -/
theorem runOnce_aborted_by_panic :
    (MongoJobRepo.ListByStatus false world0.jobs JobStatusPending)
      = ([pendingJob1, pendingJob2], none) ∧
    (runOnce false (fun _ => answers [reportDirFile, mainTf]) "./deployments" world0).2
      = Exit.panicked "invalid memory address or nil pointer dereference" ∧
    statusUpdates
        (runOnce false (fun _ => answers [reportDirFile, mainTf]) "./deployments" world0).1.trace
      = [("j1", JobStatusRunning), ("j1", JobStatusFailed)] ∧
    generateCalls "j2"
        (runOnce false (fun _ => answers [reportDirFile, mainTf]) "./deployments" world0).1.trace
      = 0 ∧
    (MongoJobRepo.GetByID false
        (runOnce false (fun _ => answers [reportDirFile, mainTf]) "./deployments" world0).1.jobs
        "j2").1.map Job.Status = some JobStatusPending := by
  refine ⟨?_, ?_, ?_, ?_, ?_⟩ <;> decide

/-! ## Lemmas on the analysis loops -/

theorem requiredProvidersLoop_count (ord : MapOrder) (fileName : String) (blocks : List hcl.Block) :
    ∀ n, (requiredProvidersLoop ord fileName n blocks).2 = n + blocks.length := by
  induction blocks with
  | nil => intro n; simp [requiredProvidersLoop]
  | cons b rest ih => intro n; simp [requiredProvidersLoop, ih]; omega

theorem resourceBlocksLoop_count (ord : MapOrder) (fileName : String) (blocks : List hcl.Block) :
    ∀ n, (resourceBlocksLoop ord fileName n blocks).2 = n + blocks.length := by
  induction blocks with
  | nil => intro n; simp [resourceBlocksLoop]
  | cons b rest ih => intro n; simp [resourceBlocksLoop, ih]; omega

theorem terraformBlockDiags_count (ord₁ ord₂ : MapOrder) (n : Nat) (fileName : String)
    (block : hcl.Block) :
    (terraformBlockDiags ord₁ n fileName block).2 = (terraformBlockDiags ord₂ n fileName block).2 := by
  simp [terraformBlockDiags, requiredProvidersLoop_count]

theorem terraformBlocksLoop_count (ord₁ ord₂ : MapOrder) (fileName : String)
    (blocks : List hcl.Block) :
    ∀ n, (terraformBlocksLoop ord₁ fileName n blocks).2
      = (terraformBlocksLoop ord₂ fileName n blocks).2 := by
  induction blocks with
  | nil => intro n; simp [terraformBlocksLoop]
  | cons b rest ih =>
    intro n
    simp only [terraformBlocksLoop]
    rw [terraformBlockDiags_count ord₁ ord₂, ih]

theorem requiredProvidersDiags_perm (ord₁ ord₂ : MapOrder) (n₁ n₂ : Nat) (fileName : String)
    (rpBlock : hcl.Block) :
    (requiredProvidersDiags ord₁ n₁ fileName rpBlock).Perm
      (requiredProvidersDiags ord₂ n₂ fileName rpBlock) := by
  unfold requiredProvidersDiags
  exact List.Perm.append_left _
    (List.Perm.flatMap_right _ ((ord₁.perm _ _).trans (ord₂.perm _ _).symm))

theorem requiredProvidersLoop_perm (ord₁ ord₂ : MapOrder) (fileName : String)
    (blocks : List hcl.Block) :
    ∀ n, (requiredProvidersLoop ord₁ fileName n blocks).1.Perm
      (requiredProvidersLoop ord₂ fileName n blocks).1 := by
  induction blocks with
  | nil => intro n; simp [requiredProvidersLoop]
  | cons b rest ih =>
    intro n
    simp only [requiredProvidersLoop]
    exact List.Perm.append (requiredProvidersDiags_perm _ _ _ _ _ _) (ih _)

theorem terraformBlocksLoop_perm (ord₁ ord₂ : MapOrder) (fileName : String)
    (blocks : List hcl.Block) :
    ∀ n, (terraformBlocksLoop ord₁ fileName n blocks).1.Perm
      (terraformBlocksLoop ord₂ fileName n blocks).1 := by
  induction blocks with
  | nil => intro n; simp [terraformBlocksLoop]
  | cons b rest ih =>
    intro n
    simp only [terraformBlocksLoop]
    rw [terraformBlockDiags_count ord₁ ord₂]
    refine List.Perm.append ?_ (ih _)
    simp only [terraformBlockDiags]
    exact List.Perm.append_left _ (requiredProvidersLoop_perm _ _ _ _ _)

theorem resourceBlockDiags_perm (ord₁ ord₂ : MapOrder) (n₁ n₂ : Nat) (fileName : String)
    (block : hcl.Block) :
    (resourceBlockDiags ord₁ n₁ fileName block).Perm
      (resourceBlockDiags ord₂ n₂ fileName block) := by
  unfold resourceBlockDiags
  exact List.Perm.append_left _
    (List.Perm.flatMap_right _ ((ord₁.perm _ _).trans (ord₂.perm _ _).symm))

theorem resourceBlocksLoop_perm (ord₁ ord₂ : MapOrder) (fileName : String)
    (blocks : List hcl.Block) :
    ∀ n, (resourceBlocksLoop ord₁ fileName n blocks).1.Perm
      (resourceBlocksLoop ord₂ fileName n blocks).1 := by
  induction blocks with
  | nil => intro n; simp [resourceBlocksLoop]
  | cons b rest ih =>
    intro n
    simp only [resourceBlocksLoop]
    exact List.Perm.append (resourceBlockDiags_perm _ _ _ _ _ _) (ih _)

theorem analyzeFile_count (ord₁ ord₂ : MapOrder) (n : Nat) (body : hcl.Body) (fileName : String) :
    (TerraformAnalyzer.analyzeFile ord₁ n body fileName).2
      = (TerraformAnalyzer.analyzeFile ord₂ n body fileName).2 := by
  simp only [TerraformAnalyzer.analyzeFile, TerraformAnalyzer.analyzeResourceBlocks,
    TerraformAnalyzer.analyzeTerraformBlocks, resourceBlocksLoop_count]
  rw [terraformBlocksLoop_count ord₁ ord₂]

theorem analyzeFile_perm (ord₁ ord₂ : MapOrder) (n : Nat) (body : hcl.Body) (fileName : String) :
    (TerraformAnalyzer.analyzeFile ord₁ n body fileName).1.Perm
      (TerraformAnalyzer.analyzeFile ord₂ n body fileName).1 := by
  simp only [TerraformAnalyzer.analyzeFile, TerraformAnalyzer.analyzeResourceBlocks,
    TerraformAnalyzer.analyzeTerraformBlocks]
  rw [terraformBlocksLoop_count ord₁ ord₂]
  exact List.Perm.append (List.Perm.append_left _ (terraformBlocksLoop_perm _ _ _ _ _))
    (resourceBlocksLoop_perm _ _ _ _ _)

theorem HasErrors_perm {l₁ l₂ : List hcl.Diagnostic} (h : l₁.Perm l₂) :
    hcl.HasErrors l₁ = hcl.HasErrors l₂ := by
  unfold hcl.HasErrors
  rw [Bool.eq_iff_iff]
  simp only [List.any_eq_true]
  constructor
  · rintro ⟨d, hd, he⟩; exact ⟨d, h.mem_iff.mp hd, he⟩
  · rintro ⟨d, hd, he⟩; exact ⟨d, h.mem_iff.mpr hd, he⟩

theorem analyzeStep_skip (parseConfig : hcl.ParseConfig) (ord : MapOrder) (st : AnalyzeState)
    (file : ConfigFile) (h : isAnalyzed file = false) : analyzeStep parseConfig ord st file = st := by
  unfold isAnalyzed at h
  unfold analyzeStep
  simp only [Bool.not_eq_false'] at h
  simp only [h, if_true]

theorem HasErrors_append (l₁ l₂ : List hcl.Diagnostic) :
    hcl.HasErrors (l₁ ++ l₂) = (hcl.HasErrors l₁ || hcl.HasErrors l₂) := by
  simp [hcl.HasErrors]

theorem analyzeStep_collected (parseConfig : hcl.ParseConfig) (ord : MapOrder)
    (st : AnalyzeState) (file : ConfigFile)
    (h : st.result.Errors = st.collected.map (fun p => toValidationError p.1 p.2)
      ∧ st.result.Passed = !hcl.HasErrors (st.collected.map Prod.snd)) :
    (analyzeStep parseConfig ord st file).result.Errors
        = (analyzeStep parseConfig ord st file).collected.map
            (fun p => toValidationError p.1 p.2)
      ∧ (analyzeStep parseConfig ord st file).result.Passed
        = !hcl.HasErrors ((analyzeStep parseConfig ord st file).collected.map Prod.snd) := by
  obtain ⟨hE, hP⟩ := h
  unfold analyzeStep
  split
  · exact ⟨hE, hP⟩
  · split
    rename_i hclFile fileDiags parserFiles _
    split
    · rename_i herr
      refine ⟨by simp [hE, Function.comp_def], ?_⟩
      simp [HasErrors_append, Function.comp_def, herr]
    · refine ⟨by simp [hE, Function.comp_def], ?_⟩
      simp only [List.map_append, List.map_map, HasErrors_append, Function.comp_def, List.map_id']
      cases hA : hcl.HasErrors (TerraformAnalyzer.analyzeFile ord st.iterations hclFile file.Name).1
        <;> simp [hP]

theorem analyzeFiles_collected (parseConfig : hcl.ParseConfig) (ord : MapOrder)
    (files : List ConfigFile) :
    ∀ st : AnalyzeState,
      (st.result.Errors = st.collected.map (fun p => toValidationError p.1 p.2)
        ∧ st.result.Passed = !hcl.HasErrors (st.collected.map Prod.snd)) →
      ((files.foldl (analyzeStep parseConfig ord) st).result.Errors
          = (files.foldl (analyzeStep parseConfig ord) st).collected.map
              (fun p => toValidationError p.1 p.2)
        ∧ (files.foldl (analyzeStep parseConfig ord) st).result.Passed
          = !hcl.HasErrors ((files.foldl (analyzeStep parseConfig ord) st).collected.map
              Prod.snd)) := by
  induction files with
  | nil => intro st h; exact h
  | cons f rest ih =>
    intro st h
    simp only [List.foldl_cons]
    exact ih _ (analyzeStep_collected parseConfig ord st f h)

/-! ## C11: Passed and the severity of the collected diagnostics -/

/-- C11: the errors of the result `Analyze` builds are the diagnostics collected for the
analyzed files (those of the parser for a file that fails to parse, those of the structural
checks otherwise), converted in order; `Passed` is false exactly when one of the collected
diagnostics has error severity; when every collected diagnostic is a warning `Passed` is true,
however many there are; and `Analyze` returns this result with a nil error, unless saving the
report fails, in which case it returns a nil result with the error. -/
theorem Analyze_passed_iff_no_error (parseConfig : hcl.ParseConfig) (ord : MapOrder)
    (files : List ConfigFile) :
    (TerraformAnalyzer.collect parseConfig ord files).Errors
      = (TerraformAnalyzer.analyzeFiles parseConfig ord files).collected.map
          (fun p => toValidationError p.1 p.2) ∧
    ((TerraformAnalyzer.collect parseConfig ord files).Passed = false ↔
      ∃ p ∈ (TerraformAnalyzer.analyzeFiles parseConfig ord files).collected,
        p.2.Severity = hcl.DiagnosticSeverity.DiagError) ∧
    ((∀ p ∈ (TerraformAnalyzer.analyzeFiles parseConfig ord files).collected,
        p.2.Severity = hcl.DiagnosticSeverity.DiagWarning) →
      (TerraformAnalyzer.collect parseConfig ord files).Passed = true) ∧
    (∀ (osErr : Bool) (fs : FS) (outputDir : String),
      ((TerraformAnalyzer.Analyze (TerraformAnalyzer.collect parseConfig ord) osErr fs files
          outputDir).2.2 = none ∧
        (TerraformAnalyzer.Analyze (TerraformAnalyzer.collect parseConfig ord) osErr fs files
          outputDir).2.1 = some (TerraformAnalyzer.collect parseConfig ord files)) ∨
      ((∃ e, (TerraformAnalyzer.Analyze (TerraformAnalyzer.collect parseConfig ord) osErr fs files
          outputDir).2.2 = some e) ∧
        (TerraformAnalyzer.Analyze (TerraformAnalyzer.collect parseConfig ord) osErr fs files
          outputDir).2.1 = none)) := by
  have h := analyzeFiles_collected parseConfig ord files analyzeStart
    (by simp [analyzeStart, hcl.HasErrors])
  have hiff : (TerraformAnalyzer.collect parseConfig ord files).Passed = false ↔
      ∃ p ∈ (TerraformAnalyzer.analyzeFiles parseConfig ord files).collected,
        p.2.Severity = hcl.DiagnosticSeverity.DiagError := by
    unfold TerraformAnalyzer.collect TerraformAnalyzer.analyzeFiles
    rw [h.2]
    simp only [hcl.HasErrors, Bool.not_eq_false', List.any_eq_true, List.mem_map, beq_iff_eq]
    constructor
    · rintro ⟨d, ⟨p, hp, rfl⟩, hd⟩
      exact ⟨p, hp, hd⟩
    · rintro ⟨p, hp, hd⟩
      exact ⟨p.2, ⟨p, hp, rfl⟩, hd⟩
  refine ⟨h.1, hiff, ?_, ?_⟩
  · intro hw
    cases hp : (TerraformAnalyzer.collect parseConfig ord files).Passed
    · obtain ⟨p, hp1, hp2⟩ := hiff.mp hp
      rw [hw p hp1] at hp2
      exact absurd hp2 (by decide)
    · rfl
  · intro osErr fs outputDir
    unfold TerraformAnalyzer.Analyze
    rcases hs : TerraformAnalyzer.saveResults osErr fs
      (TerraformAnalyzer.collect parseConfig ord files)
      (joinPath outputDir "static_validator") with ⟨fs1, _ | e⟩ <;> simp [hs]

/-! ## C16: files that are not analyzed -/

theorem foldl_analyzeStep_skip (parseConfig : hcl.ParseConfig) (ord : MapOrder)
    (pre post : List ConfigFile) (file : ConfigFile) (h : isAnalyzed file = false)
    (st : AnalyzeState) :
    (pre ++ file :: post).foldl (analyzeStep parseConfig ord) st
      = (pre ++ post).foldl (analyzeStep parseConfig ord) st := by
  simp only [List.foldl_append, List.foldl_cons, analyzeStep_skip parseConfig ord _ file h]

/-- C16: a file whose declared type is not `terraform` or whose name does not end in `.tf` is
skipped: the loop of `Analyze` leaves its state (result, parser, collected diagnostics)
unchanged at that file, whatever its content; the result built for a list containing the file
is the result built for the list without it; and so is everything `Analyze` returns and
writes. -/
theorem Analyze_skips_other_files (parseConfig : hcl.ParseConfig) (ord : MapOrder)
    (pre post : List ConfigFile) (file : ConfigFile)
    (h : file.Type_ ≠ "terraform" ∨ stringsHasSuffix file.Name ".tf" = false) :
    (∀ st : AnalyzeState, analyzeStep parseConfig ord st file = st) ∧
    TerraformAnalyzer.collect parseConfig ord (pre ++ file :: post)
      = TerraformAnalyzer.collect parseConfig ord (pre ++ post) ∧
    (∀ (osErr : Bool) (fs : FS) (outputDir : String),
      TerraformAnalyzer.Analyze (TerraformAnalyzer.collect parseConfig ord) osErr fs
          (pre ++ file :: post) outputDir
        = TerraformAnalyzer.Analyze (TerraformAnalyzer.collect parseConfig ord) osErr fs
          (pre ++ post) outputDir) := by
  have hskip : isAnalyzed file = false := by
    unfold isAnalyzed
    rcases h with h | h
    · simp [h]
    · simp [h]
  have hc : TerraformAnalyzer.collect parseConfig ord (pre ++ file :: post)
      = TerraformAnalyzer.collect parseConfig ord (pre ++ post) := by
    unfold TerraformAnalyzer.collect TerraformAnalyzer.analyzeFiles
    rw [foldl_analyzeStep_skip parseConfig ord pre post file hskip]
  refine ⟨fun st => analyzeStep_skip parseConfig ord st file hskip, hc, ?_⟩
  intro osErr fs outputDir
  unfold TerraformAnalyzer.Analyze
  rw [hc]

/-! ## Lemmas on the parser registry and the independence of files -/

theorem HasErrors_nil : hcl.HasErrors [] = false := rfl

theorem analyzeStep_congr (parseConfig : hcl.ParseConfig) (ord : MapOrder)
    (st₁ st₂ : AnalyzeState) (file : ConfigFile)
    (hn : st₁.iterations = st₂.iterations)
    (hl : st₁.parserFiles.lookup file.Name = st₂.parserFiles.lookup file.Name) :
    ∃ (diags : List ValidationConfigError) (failed : Bool),
      (analyzeStep parseConfig ord st₁ file).result.Errors = st₁.result.Errors ++ diags ∧
      (analyzeStep parseConfig ord st₂ file).result.Errors = st₂.result.Errors ++ diags ∧
      (analyzeStep parseConfig ord st₁ file).result.Passed = (st₁.result.Passed && !failed) ∧
      (analyzeStep parseConfig ord st₂ file).result.Passed = (st₂.result.Passed && !failed) ∧
      (analyzeStep parseConfig ord st₁ file).iterations
        = (analyzeStep parseConfig ord st₂ file).iterations ∧
      (∀ name, st₁.parserFiles.lookup name = st₂.parserFiles.lookup name →
        (analyzeStep parseConfig ord st₁ file).parserFiles.lookup name
          = (analyzeStep parseConfig ord st₂ file).parserFiles.lookup name) := by
  by_cases hskip : (file.Type_ != "terraform" || !stringsHasSuffix file.Name ".tf") = true
  · refine ⟨[], false, ?_, ?_, ?_, ?_, ?_, ?_⟩ <;> simp [analyzeStep, hskip, hn]
  · cases hc : st₂.parserFiles.lookup file.Name with
    | some existing =>
      rw [hc] at hl
      by_cases he : hcl.HasErrors
          (TerraformAnalyzer.analyzeFile ord st₂.iterations existing file.Name).1 = true
      · refine ⟨(TerraformAnalyzer.analyzeFile ord st₂.iterations existing file.Name).1.map
          (toValidationError file.Name), true, ?_, ?_, ?_, ?_, ?_, ?_⟩ <;>
          simp [analyzeStep, hskip, hcl.ParseHCL, hl, hc, hn, HasErrors_nil, he]
      · refine ⟨(TerraformAnalyzer.analyzeFile ord st₂.iterations existing file.Name).1.map
          (toValidationError file.Name), false, ?_, ?_, ?_, ?_, ?_, ?_⟩ <;>
          simp [analyzeStep, hskip, hcl.ParseHCL, hl, hc, hn, HasErrors_nil, he]
    | none =>
      rw [hc] at hl
      by_cases hp : hcl.HasErrors (parseConfig file.Content file.Name).2 = true
      · refine ⟨(parseConfig file.Content file.Name).2.map (toValidationError file.Name), true,
          ?_, ?_, ?_, ?_, ?_, ?_⟩ <;>
          simp [analyzeStep, hskip, hcl.ParseHCL, hl, hc, hn, hp, List.lookup_cons]
        intro name h
        split <;> simp [h]
      · by_cases he : hcl.HasErrors (TerraformAnalyzer.analyzeFile ord st₂.iterations
            (parseConfig file.Content file.Name).1 file.Name).1 = true
        · refine ⟨(TerraformAnalyzer.analyzeFile ord st₂.iterations
            (parseConfig file.Content file.Name).1 file.Name).1.map
            (toValidationError file.Name), true, ?_, ?_, ?_, ?_, ?_, ?_⟩ <;>
            simp [analyzeStep, hskip, hcl.ParseHCL, hl, hc, hn, hp, he, List.lookup_cons]
          intro name h
          split <;> simp [h]
        · refine ⟨(TerraformAnalyzer.analyzeFile ord st₂.iterations
            (parseConfig file.Content file.Name).1 file.Name).1.map
            (toValidationError file.Name), false, ?_, ?_, ?_, ?_, ?_, ?_⟩ <;>
            simp [analyzeStep, hskip, hcl.ParseHCL, hl, hc, hn, hp, he, List.lookup_cons]
          intro name h
          split <;> simp [h]

theorem isAnalyzed_eq (file : ConfigFile) :
    (file.Type_ != "terraform" || !stringsHasSuffix file.Name ".tf") = !isAnalyzed file := by
  simp [isAnalyzed]

theorem analyzeStep_lookup_other (parseConfig : hcl.ParseConfig) (ord : MapOrder)
    (st : AnalyzeState) (file : ConfigFile) (name : String)
    (h : isAnalyzed file = true → file.Name ≠ name) :
    (analyzeStep parseConfig ord st file).parserFiles.lookup name
      = st.parserFiles.lookup name := by
  cases ha : isAnalyzed file with
  | false => rw [analyzeStep_skip parseConfig ord st file ha]
  | true =>
    have hne : (name == file.Name) = false := by
      simpa [beq_eq_false_iff_ne] using fun heq => h ha heq.symm
    unfold analyzeStep
    rw [isAnalyzed_eq, ha]
    simp only [Bool.not_true, Bool.false_eq_true, if_false]
    unfold hcl.ParseHCL
    cases hc : st.parserFiles.lookup file.Name with
    | some existing => simp only []; split <;> rfl
    | none => simp only []; split <;> simp [List.lookup_cons, hne]

theorem foldl_analyzeStep_lookup_other (parseConfig : hcl.ParseConfig) (ord : MapOrder)
    (name : String) (files : List ConfigFile) :
    ∀ st : AnalyzeState, (∀ g ∈ files, isAnalyzed g = true → g.Name ≠ name) →
      (files.foldl (analyzeStep parseConfig ord) st).parserFiles.lookup name
        = st.parserFiles.lookup name := by
  induction files with
  | nil => intro st _; rfl
  | cons g rest ih =>
    intro st h
    simp only [List.foldl_cons]
    rw [ih _ (fun x hx => h x (List.mem_cons_of_mem _ hx))]
    exact analyzeStep_lookup_other parseConfig ord st g name (h g (List.mem_cons_self _ _))

theorem analyzeStep_passed_false (parseConfig : hcl.ParseConfig) (ord : MapOrder)
    (st : AnalyzeState) (file : ConfigFile) (h : st.result.Passed = false) :
    (analyzeStep parseConfig ord st file).result.Passed = false := by
  obtain ⟨_, failed, _, _, hp, _⟩ := analyzeStep_congr parseConfig ord st st file rfl rfl
  rw [hp, h]
  rfl

theorem foldl_analyzeStep_passed_false (parseConfig : hcl.ParseConfig) (ord : MapOrder)
    (files : List ConfigFile) :
    ∀ st : AnalyzeState, st.result.Passed = false →
      (files.foldl (analyzeStep parseConfig ord) st).result.Passed = false := by
  induction files with
  | nil => intro st h; exact h
  | cons g rest ih =>
    intro st h
    simp only [List.foldl_cons]
    exact ih _ (analyzeStep_passed_false parseConfig ord st g h)

theorem foldl_analyzeStep_congr (parseConfig : hcl.ParseConfig) (ord : MapOrder)
    (name : String) (files : List ConfigFile) :
    ∀ (st₁ st₂ : AnalyzeState) (errs₁ errs₂ later : List ValidationConfigError),
      st₁.iterations = st₂.iterations →
      (∀ other, other ≠ name →
        st₁.parserFiles.lookup other = st₂.parserFiles.lookup other) →
      st₁.result.Errors = errs₁ ++ later →
      st₂.result.Errors = errs₂ ++ later →
      (∀ g ∈ files, isAnalyzed g = true → g.Name ≠ name) →
      ∃ later' : List ValidationConfigError,
        (files.foldl (analyzeStep parseConfig ord) st₁).result.Errors = errs₁ ++ later' ∧
        (files.foldl (analyzeStep parseConfig ord) st₂).result.Errors = errs₂ ++ later' := by
  induction files with
  | nil => intro st₁ st₂ errs₁ errs₂ later _ _ h₁ h₂ _; exact ⟨later, h₁, h₂⟩
  | cons g rest ih =>
    intro st₁ st₂ errs₁ errs₂ later hn hl h₁ h₂ hnames
    simp only [List.foldl_cons]
    have hrest : ∀ x ∈ rest, isAnalyzed x = true → x.Name ≠ name :=
      fun x hx => hnames x (List.mem_cons_of_mem _ hx)
    cases ha : isAnalyzed g with
    | false =>
      rw [analyzeStep_skip parseConfig ord st₁ g ha, analyzeStep_skip parseConfig ord st₂ g ha]
      exact ih st₁ st₂ errs₁ errs₂ later hn hl h₁ h₂ hrest
    | true =>
      have hg : g.Name ≠ name := hnames g (List.mem_cons_self _ _) ha
      obtain ⟨diags, _, he₁, he₂, _, _, hn', hl'⟩ :=
        analyzeStep_congr parseConfig ord st₁ st₂ g hn (hl g.Name hg)
      refine ih _ _ errs₁ errs₂ (later ++ diags) hn' (fun other ho => hl' other (hl other ho))
        ?_ ?_ hrest
      · rw [he₁, h₁, List.append_assoc]
      · rw [he₂, h₂, List.append_assoc]

theorem analyzeFiles_registry (parseConfig : hcl.ParseConfig) (ord : MapOrder) (name : String)
    (files : List ConfigFile) (h : ∀ g ∈ files, isAnalyzed g = true → g.Name ≠ name) :
    (TerraformAnalyzer.analyzeFiles parseConfig ord files).parserFiles.lookup name = none := by
  unfold TerraformAnalyzer.analyzeFiles
  rw [foldl_analyzeStep_lookup_other parseConfig ord name files analyzeStart h]
  rfl

theorem analyzeStep_parse_failure (parseConfig : hcl.ParseConfig) (ord : MapOrder)
    (st : AnalyzeState) (file : ConfigFile) (ha : isAnalyzed file = true)
    (hreg : st.parserFiles.lookup file.Name = none)
    (hfail : hcl.HasErrors (parseConfig file.Content file.Name).2 = true) :
    (analyzeStep parseConfig ord st file).result.Errors
      = st.result.Errors
        ++ (parseConfig file.Content file.Name).2.map (toValidationError file.Name) ∧
    (analyzeStep parseConfig ord st file).result.Passed = false ∧
    (analyzeStep parseConfig ord st file).iterations = st.iterations ∧
    (∀ other, other ≠ file.Name →
      (analyzeStep parseConfig ord st file).parserFiles.lookup other
        = st.parserFiles.lookup other) := by
  have hother := fun other (ho : other ≠ file.Name) =>
    analyzeStep_lookup_other parseConfig ord st file other (fun _ h => ho h.symm)
  unfold analyzeStep
  rw [isAnalyzed_eq, ha]
  simp [hcl.ParseHCL, hreg, hfail]
  intro other ho
  have := hother other ho
  unfold analyzeStep at this
  rw [isAnalyzed_eq, ha] at this
  simpa [hcl.ParseHCL, hreg, hfail] using this

/-! ## C12: a file that fails to parse -/

/-- C12 (as stated, refuted): (a) the file `vars.tf` fails to parse and contributes two
diagnostics, one for each diagnostic of the parser, not one; (b) with a failing `main.tf`
listed before a well-formed file of the same name, the parser hands the registered first file
to the second, which then contributes no diagnostic, although alone it yields the two
advisories for its resource. -/
theorem parse_failure_not_isolated :
    (hcl.HasErrors (exampleParseConfig singleQuoteText "vars.tf").2 = true ∧
      (TerraformAnalyzer.collect exampleParseConfig sourceOrder
          [tfFile "vars.tf" singleQuoteText]).Errors
        = [{ File := "vars.tf",
             Message := "Invalid character: Single quotes are not valid. Use double quotes (\") to enclose strings.",
             Line := 1, Column := 8 },
           { File := "vars.tf",
             Message := "Invalid expression: Expected the start of an expression, but found an invalid expression token.",
             Line := 1, Column := 8 }]) ∧
    ((TerraformAnalyzer.collect exampleParseConfig sourceOrder
          [tfFile "main.tf" singleQuoteText, mainTf]).Errors
        = (TerraformAnalyzer.collect exampleParseConfig sourceOrder
          [tfFile "main.tf" singleQuoteText]).Errors ∧
      (TerraformAnalyzer.collect exampleParseConfig sourceOrder [mainTf]).Errors
        = [{ File := "main.tf", Message := "Resource a.b missing lifecycle block in main.tf: ",
             Line := 1, Column := 1 },
           { File := "main.tf", Message := "Resource a.b missing tags attribute in main.tf: ",
             Line := 1, Column := 1 }]) := by
  refine ⟨⟨?_, ?_⟩, ⟨?_, ?_⟩⟩ <;> decide

/-- C12 (amended): for every list of files and every analyzed file of it whose name no other
analyzed file of the list carries, if the text of the file fails to parse, the file contributes
one diagnostic for each diagnostic of the parser (at least one of them a hard error), in order,
each carrying the file's name and the line and column where that diagnostic starts, it
contributes no structural-rule diagnostic, and `Passed` is false; the diagnostics produced
for the files before it and after it are the same as if the failing file were not in the
list. -/
theorem parse_failure_isolated (parseConfig : hcl.ParseConfig) (ord : MapOrder)
    (pre post : List ConfigFile) (file : ConfigFile)
    (ha : isAnalyzed file = true)
    (hfail : hcl.HasErrors (parseConfig file.Content file.Name).2 = true)
    (hpre : ∀ g ∈ pre, isAnalyzed g = true → g.Name ≠ file.Name)
    (hpost : ∀ g ∈ post, isAnalyzed g = true → g.Name ≠ file.Name) :
    ∃ later : List ValidationConfigError,
      (TerraformAnalyzer.collect parseConfig ord (pre ++ post)).Errors
        = (TerraformAnalyzer.collect parseConfig ord pre).Errors ++ later ∧
      (TerraformAnalyzer.collect parseConfig ord (pre ++ file :: post)).Errors
        = (TerraformAnalyzer.collect parseConfig ord pre).Errors
          ++ (parseConfig file.Content file.Name).2.map (toValidationError file.Name)
          ++ later ∧
      (TerraformAnalyzer.collect parseConfig ord (pre ++ file :: post)).Passed = false := by
  have hreg := analyzeFiles_registry parseConfig ord file.Name pre hpre
  obtain ⟨hE, hP, hn, hl⟩ := analyzeStep_parse_failure parseConfig ord
    (TerraformAnalyzer.analyzeFiles parseConfig ord pre) file ha hreg hfail
  obtain ⟨later, h₁, h₂⟩ := foldl_analyzeStep_congr parseConfig ord file.Name post
    (analyzeStep parseConfig ord (TerraformAnalyzer.analyzeFiles parseConfig ord pre) file)
    (TerraformAnalyzer.analyzeFiles parseConfig ord pre)
    ((TerraformAnalyzer.collect parseConfig ord pre).Errors
      ++ (parseConfig file.Content file.Name).2.map (toValidationError file.Name))
    (TerraformAnalyzer.collect parseConfig ord pre).Errors [] hn hl
    (by rw [hE]; simp [TerraformAnalyzer.collect])
    (by simp [TerraformAnalyzer.collect]) hpost
  refine ⟨later, ?_, ?_, ?_⟩
  · simpa [TerraformAnalyzer.collect, TerraformAnalyzer.analyzeFiles, List.foldl_append] using h₂
  · simpa [TerraformAnalyzer.collect, TerraformAnalyzer.analyzeFiles, List.foldl_append] using h₁
  · simp only [TerraformAnalyzer.collect, TerraformAnalyzer.analyzeFiles, List.foldl_append,
      List.foldl_cons]
    exact foldl_analyzeStep_passed_false parseConfig ord post _ hP

set_option maxRecDepth 100000 in
/-- C12 (amended), at a concrete list: the unterminated `broken.tf` stands between `main.tf`
and `providers.tf`; it contributes the parser's one diagnostic at line 1, column 18, `Passed`
is false, and the diagnostics of the two other files are those of the list without it. -/
theorem parse_failure_isolated_witness :
    (TerraformAnalyzer.collect exampleParseConfig sourceOrder
        [mainTf, tfFile "broken.tf" unterminatedText, tfFile "providers.tf" providersText]).Passed
      = false ∧
    (TerraformAnalyzer.collect exampleParseConfig sourceOrder
        [mainTf, tfFile "broken.tf" unterminatedText, tfFile "providers.tf" providersText]).Errors
      = (TerraformAnalyzer.collect exampleParseConfig sourceOrder [mainTf]).Errors
        ++ [{ File := "broken.tf",
              Message := "Unclosed configuration block: There is no closing brace for this block before the end of the file. This may be caused by incorrect brace nesting elsewhere in this file.",
              Line := 1, Column := 18 }]
        ++ (TerraformAnalyzer.collect exampleParseConfig sourceOrder
            [tfFile "providers.tf" providersText]).Errors :=
  (parse_failure_isolated exampleParseConfig sourceOrder [mainTf]
    [tfFile "providers.tf" providersText] (tfFile "broken.tf" unterminatedText)
    (by decide) (by decide) (by decide) (by decide)).elim
    (fun _ h => ⟨h.2.2, by decide⟩)

/-! ## C18: determinism of Analyze -/

theorem analyzeStep_orders (parseConfig : hcl.ParseConfig) (ord₁ ord₂ : MapOrder)
    (st₁ st₂ : AnalyzeState) (file : ConfigFile)
    (hreg : st₁.parserFiles = st₂.parserFiles) (hn : st₁.iterations = st₂.iterations)
    (hP : st₁.result.Passed = st₂.result.Passed)
    (hE : st₁.result.Errors.Perm st₂.result.Errors)
    (hF : st₁.result.Errors.map ValidationConfigError.File
      = st₂.result.Errors.map ValidationConfigError.File) :
    (analyzeStep parseConfig ord₁ st₁ file).parserFiles
        = (analyzeStep parseConfig ord₂ st₂ file).parserFiles ∧
    (analyzeStep parseConfig ord₁ st₁ file).iterations
        = (analyzeStep parseConfig ord₂ st₂ file).iterations ∧
    (analyzeStep parseConfig ord₁ st₁ file).result.Passed
        = (analyzeStep parseConfig ord₂ st₂ file).result.Passed ∧
    (analyzeStep parseConfig ord₁ st₁ file).result.Errors.Perm
        (analyzeStep parseConfig ord₂ st₂ file).result.Errors ∧
    (analyzeStep parseConfig ord₁ st₁ file).result.Errors.map ValidationConfigError.File
        = (analyzeStep parseConfig ord₂ st₂ file).result.Errors.map
            ValidationConfigError.File := by
  have key : ∀ body : hcl.Body,
      (TerraformAnalyzer.analyzeFile ord₁ st₂.iterations body file.Name).2
          = (TerraformAnalyzer.analyzeFile ord₂ st₂.iterations body file.Name).2 ∧
      hcl.HasErrors (TerraformAnalyzer.analyzeFile ord₁ st₂.iterations body file.Name).1
          = hcl.HasErrors (TerraformAnalyzer.analyzeFile ord₂ st₂.iterations body file.Name).1 ∧
      (st₁.result.Errors ++ (TerraformAnalyzer.analyzeFile ord₁ st₂.iterations body
            file.Name).1.map (toValidationError file.Name)).Perm
          (st₂.result.Errors ++ (TerraformAnalyzer.analyzeFile ord₂ st₂.iterations body
            file.Name).1.map (toValidationError file.Name)) ∧
      (st₁.result.Errors ++ (TerraformAnalyzer.analyzeFile ord₁ st₂.iterations body
            file.Name).1.map (toValidationError file.Name)).map ValidationConfigError.File
          = (st₂.result.Errors ++ (TerraformAnalyzer.analyzeFile ord₂ st₂.iterations body
            file.Name).1.map (toValidationError file.Name)).map ValidationConfigError.File := by
    intro body
    have hp := analyzeFile_perm ord₁ ord₂ st₂.iterations body file.Name
    refine ⟨analyzeFile_count ord₁ ord₂ _ _ _, HasErrors_perm hp,
      List.Perm.append hE (hp.map _), ?_⟩
    simp only [List.map_append, List.map_map, hF]
    congr 1
    have hconst : ∀ l : List hcl.Diagnostic,
        l.map (ValidationConfigError.File ∘ toValidationError file.Name)
          = List.replicate l.length file.Name := by
      intro l
      induction l with
      | nil => rfl
      | cons d rest ih => simp [List.replicate_succ, toValidationError, ih]
    rw [hconst, hconst, hp.length_eq]
  by_cases hskip : (file.Type_ != "terraform" || !stringsHasSuffix file.Name ".tf") = true
  · simp [analyzeStep, hskip, hreg, hn, hP, hE, hF]
  · cases hc : st₂.parserFiles.lookup file.Name with
    | some existing =>
      obtain ⟨k₁, k₂, k₃, k₄⟩ := key existing
      simp only [analyzeStep, hskip, hcl.ParseHCL, hreg, hc, hn, HasErrors_nil, if_false,
        Bool.false_eq_true]
      exact ⟨trivial, k₁, by rw [k₂, hP], k₃, k₄⟩
    | none =>
      obtain ⟨k₁, k₂, k₃, k₄⟩ := key (parseConfig file.Content file.Name).1
      by_cases hp : hcl.HasErrors (parseConfig file.Content file.Name).2 = true
      · simp only [analyzeStep, hskip, hcl.ParseHCL, hreg, hc, hn, hp, if_true, if_false,
          Bool.false_eq_true]
        refine ⟨trivial, trivial, trivial, List.Perm.append_right _ hE, ?_⟩
        simp only [List.map_append, hF]
      · simp only [analyzeStep, hskip, hcl.ParseHCL, hreg, hc, hn, hp, if_false,
          Bool.false_eq_true]
        exact ⟨trivial, k₁, by rw [k₂, hP], k₃, k₄⟩

theorem foldl_analyzeStep_orders (parseConfig : hcl.ParseConfig) (ord₁ ord₂ : MapOrder)
    (files : List ConfigFile) :
    ∀ st₁ st₂ : AnalyzeState,
      st₁.parserFiles = st₂.parserFiles → st₁.iterations = st₂.iterations →
      st₁.result.Passed = st₂.result.Passed →
      st₁.result.Errors.Perm st₂.result.Errors →
      st₁.result.Errors.map ValidationConfigError.File
        = st₂.result.Errors.map ValidationConfigError.File →
      (files.foldl (analyzeStep parseConfig ord₁) st₁).result.Passed
          = (files.foldl (analyzeStep parseConfig ord₂) st₂).result.Passed ∧
      (files.foldl (analyzeStep parseConfig ord₁) st₁).result.Errors.Perm
          (files.foldl (analyzeStep parseConfig ord₂) st₂).result.Errors ∧
      (files.foldl (analyzeStep parseConfig ord₁) st₁).result.Errors.map
          ValidationConfigError.File
        = (files.foldl (analyzeStep parseConfig ord₂) st₂).result.Errors.map
          ValidationConfigError.File := by
  induction files with
  | nil => intro st₁ st₂ _ _ hP hE hF; exact ⟨hP, hE, hF⟩
  | cons g rest ih =>
    intro st₁ st₂ hreg hn hP hE hF
    obtain ⟨a, b, c, d, e⟩ := analyzeStep_orders parseConfig ord₁ ord₂ st₁ st₂ g hreg hn hP hE hF
    simp only [List.foldl_cons]
    exact ih _ _ a b c d e

/-- C18 (as stated, refuted): the resource of `s.tf` has the two sensitive attributes
`password` and `token`, both literals. When the runtime ranges over the attribute map in
source order the last diagnostic is the one for `token`, when it ranges in reverse order the
one for `password`: the two runs return the diagnostics in different orders and
`markFilesWithErrors` retains a different diagnostic for the file. -/
theorem Analyze_depends_on_map_order :
    (TerraformAnalyzer.collect exampleParseConfig sourceOrder
        [tfFile "s.tf" twoSecretsText]).Errors
      ≠ (TerraformAnalyzer.collect exampleParseConfig reverseOrder
        [tfFile "s.tf" twoSecretsText]).Errors ∧
    (markFilesWithErrors [tfFile "s.tf" twoSecretsText]
        (TerraformAnalyzer.collect exampleParseConfig sourceOrder
          [tfFile "s.tf" twoSecretsText]).Errors).map ConfigFile.ErrorMsg
      = [some { File := "s.tf",
                Message := "Potential hardcoded sensitive value in attribute token of resource aws_db_instance.db in s.tf: ",
                Line := 3, Column := 3 }] ∧
    (markFilesWithErrors [tfFile "s.tf" twoSecretsText]
        (TerraformAnalyzer.collect exampleParseConfig reverseOrder
          [tfFile "s.tf" twoSecretsText]).Errors).map ConfigFile.ErrorMsg
      = [some { File := "s.tf",
                Message := "Potential hardcoded sensitive value in attribute password of resource aws_db_instance.db in s.tf: ",
                Line := 2, Column := 3 }] := by
  refine ⟨?_, ?_, ?_⟩ <;> decide

/-- C18 (amended): two runs of `Analyze` on the same file list, whatever order the runtime
picks for each iteration over an attribute map, return the same `Passed` value and the same
diagnostics up to their order: the two lists are permutations of each other and name the same
files at the same positions (only the diagnostics of one file can change places); hence
`markFilesWithErrors` sets the same `HasError` flag on every file in both runs, while the single
diagnostic it retains may differ. -/
theorem Analyze_deterministic_up_to_order (parseConfig : hcl.ParseConfig)
    (ord₁ ord₂ : MapOrder) (files owners : List ConfigFile) :
    (TerraformAnalyzer.collect parseConfig ord₁ files).Passed
      = (TerraformAnalyzer.collect parseConfig ord₂ files).Passed ∧
    (TerraformAnalyzer.collect parseConfig ord₁ files).Errors.Perm
      (TerraformAnalyzer.collect parseConfig ord₂ files).Errors ∧
    (TerraformAnalyzer.collect parseConfig ord₁ files).Errors.map ValidationConfigError.File
      = (TerraformAnalyzer.collect parseConfig ord₂ files).Errors.map
          ValidationConfigError.File ∧
    (markFilesWithErrors owners (TerraformAnalyzer.collect parseConfig ord₁ files).Errors).map
        ConfigFile.HasError
      = (markFilesWithErrors owners (TerraformAnalyzer.collect parseConfig ord₂ files).Errors).map
        ConfigFile.HasError := by
  obtain ⟨hP, hE, hF⟩ := foldl_analyzeStep_orders parseConfig ord₁ ord₂ files analyzeStart
    analyzeStart rfl rfl rfl (List.Perm.refl _) rfl
  refine ⟨hP, hE, hF, ?_⟩
  unfold markFilesWithErrors
  simp only [List.map_map]
  apply List.map_congr_left
  intro f _
  simp only [Function.comp, markFile_eq]
  rw [Bool.eq_iff_iff, getLast?_filter_isSome, getLast?_filter_isSome]
  constructor
  · rintro ⟨d, hd, hn⟩
    exact ⟨d, (List.Perm.mem_iff hE).mp hd, hn⟩
  · rintro ⟨d, hd, hn⟩
    exact ⟨d, (List.Perm.mem_iff hE).mpr hd, hn⟩

/-! ## Lemmas: what the analysis of a file contains -/

theorem mem_requiredProvidersLoop (ord : MapOrder) (fileName : String) (d : hcl.Diagnostic)
    (rpBlock : hcl.Block) (attr : hcl.Attribute) (ha : attr ∈ rpBlock.Body.Attributes)
    (hd : d ∈ providerEntryDiags fileName attr) (blocks : List hcl.Block) :
    ∀ n, rpBlock ∈ blocks → d ∈ (requiredProvidersLoop ord fileName n blocks).1 := by
  induction blocks with
  | nil => intro n h; simp at h
  | cons b rest ih =>
    intro n h
    simp only [requiredProvidersLoop, List.mem_append]
    rcases List.mem_cons.mp h with rfl | h
    · left
      simp only [requiredProvidersDiags, List.mem_append, List.mem_flatMap]
      right
      exact ⟨attr, (ord.perm n _).mem_iff.mpr ha, hd⟩
    · right
      exact ih _ h

theorem mem_terraformBlocksLoop (ord : MapOrder) (fileName : String) (d : hcl.Diagnostic)
    (tfBlock rpBlock : hcl.Block) (attr : hcl.Attribute)
    (hrp : rpBlock ∈ hcl.OfType (tfBlock.Body.PartialContent tfSchema).1.Blocks
      "required_providers")
    (ha : attr ∈ rpBlock.Body.Attributes)
    (hd : d ∈ providerEntryDiags fileName attr) (blocks : List hcl.Block) :
    ∀ n, tfBlock ∈ blocks → d ∈ (terraformBlocksLoop ord fileName n blocks).1 := by
  induction blocks with
  | nil => intro n h; simp at h
  | cons b rest ih =>
    intro n h
    simp only [terraformBlocksLoop, List.mem_append]
    rcases List.mem_cons.mp h with rfl | h
    · left
      simp only [terraformBlockDiags, List.mem_append]
      right
      exact mem_requiredProvidersLoop ord fileName d rpBlock attr ha hd _ _ hrp
    · right
      exact ih _ h

theorem mem_resourceBlocksLoop (ord : MapOrder) (fileName : String) (d : hcl.Diagnostic)
    (block : hcl.Block)
    (hd : ∀ n, d ∈ resourceBlockDiags ord n fileName block) (blocks : List hcl.Block) :
    ∀ n, block ∈ blocks → d ∈ (resourceBlocksLoop ord fileName n blocks).1 := by
  induction blocks with
  | nil => intro n h; simp at h
  | cons b rest ih =>
    intro n h
    simp only [resourceBlocksLoop, List.mem_append]
    rcases List.mem_cons.mp h with rfl | h
    · left; exact hd n
    · right; exact ih _ h

theorem mem_partialContent_blocks (body : hcl.Body) (schema : hcl.BodySchema)
    (blockS : hcl.BlockHeaderSchema) (block : hcl.Block) (hb : block ∈ body.Blocks)
    (hs : schema.Blocks.reverse.find? (fun s => s.Type_ == block.Type_) = some blockS)
    (hl : block.Labels.length = blockS.LabelNames.length) :
    block ∈ (body.PartialContent schema).1.Blocks := by
  simp only [hcl.Body.PartialContent, List.mem_flatMap, List.mem_map]
  refine ⟨_, ⟨block, hb, rfl⟩, ?_⟩
  simp [hcl.partialBlock, hs, hl]

theorem terraform_block_accepted (body : hcl.Body) (block : hcl.Block)
    (hb : block ∈ body.Blocks) (ht : block.Type_ = "terraform") (hl : block.Labels = []) :
    block ∈ hcl.OfType (body.PartialContent fileSchema).1.Blocks "terraform" := by
  simp only [hcl.OfType, List.mem_filter, ht, beq_self_eq_true, and_true]
  exact mem_partialContent_blocks body fileSchema { Type_ := "terraform", LabelNames := [] }
    block hb (by simp [fileSchema, ht, List.find?]) (by simp [hl])

theorem resource_block_accepted (body : hcl.Body) (block : hcl.Block)
    (hb : block ∈ body.Blocks) (ht : block.Type_ = "resource") (hl : block.Labels.length = 2) :
    block ∈ hcl.OfType (body.PartialContent fileSchema).1.Blocks "resource" := by
  simp only [hcl.OfType, List.mem_filter, ht, beq_self_eq_true, and_true]
  exact mem_partialContent_blocks body fileSchema
    { Type_ := "resource", LabelNames := ["type", "name"] }
    block hb (by simp [fileSchema, ht, List.find?]) (by simp [hl])

theorem required_providers_block_accepted (body : hcl.Body) (block : hcl.Block)
    (hb : block ∈ body.Blocks) (ht : block.Type_ = "required_providers")
    (hl : block.Labels = []) :
    block ∈ hcl.OfType (body.PartialContent tfSchema).1.Blocks "required_providers" := by
  simp only [hcl.OfType, List.mem_filter, ht, beq_self_eq_true, and_true]
  exact mem_partialContent_blocks body tfSchema
    { Type_ := "required_providers", LabelNames := [] }
    block hb (by simp [tfSchema, ht, List.find?]) (by simp [hl])

theorem provider_entry_mem_analyzeFile (ord : MapOrder) (n : Nat) (body : hcl.Body)
    (fileName : String) (tfBlock rpBlock : hcl.Block) (attr : hcl.Attribute)
    (d : hcl.Diagnostic)
    (htf : tfBlock ∈ body.Blocks) (htt : tfBlock.Type_ = "terraform")
    (htl : tfBlock.Labels = [])
    (hrp : rpBlock ∈ tfBlock.Body.Blocks) (hrt : rpBlock.Type_ = "required_providers")
    (hrl : rpBlock.Labels = [])
    (ha : attr ∈ rpBlock.Body.Attributes) (hd : d ∈ providerEntryDiags fileName attr) :
    d ∈ (TerraformAnalyzer.analyzeFile ord n body fileName).1 := by
  simp only [TerraformAnalyzer.analyzeFile, TerraformAnalyzer.analyzeTerraformBlocks,
    List.mem_append]
  left; right
  exact mem_terraformBlocksLoop ord fileName d tfBlock rpBlock attr
    (required_providers_block_accepted _ rpBlock hrp hrt hrl) ha hd _ _
    (terraform_block_accepted body tfBlock htf htt htl)

theorem resource_diag_mem_analyzeFile (ord : MapOrder) (n : Nat) (body : hcl.Body)
    (fileName : String) (block : hcl.Block) (d : hcl.Diagnostic)
    (hb : block ∈ body.Blocks) (ht : block.Type_ = "resource") (hl : block.Labels.length = 2)
    (hd : ∀ k, d ∈ resourceBlockDiags ord k fileName block) :
    d ∈ (TerraformAnalyzer.analyzeFile ord n body fileName).1 := by
  simp only [TerraformAnalyzer.analyzeFile, TerraformAnalyzer.analyzeResourceBlocks,
    List.mem_append]
  right
  exact mem_resourceBlocksLoop ord fileName d block hd _ _
    (resource_block_accepted body block hb ht hl)

theorem foldl_analyzeStep_errors_grow (parseConfig : hcl.ParseConfig) (ord : MapOrder)
    (files : List ConfigFile) :
    ∀ st : AnalyzeState, ∃ later : List ValidationConfigError,
      (files.foldl (analyzeStep parseConfig ord) st).result.Errors
        = st.result.Errors ++ later := by
  induction files with
  | nil => intro st; exact ⟨[], by simp⟩
  | cons g rest ih =>
    intro st
    obtain ⟨diags, _, he, _⟩ := analyzeStep_congr parseConfig ord st st g rfl rfl
    obtain ⟨later, hl⟩ := ih (analyzeStep parseConfig ord st g)
    exact ⟨diags ++ later, by simp only [List.foldl_cons]; rw [hl, he, List.append_assoc]⟩

theorem analyzeStep_parse_ok (parseConfig : hcl.ParseConfig) (ord : MapOrder)
    (st : AnalyzeState) (file : ConfigFile) (ha : isAnalyzed file = true)
    (hreg : st.parserFiles.lookup file.Name = none)
    (hok : hcl.HasErrors (parseConfig file.Content file.Name).2 = false) :
    (analyzeStep parseConfig ord st file).result.Errors
      = st.result.Errors
        ++ (TerraformAnalyzer.analyzeFile ord st.iterations
            (parseConfig file.Content file.Name).1 file.Name).1.map
            (toValidationError file.Name) := by
  unfold analyzeStep
  rw [isAnalyzed_eq, ha]
  simp [hcl.ParseHCL, hreg, hok]

theorem diag_mem_collect (parseConfig : hcl.ParseConfig) (ord : MapOrder)
    (pre post : List ConfigFile) (file : ConfigFile) (d : hcl.Diagnostic)
    (ha : isAnalyzed file = true)
    (hok : hcl.HasErrors (parseConfig file.Content file.Name).2 = false)
    (hpre : ∀ g ∈ pre, isAnalyzed g = true → g.Name ≠ file.Name)
    (hd : ∀ n, d ∈ (TerraformAnalyzer.analyzeFile ord n
      (parseConfig file.Content file.Name).1 file.Name).1) :
    toValidationError file.Name d
      ∈ (TerraformAnalyzer.collect parseConfig ord (pre ++ file :: post)).Errors := by
  have hreg := analyzeFiles_registry parseConfig ord file.Name pre hpre
  have hE := analyzeStep_parse_ok parseConfig ord
    (TerraformAnalyzer.analyzeFiles parseConfig ord pre) file ha hreg hok
  obtain ⟨later, hl⟩ := foldl_analyzeStep_errors_grow parseConfig ord post
    (analyzeStep parseConfig ord (TerraformAnalyzer.analyzeFiles parseConfig ord pre) file)
  have : (TerraformAnalyzer.collect parseConfig ord (pre ++ file :: post)).Errors
      = ((TerraformAnalyzer.analyzeFiles parseConfig ord pre).result.Errors
          ++ (TerraformAnalyzer.analyzeFile ord
              (TerraformAnalyzer.analyzeFiles parseConfig ord pre).iterations
              (parseConfig file.Content file.Name).1 file.Name).1.map
              (toValidationError file.Name)) ++ later := by
    rw [← hE, ← hl]
    simp [TerraformAnalyzer.collect, TerraformAnalyzer.analyzeFiles, List.foldl_append]
  rw [this]
  simp only [List.mem_append, List.mem_map]
  left; right
  exact ⟨d, hd _, rfl⟩

/-! ## C13: required_providers entries without a version -/

/-- C13: (scenario A) for an analyzed file whose parsed body holds nothing but a `terraform`
block with a `required_providers` block of one entry that is an object without a `version`
key, the result of `Analyze` has exactly one diagnostic, the advisory that names the provider,
and `Passed` is true. In general, an entry lacking a version (an object without the key, or
not an object) yields an advisory diagnostic (severity warning) naming its provider; an entry
that has a version yields nothing beyond the diagnostics of its own evaluation, none when
that evaluation is clean; and the diagnostics of every entry of every `required_providers`
block of every `terraform` block are among the diagnostics of the file and of the result. -/
theorem required_providers_version (parseConfig : hcl.ParseConfig) (ord : MapOrder)
    (fileName : String) (attr : hcl.Attribute) :
    (∀ (file : ConfigFile) (keys : List String) (r₁ r₂ r₃ r₄ r₅ r₆ : hcl.Pos),
      isAnalyzed file = true → file.Name = fileName →
      parseConfig file.Content file.Name
        = ({ Attributes := [],
             Blocks := [hcl.Block.mk "terraform" [] []
               [hcl.Block.mk "required_providers" [] [attr] [] r₁ r₂ r₃ []] r₄ r₅ r₆ []] },
           []) →
      attr.Expr.Value = (hcl.Value.object keys, []) → keys.contains "version" = false →
      TerraformAnalyzer.collect parseConfig ord [file]
        = { Passed := true,
            Errors := [{ File := fileName,
                         Message := "Provider " ++ attr.Name ++ " missing version constraint in "
                           ++ fileName ++ ": ",
                         Line := attr.Range.Line, Column := attr.Range.Column }] }) ∧
    (entryHasVersion attr = false →
      ∃ d ∈ providerEntryDiags fileName attr,
        d.Severity = hcl.DiagnosticSeverity.DiagWarning ∧ d.Subject = attr.Range ∧
        (d.Summary = "Provider " ++ attr.Name ++ " missing version constraint in " ++ fileName
          ∨ d.Summary = "Provider " ++ attr.Name ++ " has non-object requirement in "
            ++ fileName)) ∧
    (entryHasVersion attr = true →
      providerEntryDiags fileName attr = attr.Expr.Value.2) ∧
    (∀ (n : Nat) (body : hcl.Body) (tfBlock rpBlock : hcl.Block),
      tfBlock ∈ body.Blocks → tfBlock.Type_ = "terraform" → tfBlock.Labels = [] →
      rpBlock ∈ tfBlock.Body.Blocks → rpBlock.Type_ = "required_providers" →
      rpBlock.Labels = [] → attr ∈ rpBlock.Body.Attributes →
      ∀ d ∈ providerEntryDiags fileName attr,
        d ∈ (TerraformAnalyzer.analyzeFile ord n body fileName).1) ∧
    (∀ (pre post : List ConfigFile) (file : ConfigFile) (tfBlock rpBlock : hcl.Block),
      isAnalyzed file = true → file.Name = fileName →
      hcl.HasErrors (parseConfig file.Content file.Name).2 = false →
      (∀ g ∈ pre, isAnalyzed g = true → g.Name ≠ file.Name) →
      tfBlock ∈ (parseConfig file.Content file.Name).1.Blocks →
      tfBlock.Type_ = "terraform" → tfBlock.Labels = [] →
      rpBlock ∈ tfBlock.Body.Blocks → rpBlock.Type_ = "required_providers" →
      rpBlock.Labels = [] → attr ∈ rpBlock.Body.Attributes →
      ∀ d ∈ providerEntryDiags fileName attr,
        toValidationError fileName d
          ∈ (TerraformAnalyzer.collect parseConfig ord (pre ++ file :: post)).Errors) := by
  refine ⟨?_, ?_, ?_, ?_, ?_⟩
  · intro file keys r₁ r₂ r₃ r₄ r₅ r₆ ha hname hparse hval hkeys
    subst hname
    have hskip : (file.Type_ != "terraform" || !stringsHasSuffix file.Name ".tf") = false := by
      rw [isAnalyzed_eq, ha]; rfl
    have hperm : ∀ k, ord.order k [attr] = [attr] :=
      fun k => List.perm_singleton.mp (ord.perm k [attr])
    have hk : "version" ∉ keys := by simpa using hkeys
    simp [TerraformAnalyzer.collect, TerraformAnalyzer.analyzeFiles, analyzeStart, analyzeStep,
      hskip, hcl.ParseHCL, hparse, HasErrors_nil, TerraformAnalyzer.analyzeFile,
      TerraformAnalyzer.analyzeTerraformBlocks, TerraformAnalyzer.analyzeResourceBlocks,
      hcl.Body.PartialContent, hcl.partialBlock, fileSchema, tfSchema, hcl.OfType,
      hcl.Block.Type_, hcl.Block.Labels, hcl.Block.Body, terraformBlocksLoop,
      terraformBlockDiags, requiredProvidersLoop, requiredProvidersDiags,
      hcl.Body.JustAttributes, resourceBlocksLoop, hperm, providerEntryDiags, hval, hk,
      missingVersionDiag, toValidationError, hcl.HasErrors, List.find?]
  · intro h
    unfold entryHasVersion at h
    unfold providerEntryDiags
    cases hv : attr.Expr.Value.1 with
    | object keys =>
      rw [hv] at h
      have hk : "version" ∉ keys := by simpa using h
      exact ⟨missingVersionDiag fileName attr, by simp [hk],
        rfl, rfl, Or.inl rfl⟩
    | other =>
      exact ⟨nonObjectDiag fileName attr, by simp, rfl, rfl, Or.inr rfl⟩
  · intro h
    unfold entryHasVersion at h
    unfold providerEntryDiags
    cases hv : attr.Expr.Value.1 with
    | object keys =>
      rw [hv] at h
      have hk : "version" ∈ keys := by simpa using h
      simp [hk]
    | other =>
      rw [hv] at h
      simp at h
  · intro n body tfBlock rpBlock htf htt htl hrp hrt hrl ha d hd
    exact provider_entry_mem_analyzeFile ord n body fileName tfBlock rpBlock attr d htf htt htl
      hrp hrt hrl ha hd
  · intro pre post file tfBlock rpBlock ha hname hok hpre htf htt htl hrp hrt hrl hattr d hd
    subst hname
    exact diag_mem_collect parseConfig ord pre post file d ha hok hpre
      (fun n => provider_entry_mem_analyzeFile ord n _ file.Name tfBlock rpBlock attr d htf htt
        htl hrp hrt hrl hattr hd)

/-! ## C14: resources without lifecycle block or tags attribute -/

theorem lifecycle_blocks_accepted (blocks : List hcl.Block) :
    hcl.OfType ((blocks.map (hcl.partialBlock resSchema)).flatMap (fun r => r.1)) "lifecycle"
      = blocks.filter (fun b => b.Type_ == "lifecycle" && b.Labels.length == 0) := by
  induction blocks with
  | nil => rfl
  | cons b rest ih =>
    simp only [List.map_cons, List.flatMap_cons, hcl.OfType, List.filter_append] at ih ⊢
    rw [ih]
    by_cases ht : b.Type_ = "lifecycle"
    · by_cases hl : b.Labels.length = 0
      · simp [hcl.partialBlock, resSchema, ht, hl, List.find?, List.filter]
      · have hpos : 0 < b.Labels.length := Nat.pos_of_ne_zero hl
        have hl' : (b.Labels.length == 0) = false := by simpa using hl
        simp [hcl.partialBlock, resSchema, ht, hl, hl', hpos, List.find?, List.filter]
    · have ht' : ("lifecycle" == b.Type_) = false := by
        simpa [beq_eq_false_iff_ne] using fun h => ht h.symm
      have ht'' : (b.Type_ == "lifecycle") = false := by
        simpa [beq_eq_false_iff_ne] using ht
      simp [hcl.partialBlock, resSchema, ht, ht', ht'', List.find?, List.filter]

theorem tags_attribute_found (body : hcl.Body) :
    (body.PartialContent resSchema).1.Attributes.any (fun a => a.Name == "tags")
      = body.Attributes.any (fun a => a.Name == "tags") := by
  simp only [hcl.Body.PartialContent, resSchema, List.filterMap_cons, List.filterMap_nil]
  cases hf : body.Attributes.find? (fun a => a.Name == "tags") with
  | none =>
    simp only [List.any_nil]
    rw [List.find?_eq_none] at hf
    symm
    rw [List.any_eq_false]
    intro a ha
    simpa using hf a ha
  | some a =>
    have h1 := List.find?_some hf
    have h2 := List.mem_of_find?_eq_some hf
    simp only [List.any_cons, List.any_nil, Bool.or_false, h1]
    symm
    rw [List.any_eq_true]
    exact ⟨a, h2, h1⟩

theorem lifecycleTagsDiags_eq (fileName : String) (block : hcl.Block) :
    lifecycleTagsDiags fileName block
      = (if hasLifecycleBlock block then []
          else [missingLifecycleDiag fileName (block.Labels.getD 0 "")
            (block.Labels.getD 1 "") block])
        ++ (if hasTagsAttribute block then []
          else [missingTagsDiag fileName (block.Labels.getD 0 "")
            (block.Labels.getD 1 "") block]) := by
  unfold lifecycleTagsDiags hasLifecycleBlock hasTagsAttribute
  rw [tags_attribute_found]
  congr 1
  simp only [hcl.Body.PartialContent, lifecycle_blocks_accepted]
  by_cases h : block.Body.Blocks.any (fun b => b.Type_ == "lifecycle" && b.Labels.length == 0)
      = true
  · rw [h]
    have : (block.Body.Blocks.filter
        (fun b => b.Type_ == "lifecycle" && b.Labels.length == 0)).length ≠ 0 := by
      rw [List.any_eq_true] at h
      obtain ⟨b, hb, hp⟩ := h
      intro hz
      have hnil := List.length_eq_zero.mp hz
      have : b ∈ block.Body.Blocks.filter
          (fun b => b.Type_ == "lifecycle" && b.Labels.length == 0) :=
        List.mem_filter.mpr ⟨hb, hp⟩
      rw [hnil] at this
      simp at this
    simp [this]
  · have hf : block.Body.Blocks.any
        (fun b => b.Type_ == "lifecycle" && b.Labels.length == 0) = false := by
      simpa using h
    rw [hf]
    have : (block.Body.Blocks.filter
        (fun b => b.Type_ == "lifecycle" && b.Labels.length == 0)).length = 0 := by
      rw [List.length_eq_zero, List.filter_eq_nil_iff]
      rw [List.any_eq_false] at hf
      exact hf
    simp [this]

/-- C14: for every resource block (two labels, type and name) the two checks of
`analyzeResourceBlocks` emit, in this order, the advisory `Resource <type>.<name> missing
lifecycle block in <file>` exactly when the resource has no lifecycle sub-block and the
advisory `Resource <type>.<name> missing tags attribute in <file>` exactly when it has no tags
attribute: both when it lacks both, neither when it has both; and for every resource block of
a parsed file these diagnostics are among the diagnostics of the file and, converted, among
the errors of the result. -/
theorem resource_lifecycle_tags (parseConfig : hcl.ParseConfig) (ord : MapOrder)
    (fileName : String) (block : hcl.Block) (resType resName : String)
    (hlabels : block.Labels = [resType, resName]) :
    lifecycleTagsDiags fileName block
      = (if hasLifecycleBlock block then []
          else [{ Severity := hcl.DiagnosticSeverity.DiagWarning,
                  Summary := "Resource " ++ resType ++ "." ++ resName
                    ++ " missing lifecycle block in " ++ fileName,
                  Detail := "", Subject := block.DefRange }])
        ++ (if hasTagsAttribute block then []
          else [{ Severity := hcl.DiagnosticSeverity.DiagWarning,
                  Summary := "Resource " ++ resType ++ "." ++ resName
                    ++ " missing tags attribute in " ++ fileName,
                  Detail := "", Subject := block.DefRange }]) ∧
    (∀ (n : Nat) (body : hcl.Body), block ∈ body.Blocks → block.Type_ = "resource" →
      ∀ d ∈ lifecycleTagsDiags fileName block,
        d ∈ (TerraformAnalyzer.analyzeFile ord n body fileName).1) ∧
    (∀ (pre post : List ConfigFile) (file : ConfigFile),
      isAnalyzed file = true → file.Name = fileName →
      hcl.HasErrors (parseConfig file.Content file.Name).2 = false →
      (∀ g ∈ pre, isAnalyzed g = true → g.Name ≠ file.Name) →
      block ∈ (parseConfig file.Content file.Name).1.Blocks → block.Type_ = "resource" →
      ∀ d ∈ lifecycleTagsDiags fileName block,
        toValidationError fileName d
          ∈ (TerraformAnalyzer.collect parseConfig ord (pre ++ file :: post)).Errors) := by
  have hlen : block.Labels.length = 2 := by rw [hlabels]; rfl
  have hmem : ∀ (n : Nat) (body : hcl.Body), block ∈ body.Blocks → block.Type_ = "resource" →
      ∀ d ∈ lifecycleTagsDiags fileName block,
        d ∈ (TerraformAnalyzer.analyzeFile ord n body fileName).1 := by
    intro n body hb ht d hd
    refine resource_diag_mem_analyzeFile ord n body fileName block d hb ht hlen ?_
    intro k
    simp only [resourceBlockDiags, List.mem_append]
    left; left; right
    exact hd
  refine ⟨?_, hmem, ?_⟩
  · rw [lifecycleTagsDiags_eq]
    simp [hlabels, missingLifecycleDiag, missingTagsDiag]
  · intro pre post file ha hname hok hpre hb ht d hd
    subst hname
    exact diag_mem_collect parseConfig ord pre post file d ha hok hpre
      (fun n => hmem n _ hb ht d hd)

/-! ## Lemmas on the lower-casing of names -/

theorem Char.toNat_ofNat_or (m : Nat) : (Char.ofNat m).toNat = m ∨ (Char.ofNat m).toNat = 0 := by
  unfold Char.ofNat
  split
  · left; rfl
  · right; rfl

theorem Char.eq_of_toNat_eq (c d : Char) (h : c.toNat = d.toNat) : c = d := by
  apply Char.ext
  apply UInt32.ext
  exact h

set_option maxRecDepth 100000 in
theorem lowerCaseRanges_target :
    ∀ r ∈ lowerCaseRanges, r = (0x130, 0x130, 1, -199) ∨ r = (0x212A, 0x212A, 1, -8383)
      ∨ (128 : Int) ≤ (r.1 : Int) + r.2.2.2 := by
  decide

set_option maxRecDepth 100000 in
theorem unicodeToLower_kelvin : unicodeToLower (Char.ofNat 0x212A) = 'k' := by decide

set_option maxRecDepth 100000 in
theorem unicodeToLower_dotted : unicodeToLower (Char.ofNat 0x130) = 'i' := by decide

/-- The lower case of a character is a given lower-case ASCII letter (or ASCII character
without case) exactly when the character is that letter up to case. -/
theorem unicodeToLower_eq_iff (c k : Char) (hk : isFoldedAscii k = true) :
    (unicodeToLower c == k) = sameIgnoringCase c k := by
  simp only [isFoldedAscii, Bool.and_eq_true, decide_eq_true_eq, Bool.not_eq_true',
    Bool.and_eq_false_imp, decide_eq_false_iff_not] at hk
  obtain ⟨⟨hk0, hk1⟩, hk2⟩ := hk
  rw [Bool.eq_iff_iff]
  simp only [beq_iff_eq, sameIgnoringCase, Bool.or_eq_true, Bool.and_eq_true,
    decide_eq_true_eq]
  by_cases hlt : c.toNat < 128
  · by_cases hup : 65 ≤ c.toNat ∧ c.toNat ≤ 90
    · have hl : unicodeToLower c = Char.ofNat (c.toNat + 32) := by
        simp [unicodeToLower, hlt, hup]
      have hv : (Char.ofNat (c.toNat + 32)).toNat = c.toNat + 32 := by
        rcases Char.toNat_ofNat_or (c.toNat + 32) with h | h
        · exact h
        · exfalso
          have hval : (c.toNat + 32).isValidChar := by
            left; omega
          unfold Char.ofNat at h
          simp only [hval, dif_pos] at h
          have : (c.toNat + 32) = 0 := by
            simp [Char.toNat, Char.ofNatAux, UInt32.toNat] at h
          omega
      constructor
      · intro h
        left; left; right
        refine ⟨hup, ?_⟩
        rw [← h, hl, hv]
      · rintro (((h | ⟨_, h⟩) | ⟨_, h⟩) | ⟨_, h⟩)
        · subst h; exact absurd hup.2 (hk2 hup.1)
        · rw [hl]; exact Char.eq_of_toNat_eq _ _ (by rw [hv, h])
        · omega
        · omega
    · have hl : unicodeToLower c = c := by
        simp only [unicodeToLower, hlt, if_true, hup, if_false]
      rw [hl]
      constructor
      · intro h; left; left; left; exact h
      · rintro (((h | ⟨h1, _⟩) | ⟨_, h⟩) | ⟨_, h⟩)
        · exact h
        · exact absurd h1 hup
        · omega
        · omega
  · by_cases hK : c.toNat = 0x212A
    · have hc : c = Char.ofNat 0x212A := Char.eq_of_toNat_eq _ _ (by rw [hK]; rfl)
      have hl : unicodeToLower c = 'k' := by rw [hc]; exact unicodeToLower_kelvin
      rw [hl]
      constructor
      · intro h; left; right; exact ⟨h.symm, hK⟩
      · rintro (((h | ⟨h1, _⟩) | ⟨h, _⟩) | ⟨_, h⟩)
        · rw [h] at hK; omega
        · omega
        · exact h.symm
        · omega
    · by_cases hI : c.toNat = 0x130
      · have hc : c = Char.ofNat 0x130 := Char.eq_of_toNat_eq _ _ (by rw [hI]; rfl)
        have hl : unicodeToLower c = 'i' := by rw [hc]; exact unicodeToLower_dotted
        rw [hl]
        constructor
        · intro h; right; exact ⟨h.symm, hI⟩
        · rintro (((h | ⟨h1, _⟩) | ⟨_, h⟩) | ⟨h, _⟩)
          · rw [h] at hI; omega
          · omega
          · omega
          · exact h.symm
      · constructor
        · intro h
          exfalso
          unfold unicodeToLower at h
          simp only [hlt, if_false] at h
          rcases hf : lowerCaseRanges.find?
              (fun r => r.1 ≤ c.toNat && c.toNat ≤ r.2.1 && (c.toNat - r.1) % r.2.2.1 == 0)
            with _ | r
          · rw [hf] at h
            simp only at h
            rw [h] at hlt
            exact hlt hk1
          · rw [hf] at h
            simp only at h
            have hp := List.find?_some hf
            have hm := List.mem_of_find?_eq_some hf
            simp only [Bool.and_eq_true, decide_eq_true_eq, beq_iff_eq] at hp
            obtain ⟨⟨hlo, hhi⟩, _⟩ := hp
            rcases lowerCaseRanges_target r hm with hr | hr | hr
            · rw [hr] at hlo hhi
              simp only at hlo hhi
              omega
            · rw [hr] at hlo hhi
              simp only at hlo hhi
              omega
            · have hm2 : 128 ≤ Int.toNat ((c.toNat : Int) + r.2.2.2) := by omega
              rcases Char.toNat_ofNat_or (Int.toNat ((c.toNat : Int) + r.2.2.2)) with h2 | h2
              · rw [h] at h2; omega
              · rw [h] at h2; omega
        · rintro (((h | ⟨h1, _⟩) | ⟨_, h⟩) | ⟨_, h⟩)
          · rw [h] at hlt; exact absurd hk1 hlt
          · omega
          · exact absurd h hK
          · exact absurd h hI

theorem isPrefixOf_map_toLower (kw : List Char) (hkw : ∀ k ∈ kw, isFoldedAscii k = true) :
    ∀ t : List Char, kw.isPrefixOf (t.map unicodeToLower) = prefixIgnoringCase kw t := by
  induction kw with
  | nil => intro t; simp [List.isPrefixOf, prefixIgnoringCase]
  | cons k ks ih =>
    intro t
    cases t with
    | nil => simp [List.isPrefixOf, prefixIgnoringCase]
    | cons c cs =>
      simp only [List.map_cons, List.isPrefixOf, prefixIgnoringCase]
      rw [ih (fun x hx => hkw x (by simp [hx])) cs,
        ← unicodeToLower_eq_iff c k (hkw k (by simp))]
      congr 1
      rw [Bool.eq_iff_iff]
      simp only [beq_iff_eq]
      exact eq_comm

theorem tails_map {α β : Type} (f : α → β) (l : List α) :
    (l.map f).tails = l.tails.map (List.map f) := by
  induction l with
  | nil => rfl
  | cons x xs ih => simp [List.tails, ih]

/-- The comparison of the code (the keyword occurs in the lower-cased name) is the comparison
up to case. -/
theorem stringsContains_toLower (name kw : String)
    (hkw : ∀ k ∈ kw.toList, isFoldedAscii k = true) :
    stringsContains (stringsToLower name) kw = containsIgnoringCase name kw := by
  unfold stringsContains stringsToLower containsIgnoringCase
  show ((name.toList.map unicodeToLower).tails.any fun t => kw.toList.isPrefixOf t) = _
  rw [tails_map, List.any_map]
  congr 1
  funext t
  exact isPrefixOf_map_toLower kw.toList hkw t

theorem SensitiveKeywords_folded :
    ∀ kw ∈ SensitiveKeywords, ∀ k ∈ kw.toList, isFoldedAscii k = true := by
  decide

/-- A keyword occurs in the lower-cased name exactly when it occurs in the name up to case. -/
theorem keyword_contains_iff (name kw : String) (hkw : kw ∈ SensitiveKeywords) :
    stringsContains (stringsToLower name) kw = containsIgnoringCase name kw :=
  stringsContains_toLower name kw (SensitiveKeywords_folded kw hkw)

theorem keyword_filter_eq (name : String) :
    SensitiveKeywords.filter (fun kw => stringsContains (stringsToLower name) kw)
      = SensitiveKeywords.filter (containsIgnoringCase name) := by
  apply List.filter_congr
  intro kw hkw
  exact keyword_contains_iff name kw hkw

/-! ## C15: sensitive attributes with a literal value -/

/-- C15: for an attribute of a resource whose name, compared case-insensitively, contains one
of the sensitive keywords (the keyword occurs in the name up to the case of its letters, which
is what the lower-casing of the code decides): when its value evaluates without error in the
nil context (a literal) the analyzer emits the advisory `Potential hardcoded sensitive value
in attribute <attr> of resource <type>.<name> in <file>`, and nothing else for the attribute;
when the evaluation fails (a reference expression) it emits nothing for the attribute, and so
it does for a name that contains no keyword. For every resource block of a parsed file the
diagnostics of each of its attributes are among the diagnostics of the file and, converted,
among the errors of the result. -/
theorem sensitive_attribute_flagged (parseConfig : hcl.ParseConfig) (ord : MapOrder)
    (fileName resType resName : String) (attr : hcl.Attribute) :
    (isSensitiveName attr.Name = true → hcl.HasErrors attr.Expr.Value.2 = false →
      sensitiveDiag fileName resType resName attr
          ∈ sensitiveAttrDiags fileName resType resName attr ∧
        ∀ d ∈ sensitiveAttrDiags fileName resType resName attr,
          d = { Severity := hcl.DiagnosticSeverity.DiagWarning,
                Summary := "Potential hardcoded sensitive value in attribute " ++ attr.Name
                  ++ " of resource " ++ resType ++ "." ++ resName ++ " in " ++ fileName,
                Detail := "", Subject := attr.Range }) ∧
    (hcl.HasErrors attr.Expr.Value.2 = true →
      sensitiveAttrDiags fileName resType resName attr = []) ∧
    (∀ (n : Nat) (body : hcl.Body) (block : hcl.Block),
      block ∈ body.Blocks → block.Type_ = "resource" → block.Labels = [resType, resName] →
      attr ∈ block.Body.Attributes →
      ∀ d ∈ sensitiveAttrDiags fileName resType resName attr,
        d ∈ (TerraformAnalyzer.analyzeFile ord n body fileName).1) ∧
    (∀ (pre post : List ConfigFile) (file : ConfigFile) (block : hcl.Block),
      isAnalyzed file = true → file.Name = fileName →
      hcl.HasErrors (parseConfig file.Content file.Name).2 = false →
      (∀ g ∈ pre, isAnalyzed g = true → g.Name ≠ file.Name) →
      block ∈ (parseConfig file.Content file.Name).1.Blocks → block.Type_ = "resource" →
      block.Labels = [resType, resName] → attr ∈ block.Body.Attributes →
      ∀ d ∈ sensitiveAttrDiags fileName resType resName attr,
        toValidationError fileName d
          ∈ (TerraformAnalyzer.collect parseConfig ord (pre ++ file :: post)).Errors) ∧
    (isSensitiveName attr.Name = false →
      sensitiveAttrDiags fileName resType resName attr = []) := by
  have hmem : ∀ (n : Nat) (body : hcl.Body) (block : hcl.Block),
      block ∈ body.Blocks → block.Type_ = "resource" → block.Labels = [resType, resName] →
      attr ∈ block.Body.Attributes →
      ∀ d ∈ sensitiveAttrDiags fileName resType resName attr,
        d ∈ (TerraformAnalyzer.analyzeFile ord n body fileName).1 := by
    intro n body block hb ht hl ha d hd
    have hlen : block.Labels.length = 2 := by rw [hl]; rfl
    refine resource_diag_mem_analyzeFile ord n body fileName block d hb ht hlen ?_
    intro k
    simp only [resourceBlockDiags, List.mem_append, List.mem_flatMap]
    right
    refine ⟨attr, (ord.perm k _).mem_iff.mpr ha, ?_⟩
    simpa [hl] using hd
  refine ⟨?_, ?_, hmem, ?_, ?_⟩
  · intro hs hok
    unfold isSensitiveName at hs
    rw [List.any_eq_true] at hs
    obtain ⟨kw, hkw, hc0⟩ := hs
    have hc : stringsContains (stringsToLower attr.Name) kw = true := by
      rw [keyword_contains_iff attr.Name kw hkw]; exact hc0
    constructor
    · simp only [sensitiveAttrDiags, List.mem_flatMap]
      exact ⟨kw, hkw, by simp [hc, hok]⟩
    · intro d hd
      simp only [sensitiveAttrDiags, List.mem_flatMap] at hd
      obtain ⟨kw', _, hd'⟩ := hd
      split at hd'
      · simp [hok] at hd'
        rw [hd']; rfl
      · simp at hd'
  · intro herr
    simp [sensitiveAttrDiags, herr]
  · intro pre post file block ha hname hok hpre hb ht hl hattr d hd
    subst hname
    exact diag_mem_collect parseConfig ord pre post file d ha hok hpre
      (fun n => hmem n _ block hb ht hl hattr d hd)
  · intro hs
    apply List.eq_nil_iff_forall_not_mem.mpr
    intro d hd
    simp only [sensitiveAttrDiags, List.mem_flatMap] at hd
    obtain ⟨kw, hkw, hd'⟩ := hd
    have hno : stringsContains (stringsToLower attr.Name) kw = false := by
      rw [keyword_contains_iff attr.Name kw hkw]
      unfold isSensitiveName at hs
      cases hc : containsIgnoringCase attr.Name kw
      · rfl
      · have : SensitiveKeywords.any (containsIgnoringCase attr.Name) = true :=
          List.any_eq_true.mpr ⟨kw, hkw, hc⟩
        rw [hs] at this
        exact absurd this (by decide)
    simp [hno] at hd'

set_option maxRecDepth 100000 in
/-- C15, scenario C: `db_password = "hunter2"` is flagged in the result of `Analyze`, and for
`db_password = var.db_password` the result holds only the two advisories on the resource.
The comparison ignores case: the literals `DB_Password` and `token` spelled with the Kelvin
sign are flagged as well; the literal `username` is not, nor is `password` spelled with the
long s, a lower-case letter of its own. -/
theorem sensitive_attribute_flagged_witness :
    ({ File := "s.tf",
       Message := "Potential hardcoded sensitive value in attribute db_password of resource aws_db_instance.db in s.tf: ",
       Line := 2, Column := 3 } : ValidationConfigError)
      ∈ (TerraformAnalyzer.collect exampleParseConfig sourceOrder
          [tfFile "s.tf" secretLiteralText]).Errors ∧
    sensitiveAttrDiags "s.tf" "aws_db_instance" "db"
        { Name := "db_password", Expr := hcl.Expression.reference ⟨2, 17⟩, Range := ⟨2, 3⟩ }
      = [] ∧
    (TerraformAnalyzer.collect exampleParseConfig sourceOrder
        [tfFile "s.tf" secretReferenceText]).Errors
      = [{ File := "s.tf",
           Message := "Resource aws_db_instance.db missing lifecycle block in s.tf: ",
           Line := 1, Column := 1 },
         { File := "s.tf",
           Message := "Resource aws_db_instance.db missing tags attribute in s.tf: ",
           Line := 1, Column := 1 }] ∧
    (isSensitiveName "DB_Password" = true ∧
      sensitiveDiag "s.tf" "aws_db_instance" "db"
          { Name := "DB_Password", Expr := hcl.Expression.literal, Range := ⟨2, 3⟩ }
        ∈ sensitiveAttrDiags "s.tf" "aws_db_instance" "db"
          { Name := "DB_Password", Expr := hcl.Expression.literal, Range := ⟨2, 3⟩ }) ∧
    (isSensitiveName "to\u212Aen" = true ∧
      sensitiveDiag "s.tf" "aws_db_instance" "db"
          { Name := "to\u212Aen", Expr := hcl.Expression.literal, Range := ⟨2, 3⟩ }
        ∈ sensitiveAttrDiags "s.tf" "aws_db_instance" "db"
          { Name := "to\u212Aen", Expr := hcl.Expression.literal, Range := ⟨2, 3⟩ }) ∧
    (isSensitiveName "username" = false ∧
      sensitiveAttrDiags "s.tf" "aws_db_instance" "db"
          { Name := "username", Expr := hcl.Expression.literal, Range := ⟨2, 3⟩ } = []) ∧
    (isSensitiveName "pa\u017F\u017Fword" = false ∧
      sensitiveAttrDiags "s.tf" "aws_db_instance" "db"
          { Name := "pa\u017F\u017Fword", Expr := hcl.Expression.literal, Range := ⟨2, 3⟩ }
        = []) ∧
    (TerraformAnalyzer.collect furtherParseConfig sourceOrder
        [tfFile "s.tf" secretUpperText]).Errors.map ValidationConfigError.Message
      = ["Resource aws_db_instance.db missing lifecycle block in s.tf: ",
         "Resource aws_db_instance.db missing tags attribute in s.tf: ",
         "Potential hardcoded sensitive value in attribute DB_Password of resource aws_db_instance.db in s.tf: "] ∧
    (TerraformAnalyzer.collect furtherParseConfig sourceOrder
        [tfFile "s.tf" secretKelvinText]).Errors.map ValidationConfigError.Message
      = ["Resource aws_db_instance.db missing lifecycle block in s.tf: ",
         "Resource aws_db_instance.db missing tags attribute in s.tf: ",
         "Potential hardcoded sensitive value in attribute to\u212Aen of resource aws_db_instance.db in s.tf: "] :=
  ⟨(sensitive_attribute_flagged exampleParseConfig sourceOrder "s.tf" "aws_db_instance" "db"
      { Name := "db_password", Expr := hcl.Expression.literal, Range := ⟨2, 3⟩ }).2.2.2.1
      [] [] (tfFile "s.tf" secretLiteralText)
      (hcl.Block.mk "resource" ["aws_db_instance", "db"]
        [{ Name := "db_password", Expr := hcl.Expression.literal, Range := ⟨2, 3⟩ }] []
        ⟨1, 1⟩ ⟨1, 1⟩ ⟨1, 18⟩ [⟨1, 10⟩, ⟨1, 14⟩])
      (by decide) rfl (by decide) (by decide) (List.mem_singleton.mpr rfl) rfl rfl
      (List.mem_singleton.mpr rfl) _
      ((sensitive_attribute_flagged exampleParseConfig sourceOrder "s.tf" "aws_db_instance"
        "db" { Name := "db_password", Expr := hcl.Expression.literal, Range := ⟨2, 3⟩ }).1
        (by decide) (by decide)).1,
   (sensitive_attribute_flagged exampleParseConfig sourceOrder "s.tf" "aws_db_instance" "db"
      { Name := "db_password", Expr := hcl.Expression.reference ⟨2, 17⟩, Range := ⟨2, 3⟩ }).2.1
      (by decide),
   by decide,
   ⟨by decide,
    ((sensitive_attribute_flagged exampleParseConfig sourceOrder "s.tf" "aws_db_instance" "db"
      { Name := "DB_Password", Expr := hcl.Expression.literal, Range := ⟨2, 3⟩ }).1
      (by decide) (by decide)).1⟩,
   ⟨by decide,
    ((sensitive_attribute_flagged exampleParseConfig sourceOrder "s.tf" "aws_db_instance" "db"
      { Name := "to\u212Aen", Expr := hcl.Expression.literal, Range := ⟨2, 3⟩ }).1
      (by decide) (by decide)).1⟩,
   ⟨by decide,
    (sensitive_attribute_flagged exampleParseConfig sourceOrder "s.tf" "aws_db_instance" "db"
      { Name := "username", Expr := hcl.Expression.literal, Range := ⟨2, 3⟩ }).2.2.2.2
      (by decide)⟩,
   ⟨by decide,
    (sensitive_attribute_flagged exampleParseConfig sourceOrder "s.tf" "aws_db_instance" "db"
      { Name := "pa\u017F\u017Fword", Expr := hcl.Expression.literal, Range := ⟨2, 3⟩ }).2.2.2.2
      (by decide)⟩,
   by decide,
   by decide⟩


/-! ## Concrete instances for C11, C13, C14 and C16 -/

/-- C11, at concrete lists: the two advisories of `main.tf` leave `Passed` true; the parser's
hard error on `broken.tf` makes it false. -/
theorem Analyze_passed_iff_no_error_witness :
    (TerraformAnalyzer.collect exampleParseConfig sourceOrder [mainTf]).Passed = true ∧
    (TerraformAnalyzer.collect exampleParseConfig sourceOrder [mainTf]).Errors.length = 2 ∧
    (TerraformAnalyzer.collect exampleParseConfig sourceOrder
        [tfFile "broken.tf" unterminatedText]).Passed = false :=
  ⟨(Analyze_passed_iff_no_error exampleParseConfig sourceOrder [mainTf]).2.2.1 (by decide),
   by decide,
   (Analyze_passed_iff_no_error exampleParseConfig sourceOrder
      [tfFile "broken.tf" unterminatedText]).2.1.mpr
      ⟨("broken.tf",
        { Severity := hcl.DiagnosticSeverity.DiagError,
          Summary := "Unclosed configuration block",
          Detail := "There is no closing brace for this block before the end of the file. This may be caused by incorrect brace nesting elsewhere in this file.",
          Subject := ⟨1, 18⟩ }), by decide, rfl⟩⟩

/-- C13, scenario A: for `providers.tf`, whose only content is a terraform block requiring
the provider `aws` without version, the result holds exactly the advisory naming `aws`, and
`Passed` is true. -/
theorem required_providers_version_witness :
    TerraformAnalyzer.collect exampleParseConfig sourceOrder
        [tfFile "providers.tf" providersText]
      = { Passed := true,
          Errors := [{ File := "providers.tf",
                       Message := "Provider aws missing version constraint in providers.tf: ",
                       Line := 3, Column := 5 }] } :=
  (required_providers_version exampleParseConfig sourceOrder "providers.tf"
    { Name := "aws", Expr := hcl.Expression.objectCons ["source"], Range := ⟨3, 5⟩ }).1
    (tfFile "providers.tf" providersText) ["source"] ⟨2, 3⟩ ⟨2, 3⟩ ⟨2, 22⟩ ⟨1, 1⟩ ⟨1, 1⟩
    ⟨1, 11⟩ (by decide) rfl rfl rfl (by decide)

/-- C14, at a concrete resource: `resource "a" "b"` with an empty body lacks both, so both
advisories are emitted, naming `a.b`; with a lifecycle block and a tags attribute neither
is. -/
theorem resource_lifecycle_tags_witness :
    lifecycleTagsDiags "main.tf"
        (hcl.Block.mk "resource" ["a", "b"] [] [] ⟨1, 1⟩ ⟨1, 1⟩ ⟨1, 18⟩ [⟨1, 10⟩, ⟨1, 14⟩])
      = [{ Severity := hcl.DiagnosticSeverity.DiagWarning,
           Summary := "Resource a.b missing lifecycle block in main.tf",
           Detail := "", Subject := ⟨1, 1⟩ },
         { Severity := hcl.DiagnosticSeverity.DiagWarning,
           Summary := "Resource a.b missing tags attribute in main.tf",
           Detail := "", Subject := ⟨1, 1⟩ }] ∧
    lifecycleTagsDiags "main.tf"
        (hcl.Block.mk "resource" ["a", "b"]
          [{ Name := "tags", Expr := hcl.Expression.objectCons [], Range := ⟨2, 3⟩ }]
          [hcl.Block.mk "lifecycle" [] [] [] ⟨3, 3⟩ ⟨3, 3⟩ ⟨3, 13⟩ []]
          ⟨1, 1⟩ ⟨1, 1⟩ ⟨1, 18⟩ [⟨1, 10⟩, ⟨1, 14⟩])
      = [] :=
  ⟨(resource_lifecycle_tags exampleParseConfig sourceOrder "main.tf"
      (hcl.Block.mk "resource" ["a", "b"] [] [] ⟨1, 1⟩ ⟨1, 1⟩ ⟨1, 18⟩ [⟨1, 10⟩, ⟨1, 14⟩])
      "a" "b" rfl).1.trans (by decide),
   (resource_lifecycle_tags exampleParseConfig sourceOrder "main.tf"
      (hcl.Block.mk "resource" ["a", "b"]
        [{ Name := "tags", Expr := hcl.Expression.objectCons [], Range := ⟨2, 3⟩ }]
        [hcl.Block.mk "lifecycle" [] [] [] ⟨3, 3⟩ ⟨3, 3⟩ ⟨3, 13⟩ []]
        ⟨1, 1⟩ ⟨1, 1⟩ ⟨1, 18⟩ [⟨1, 10⟩, ⟨1, 14⟩])
      "a" "b" rfl).1.trans (by decide)⟩

/-- C16, at a concrete list: a Kubernetes manifest next to `main.tf`, and a file declared
terraform whose name does not end in `.tf`, do not change the result. -/
theorem Analyze_skips_other_files_witness :
    TerraformAnalyzer.collect exampleParseConfig sourceOrder
        [{ JobID := "", Name := "deploy.yaml", Content := unterminatedText,
           Type_ := "kubernetes", HasError := false, ErrorMsg := none }, mainTf]
      = TerraformAnalyzer.collect exampleParseConfig sourceOrder [mainTf] ∧
    TerraformAnalyzer.collect exampleParseConfig sourceOrder
        [mainTf, { JobID := "", Name := "notes.txt", Content := unterminatedText,
                   Type_ := "terraform", HasError := false, ErrorMsg := none }]
      = TerraformAnalyzer.collect exampleParseConfig sourceOrder [mainTf] :=
  ⟨(Analyze_skips_other_files exampleParseConfig sourceOrder [] [mainTf]
      { JobID := "", Name := "deploy.yaml", Content := unterminatedText,
        Type_ := "kubernetes", HasError := false, ErrorMsg := none }
      (Or.inl (by decide))).2.1,
   (Analyze_skips_other_files exampleParseConfig sourceOrder [mainTf] []
      { JobID := "", Name := "notes.txt", Content := unterminatedText,
        Type_ := "terraform", HasError := false, ErrorMsg := none }
      (Or.inr (by decide))).2.1⟩

/-! ## Lemmas on the file system -/

theorem lookup_setKey_self {β : Type} (key : String) (v : β) (l : List (String × β)) :
    (setKey key v l).lookup key = some v := by
  induction l with
  | nil => simp [setKey, List.lookup]
  | cons p rest ih =>
    obtain ⟨k, x⟩ := p
    by_cases h : k = key
    · simp [setKey, h, List.lookup]
    · have hne : (key == k) = false := by
        simpa [beq_eq_false_iff_ne] using fun heq => h heq.symm
      simp [setKey, h, List.lookup, hne, ih]

theorem lookup_setKey_other {β : Type} (key other : String) (v : β) (l : List (String × β))
    (h : other ≠ key) : (setKey key v l).lookup other = l.lookup other := by
  induction l with
  | nil =>
    have hne : (other == key) = false := by simpa [beq_eq_false_iff_ne] using h
    simp [setKey, List.lookup, hne]
  | cons p rest ih =>
    obtain ⟨k, x⟩ := p
    by_cases hk : k = key
    · subst hk
      have hne : (other == k) = false := by simpa [beq_eq_false_iff_ne] using h
      simp [setKey, List.lookup, hne]
    · simp only [setKey, hk, if_false, List.lookup]
      split <;> simp_all

theorem lookup_append_new {β : Type} (key other : String) (v : β) (l : List (String × β)) :
    (l ++ [(key, v)]).lookup other
      = match l.lookup other with
        | some x => some x
        | none => if other == key then some v else none := by
  induction l with
  | nil => simp [List.lookup]; split <;> simp_all
  | cons p rest ih =>
    obtain ⟨k, x⟩ := p
    simp only [List.cons_append, List.lookup]
    split
    · rfl
    · exact ih

/-! ## Lemmas on filepath.Clean and filepath.Join -/

theorem splitSlash_ne_nil (l : List Char) : splitSlash l ≠ [] := by
  induction l with
  | nil => simp [splitSlash]
  | cons c cs ih =>
    unfold splitSlash
    split
    · simp
    · split <;> simp

theorem splitSlash_append_slash (xs ys : List Char) :
    splitSlash (xs ++ '/' :: ys) = splitSlash xs ++ splitSlash ys := by
  induction xs with
  | nil => simp [splitSlash]
  | cons c cs ih =>
    by_cases hc : c = '/'
    · simp [splitSlash, hc, ih]
    · rcases hs : splitSlash cs with _ | ⟨p, ps⟩
      · exact absurd hs (splitSlash_ne_nil cs)
      · simp [splitSlash, hc, ih, hs]

theorem splitSlash_slashfree (c : List Char) (h : '/' ∉ c) : splitSlash c = [c] := by
  induction c with
  | nil => rfl
  | cons x xs ih =>
    have hx : x ≠ '/' := fun e => h (by simp [e])
    have hxs : '/' ∉ xs := fun e => h (by simp [e])
    simp [splitSlash, hx, ih hxs]

theorem mem_splitSlash_slashfree (l : List Char) : ∀ c ∈ splitSlash l, '/' ∉ c := by
  induction l with
  | nil => simp [splitSlash]
  | cons x xs ih =>
    intro c hc
    by_cases hx : x = '/'
    · simp only [splitSlash, hx, if_true, List.mem_cons] at hc
      rcases hc with rfl | hc
      · simp
      · exact ih c hc
    · simp only [splitSlash, hx, if_false] at hc
      rcases hs : splitSlash xs with _ | ⟨p, ps⟩
      · exact absurd hs (splitSlash_ne_nil xs)
      · rw [hs] at hc ih
        simp only [List.mem_cons] at hc
        rcases hc with rfl | hc
        · have hp := ih p (by simp)
          intro hmem
          simp only [List.mem_cons] at hmem
          rcases hmem with e | e
          · exact hx e.symm
          · exact hp e
        · exact ih c (by simp [hc])

theorem splitSlash_joinSlash (comps : List (List Char)) (hne : comps ≠ [])
    (h : ∀ c ∈ comps, '/' ∉ c) : splitSlash (joinSlash comps) = comps := by
  induction comps with
  | nil => exact absurd rfl hne
  | cons c rest ih =>
    cases rest with
    | nil => simpa [joinSlash] using splitSlash_slashfree c (h c (by simp))
    | cons d rest =>
      simp only [joinSlash]
      rw [splitSlash_append_slash, splitSlash_slashfree c (h c (by simp)),
        ih (by simp) (fun x hx => h x (by simp [hx]))]
      rfl

theorem cleanStep_normal (rooted : Bool) (st : List (List Char)) (c : List Char)
    (h : isNormal c) : cleanStep rooted st c = c :: st := by
  obtain ⟨h1, h2, h3⟩ := h
  simp [cleanStep, h1, h2, h3]

theorem cleanComps_append_normal (rooted : Bool) (comps : List (List Char)) (c : List Char)
    (h : isNormal c) : cleanComps rooted (comps ++ [c]) = cleanComps rooted comps ++ [c] := by
  simp [cleanComps, List.foldl_append, cleanStep_normal rooted _ c h]

theorem cleanComps_nil_cons (rooted : Bool) (comps : List (List Char)) :
    cleanComps rooted ([] :: comps) = cleanComps rooted comps := by
  simp [cleanComps, cleanStep]

theorem foldl_cleanStep_mem (rooted : Bool) (comps : List (List Char)) :
    ∀ st : List (List Char), ∀ x ∈ comps.foldl (cleanStep rooted) st, x ∈ st ∨ x ∈ comps := by
  induction comps with
  | nil => intro st x hx; exact Or.inl hx
  | cons c rest ih =>
    intro st x hx
    simp only [List.foldl_cons] at hx
    rcases ih _ x hx with h | h
    · have : x ∈ st ∨ x = c := by
        unfold cleanStep at h
        split at h
        · exact Or.inl h
        · split at h
          · split at h
            · split at h
              · simp at h
              · simp at h; exact Or.inr h
            · split at h
              · simp only [List.mem_cons] at h
                rcases h with h | h | h
                · exact Or.inr h
                · exact Or.inl (by simp [h])
                · exact Or.inl (by simp [h])
              · exact Or.inl (by simp [h])
          · simp only [List.mem_cons] at h
            rcases h with h | h
            · exact Or.inr h
            · exact Or.inl h
      rcases this with h | h
      · exact Or.inl h
      · exact Or.inr (by simp [h])
    · exact Or.inr (by simp [h])

theorem mem_cleanComps (rooted : Bool) (comps : List (List Char)) :
    ∀ x ∈ cleanComps rooted comps, x ∈ comps := by
  intro x hx
  unfold cleanComps at hx
  rw [List.mem_reverse] at hx
  rcases foldl_cleanStep_mem rooted comps [] x hx with h | h
  · simp at h
  · exact h

/-- No list of elements is its own cleaning followed by a further element. -/
theorem cleanComps_descent (rooted : Bool) (c : List Char) (h : isNormal c) :
    ∀ (n : Nat) (comps : List (List Char)), comps.length = n →
      comps ≠ cleanComps rooted comps ++ [c] := by
  intro n
  induction n with
  | zero =>
    intro comps hn heq
    have : comps = [] := List.length_eq_zero.mp hn
    rw [this] at heq
    simp at heq
  | succ n ih =>
    intro comps hn heq
    have hT : cleanComps rooted comps
        = cleanComps rooted (cleanComps rooted comps) ++ [c] := by
      conv_lhs => rw [heq]
      exact cleanComps_append_normal rooted _ c h
    have hlen : (cleanComps rooted comps).length = n := by
      have := congrArg List.length heq
      simp at this
      omega
    exact ih _ hlen hT

theorem joinSlash_snoc (comps : List (List Char)) (c : List Char) :
    ∃ pre, joinSlash (comps ++ [c]) = pre ++ c := by
  induction comps with
  | nil => exact ⟨[], by simp [joinSlash]⟩
  | cons d rest ih =>
    obtain ⟨pre, hpre⟩ := ih
    cases rest with
    | nil => exact ⟨d ++ ['/'], by simp [joinSlash]⟩
    | cons e rest =>
      refine ⟨d ++ '/' :: pre, ?_⟩
      have h1 : (d :: e :: rest) ++ [c] = d :: e :: (rest ++ [c]) := rfl
      have h2 : joinSlash (e :: (rest ++ [c])) = pre ++ c := hpre
      rw [h1]
      simp only [joinSlash] at h2 ⊢
      rw [h2]
      simp

theorem splitSlash_nil_snoc (init : List (List Char)) (c : List Char)
    (h : splitSlash [] = init ++ [c]) : c = [] := by
  cases init with
  | nil => simp [splitSlash] at h; exact h
  | cons i rest =>
    have hl := congrArg List.length h
    simp [splitSlash] at hl

/-- The cleaned path written out, for a path whose last element is an ordinary name. -/
theorem cleanChars_eq (path : List Char) (init : List (List Char)) (c : List Char)
    (hs : splitSlash path = init ++ [c]) (hc : isNormal c) :
    cleanChars path
      = (if (path.head? == some '/') = true then ['/'] else [])
        ++ joinSlash (cleanComps (path.head? == some '/') init ++ [c]) := by
  have hp : path ≠ [] := by
    intro h
    rw [h] at hs
    exact hc.1 (splitSlash_nil_snoc init c hs)
  obtain ⟨pre, hpre⟩ := joinSlash_snoc (cleanComps (path.head? == some '/') init) c
  have hout : (if (path.head? == some '/') = true then ['/'] else [])
      ++ joinSlash (cleanComps (path.head? == some '/') init ++ [c]) ≠ [] := by
    rw [hpre]
    intro h
    exact hc.1 (List.append_eq_nil.mp (List.append_eq_nil.mp h).2).2
  unfold cleanChars
  simp only [hp, if_false, hs, cleanComps_append_normal _ _ c hc]
  simp only [hout, if_false]

theorem cleanChars_suffix (path : List Char) (init : List (List Char)) (c : List Char)
    (hs : splitSlash path = init ++ [c]) (hc : isNormal c) :
    ∃ pre, cleanChars path = pre ++ c := by
  rw [cleanChars_eq path init c hs hc]
  obtain ⟨pre, hpre⟩ := joinSlash_snoc (cleanComps (path.head? == some '/') init) c
  exact ⟨(if (path.head? == some '/') = true then ['/'] else []) ++ pre, by rw [hpre]; simp⟩

theorem String.toList_eq_nil_iff (s : String) : s.toList = [] ↔ s = "" := by
  constructor
  · intro h
    apply String.ext
    simpa using h
  · intro h
    rw [h]
    rfl

/-- The joined path ends with the last element of its second argument when that is an
ordinary name. -/
theorem joinPath_suffix (a b : String) (init : List (List Char)) (c : List Char)
    (hb : splitSlash b.toList = init ++ [c]) (hc : isNormal c) :
    ∃ pre, (joinPath a b).toList = pre ++ c := by
  have hbne : b ≠ "" := by
    intro h
    rw [h] at hb
    exact hc.1 (splitSlash_nil_snoc init c hb)
  unfold joinPath
  by_cases ha : a = ""
  · simp only [ha, if_true, hbne, if_false, filepathClean]
    exact cleanChars_suffix _ init c hb hc
  · simp only [ha, if_false, filepathClean]
    have hp : (a ++ "/" ++ b).toList = a.toList ++ '/' :: b.toList := by
      simp [String.toList]
    rw [hp]
    exact cleanChars_suffix _ (splitSlash a.toList ++ init) c
      (by rw [splitSlash_append_slash, hb, List.append_assoc]) hc

/-- Joining an ordinary name to a path never gives the path back. -/
theorem joinPath_name_ne (a name : String) (hn : isNormal name.toList)
    (hs : '/' ∉ name.toList) : joinPath a name ≠ a := by
  have hsplit : splitSlash name.toList = [] ++ [name.toList] := splitSlash_slashfree _ hs
  have hnne : name ≠ "" := fun h => hn.1 (by rw [h]; rfl)
  unfold joinPath
  by_cases ha : a = ""
  · simp only [ha, if_true, hnne, if_false]
    intro h
    have h2 := congrArg String.toList h
    simp only [filepathClean] at h2
    obtain ⟨pre, hpre⟩ := cleanChars_suffix _ [] _ hsplit hn
    have h3 : cleanChars name.toList = [] := h2
    rw [hpre] at h3
    exact hn.1 (List.append_eq_nil.mp h3).2
  · simp only [ha, if_false, filepathClean]
    intro h
    have hane : a.toList ≠ [] := fun e => ha ((String.toList_eq_nil_iff a).mp e)
    have hp : (a ++ "/" ++ name).toList = a.toList ++ '/' :: name.toList := by
      simp [String.toList]
    have hhead : (a.toList ++ '/' :: name.toList).head? = a.toList.head? := by
      cases hl : a.toList with
      | nil => exact absurd hl hane
      | cons x xs => rfl
    have hsp : splitSlash (a.toList ++ '/' :: name.toList)
        = splitSlash a.toList ++ [name.toList] := by
      rw [splitSlash_append_slash, splitSlash_slashfree _ hs]
    have h2 : cleanChars (a.toList ++ '/' :: name.toList) = a.toList := by
      have := congrArg String.toList h
      rw [hp] at this
      exact this
    rw [cleanChars_eq _ _ _ hsp hn, hhead] at h2
    generalize hr : (a.toList.head? == some '/') = rooted at h2
    have hfree : ∀ x ∈ cleanComps rooted (splitSlash a.toList) ++ [name.toList], '/' ∉ x := by
      intro x hx
      rw [List.mem_append] at hx
      rcases hx with hx | hx
      · exact mem_splitSlash_slashfree _ x (mem_cleanComps _ _ x hx)
      · simp only [List.mem_singleton] at hx
        rw [hx]; exact hs
    have hjs := splitSlash_joinSlash _ (by simp) hfree
    have hcomps : cleanComps rooted (splitSlash a.toList)
        = cleanComps rooted (cleanComps rooted (splitSlash a.toList)) ++ [name.toList] := by
      cases rooted with
      | true =>
        have h3 : '/' :: joinSlash (cleanComps true (splitSlash a.toList) ++ [name.toList])
            = a.toList := h2
        have hsa : splitSlash a.toList
            = [] :: (cleanComps true (splitSlash a.toList) ++ [name.toList]) := by
          conv_lhs => rw [← h3]
          simp only [splitSlash, if_true]
          rw [hjs]
        conv_lhs => rw [hsa]
        rw [cleanComps_nil_cons, cleanComps_append_normal _ _ _ hn]
      | false =>
        have h3 : joinSlash (cleanComps false (splitSlash a.toList) ++ [name.toList])
            = a.toList := h2
        have hsa : splitSlash a.toList
            = cleanComps false (splitSlash a.toList) ++ [name.toList] := by
          conv_lhs => rw [← h3]
          rw [hjs]
        conv_lhs => rw [hsa]
        rw [cleanComps_append_normal _ _ _ hn]
    exact cleanComps_descent _ _ hn _ _ rfl hcomps

theorem splitSlash_append_slashfree (xs ys : List Char) (h : '/' ∉ ys) :
    ∃ init c, splitSlash (xs ++ ys) = init ++ [c ++ ys] := by
  induction xs with
  | nil => exact ⟨[], [], by simp [splitSlash_slashfree ys h]⟩
  | cons x rest ih =>
    obtain ⟨init, c, hic⟩ := ih
    by_cases hx : x = '/'
    · exact ⟨[] :: init, c, by simp [splitSlash, hx, hic]⟩
    · cases init with
      | nil => exact ⟨[], x :: c, by simp [splitSlash, hx, hic]⟩
      | cons p ps => exact ⟨(x :: p) :: ps, c, by simp [splitSlash, hx, hic]⟩

/-- The log file of `Deploy` is not its log directory, whatever the job id. -/
theorem logPath_ne_logDir (relPath id : String) :
    joinPath (joinPath relPath "terraform-deployer-logs") (id ++ ".log")
      ≠ joinPath relPath "terraform-deployer-logs" := by
  have h1 : splitSlash "terraform-deployer-logs".toList
      = [] ++ ["terraform-deployer-logs".toList] := by decide
  have hn1 : isNormal "terraform-deployer-logs".toList := by
    refine ⟨?_, ?_, ?_⟩ <;> decide
  obtain ⟨pre1, hpre1⟩ := joinPath_suffix relPath "terraform-deployer-logs" _ _ h1 hn1
  obtain ⟨init, c, hic⟩ := splitSlash_append_slashfree id.toList ".log".toList (by decide)
  have hidl : (id ++ ".log").toList = id.toList ++ ".log".toList := by simp [String.toList]
  have hn2 : isNormal (c ++ ".log".toList) := by
    have hlen : 4 ≤ (c ++ ".log".toList).length := by
      rw [List.length_append]
      have : ".log".toList.length = 4 := rfl
      omega
    refine ⟨?_, ?_, ?_⟩ <;> intro h <;> rw [h] at hlen <;> simp at hlen
  obtain ⟨pre2, hpre2⟩ := joinPath_suffix (joinPath relPath "terraform-deployer-logs")
    (id ++ ".log") init _ (by rw [hidl]; exact hic) hn2
  intro h
  rw [h, hpre1] at hpre2
  have hl1 : (pre1 ++ "terraform-deployer-logs".toList).getLast? = some 's' := by
    have : "terraform-deployer-logs".toList = "terraform-deployer-log".toList ++ ['s'] := by
      decide
    rw [this, ← List.append_assoc, List.getLast?_append]
    rfl
  have hl2 : (pre2 ++ (c ++ ".log".toList)).getLast? = some 'g' := by
    have : ".log".toList = ".lo".toList ++ ['g'] := by decide
    rw [this, ← List.append_assoc, ← List.append_assoc, List.getLast?_append]
    rfl
  rw [hpre2] at hl1
  rw [hl1] at hl2
  exact absurd hl2 (by decide)

theorem foldl_cleanStep_all_normal (rooted : Bool) (comps : List (List Char))
    (h : ∀ c ∈ comps, isNormal c) :
    ∀ st, comps.foldl (cleanStep rooted) st = comps.reverse ++ st := by
  induction comps with
  | nil => intro st; rfl
  | cons c rest ih =>
    intro st
    simp only [List.foldl_cons, cleanStep_normal rooted st c (h c (by simp)),
      ih (fun x hx => h x (by simp [hx])), List.reverse_cons, List.append_assoc,
      List.singleton_append]

theorem cleanComps_all_normal (rooted : Bool) (comps : List (List Char))
    (h : ∀ c ∈ comps, isNormal c) : cleanComps rooted comps = comps := by
  simp [cleanComps, foldl_cleanStep_all_normal rooted comps h]

theorem joinSlash_cons_head (c : List Char) (rest : List (List Char)) (hc : c ≠ []) :
    (joinSlash (c :: rest)).head? = c.head? := by
  cases c with
  | nil => exact absurd rfl hc
  | cons x xs =>
    cases rest with
    | nil => rfl
    | cons d rest => rfl

/-- Joining an ordinary name to a relative path that is spelled clean gives the path with the
name as a further element. -/
theorem joinPath_snoc (first : List Char) (comps : List (List Char)) (name : String)
    (hcomps : ∀ c ∈ first :: comps, isNormal c ∧ '/' ∉ c)
    (hn : isNormal name.toList) (hs : '/' ∉ name.toList) :
    joinPath (String.mk (joinSlash (first :: comps))) name
      = String.mk (joinSlash ((first :: comps) ++ [name.toList])) := by
  have hfirst := hcomps first (by simp)
  have hhead : (joinSlash (first :: comps)).head? = first.head? :=
    joinSlash_cons_head first comps hfirst.1.1
  have hne : joinSlash (first :: comps) ≠ [] := by
    intro h
    rw [h] at hhead
    cases hf : first with
    | nil => exact hfirst.1.1 hf
    | cons x xs => rw [hf] at hhead; simp at hhead
  have ha : String.mk (joinSlash (first :: comps)) ≠ "" := by
    intro h
    exact hne (congrArg String.toList h)
  have hsplit : splitSlash (joinSlash (first :: comps) ++ '/' :: name.toList)
      = (first :: comps) ++ [name.toList] := by
    rw [splitSlash_append_slash, splitSlash_slashfree _ hs,
      splitSlash_joinSlash _ (by simp) (fun c hc => (hcomps c hc).2)]
  have hroot : ((joinSlash (first :: comps) ++ '/' :: name.toList).head? == some '/') = false := by
    have h1 : (joinSlash (first :: comps) ++ '/' :: name.toList).head?
        = first.head? := by
      rw [← hhead]
      cases hj : joinSlash (first :: comps) with
      | nil => exact absurd hj hne
      | cons x xs => rfl
    rw [h1]
    cases hf : first with
    | nil => exact absurd hf hfirst.1.1
    | cons x xs =>
      have hx : x ≠ '/' := fun e => hfirst.2 (by rw [hf, e]; simp)
      simp [hx]
  unfold joinPath
  simp only [ha, if_false, filepathClean]
  have hp : (String.mk (joinSlash (first :: comps)) ++ "/" ++ name).toList
      = joinSlash (first :: comps) ++ '/' :: name.toList := by
    simp [String.toList]
  rw [hp, cleanChars_eq _ _ _ hsplit hn, hroot,
    cleanComps_all_normal _ _ (fun c hc => (hcomps c hc).1)]
  rfl

theorem slashfree_append {xs ys : List Char} (hx : '/' ∉ xs) (hy : '/' ∉ ys) :
    '/' ∉ xs ++ ys := by
  intro h
  rcases List.mem_append.mp h with h | h
  · exact hx h
  · exact hy h

/-- The log path of `Deploy` written out, for a job id that is an ordinary name. -/
theorem deployLogPath_plain (id : String) (hn : isNormal id.toList) (hs : '/' ∉ id.toList) :
    joinPath "./deployments" id = "deployments/" ++ id ∧
    joinPath (joinPath (joinPath "./deployments" id) "terraform-deployer-logs") (id ++ ".log")
      = "deployments/" ++ id ++ "/terraform-deployer-logs/" ++ id ++ ".log" := by
  have h1 : joinPath "./deployments" id
      = String.mk (joinSlash ["deployments".toList, id.toList]) := by
    have hsplit : splitSlash ("./deployments".toList ++ '/' :: id.toList)
        = [['.'], "deployments".toList] ++ [id.toList] := by
      rw [splitSlash_append_slash, splitSlash_slashfree _ hs]
      rfl
    have hne : ("./deployments" : String) ≠ "" := by decide
    have hp : ("./deployments" ++ "/" ++ id).toList
        = "./deployments".toList ++ '/' :: id.toList := by
      simp [String.toList]
    have hroot : (("./deployments".toList ++ '/' :: id.toList).head? == some '/') = false := rfl
    have hcl : cleanComps false [['.'], "deployments".toList] = ["deployments".toList] := by
      decide
    unfold joinPath
    simp only [hne, if_false, filepathClean]
    rw [hp, cleanChars_eq _ _ _ hsplit hn, hroot, hcl]
    rfl
  have hD : isNormal "deployments".toList ∧ '/' ∉ "deployments".toList := by
    refine ⟨⟨?_, ?_, ?_⟩, ?_⟩ <;> decide
  have hT : isNormal "terraform-deployer-logs".toList ∧ '/' ∉ "terraform-deployer-logs".toList := by
    refine ⟨⟨?_, ?_, ?_⟩, ?_⟩ <;> decide
  have hlog : (id ++ ".log").toList = id.toList ++ ".log".toList := by simp [String.toList]
  have hL : isNormal (id ++ ".log").toList ∧ '/' ∉ (id ++ ".log").toList := by
    rw [hlog]
    refine ⟨?_, slashfree_append hs (by decide)⟩
    have hlen : 4 ≤ (id.toList ++ ".log".toList).length := by
      rw [List.length_append]
      have : ".log".toList.length = 4 := rfl
      omega
    refine ⟨?_, ?_, ?_⟩ <;> intro h <;> rw [h] at hlen <;> simp at hlen
  have h2 := joinPath_snoc "deployments".toList [id.toList] "terraform-deployer-logs"
    (by
      intro c hc
      simp only [List.mem_cons, List.mem_singleton, List.not_mem_nil, or_false] at hc
      rcases hc with rfl | rfl
      · exact hD
      · exact ⟨hn, hs⟩) hT.1 hT.2
  have h3 := joinPath_snoc "deployments".toList [id.toList, "terraform-deployer-logs".toList]
    (id ++ ".log")
    (by
      intro c hc
      simp only [List.mem_cons, List.mem_singleton, List.not_mem_nil, or_false] at hc
      rcases hc with rfl | rfl | rfl
      · exact hD
      · exact ⟨hn, hs⟩
      · exact hT) hL.1 hL.2
  have h1' : joinPath "./deployments" id = "deployments/" ++ id := by
    rw [h1]
    apply String.ext
    simp [joinSlash, String.toList]
  refine ⟨h1', ?_⟩
  rw [h1, h2]
  have h3' : joinPath (String.mk (joinSlash (["deployments".toList, id.toList]
      ++ ["terraform-deployer-logs".toList]))) (id ++ ".log")
      = String.mk (joinSlash (["deployments".toList, id.toList,
          "terraform-deployer-logs".toList] ++ [(id ++ ".log").toList])) := h3
  rw [h3']
  apply String.ext
  simp [joinSlash, String.toList]

/-! ## C17: the report of saveResults -/

/-- C17: when the result holds no diagnostics `saveResults` returns no error and leaves the
file system as it is (no directory, no file). When it holds `n ≥ 1` diagnostics and the
operating system lets the directory and the file be written (no injected failure, nothing but
a directory at the report directory's path, no directory at the report's path), it returns no
error and afterwards the directory exists and `analysis_results.txt` in it holds exactly the
`n` lines `File: <file>, Line: <line>, Column: <column>, Message: <message>`, one for each
diagnostic, in order; `Analyze` calls it with the directory `<workspace>/static_validator`. -/
theorem saveResults_report (fs : FS) (result : AnalysisResult) (outputDir : String) :
    (result.Errors = [] →
      ∀ osErr, TerraformAnalyzer.saveResults osErr fs result outputDir = (fs, none)) ∧
    (result.Errors ≠ [] →
      (fs.lookup outputDir = none ∨ fs.lookup outputDir = some FsNode.dir) →
      fs.lookup (joinPath outputDir "analysis_results.txt") ≠ some FsNode.dir →
      (TerraformAnalyzer.saveResults false fs result outputDir).2 = none ∧
      isDir (TerraformAnalyzer.saveResults false fs result outputDir).1 outputDir = true ∧
      (TerraformAnalyzer.saveResults false fs result outputDir).1.lookup
          (joinPath outputDir "analysis_results.txt")
        = some (FsNode.file (String.join (result.Errors.map
            (fun err => "File: " ++ err.File ++ ", Line: " ++ toString err.Line
              ++ ", Column: " ++ toString err.Column ++ ", Message: " ++ err.Message
              ++ "\n"))))) ∧
    (result.Errors.map reportLine).length = result.Errors.length ∧
    (∀ (collect : List ConfigFile → AnalysisResult) (osErr : Bool) (files : List ConfigFile)
        (workspace : String),
      (TerraformAnalyzer.Analyze collect osErr fs files workspace).1
        = (TerraformAnalyzer.saveResults osErr fs (collect files)
            (joinPath workspace "static_validator")).1) := by
  refine ⟨?_, ?_, by simp, ?_⟩
  · intro h osErr
    simp [TerraformAnalyzer.saveResults, h]
  · intro hne hdir hfile
    have hlen : ¬ result.Errors.length = 0 := by
      intro h; exact hne (List.length_eq_zero.mp h)
    have hpath : joinPath outputDir "analysis_results.txt" ≠ outputDir :=
      joinPath_name_ne _ _ (by decide) (by decide)
    have hpath' : outputDir ≠ joinPath outputDir "analysis_results.txt" := fun h => hpath h.symm
    have hline : (fun err : ValidationConfigError => "File: " ++ err.File ++ ", Line: "
        ++ toString err.Line ++ ", Column: " ++ toString err.Column ++ ", Message: "
        ++ err.Message ++ "\n") = reportLine := by
      funext err; rfl
    rw [hline]
    rcases hdir with hnone | hsome
    · have hbeq : (joinPath outputDir "analysis_results.txt" == outputDir) = false := by
        simpa [beq_eq_false_iff_ne] using hpath
      have hl1 : (fs ++ [(outputDir, FsNode.dir)]).lookup
          (joinPath outputDir "analysis_results.txt")
          = fs.lookup (joinPath outputDir "analysis_results.txt") := by
        rw [lookup_append_new]
        cases hx : fs.lookup (joinPath outputDir "analysis_results.txt") <;> simp [hbeq]
      have hl2 : (fs ++ [(outputDir, FsNode.dir)]).lookup outputDir = some FsNode.dir := by
        rw [lookup_append_new, hnone]; simp
      have hw : writeNode (fs ++ [(outputDir, FsNode.dir)])
          (joinPath outputDir "analysis_results.txt")
          (FsNode.file (String.join (result.Errors.map reportLine)))
          = some (setKey (joinPath outputDir "analysis_results.txt")
              (FsNode.file (String.join (result.Errors.map reportLine)))
              (fs ++ [(outputDir, FsNode.dir)])) := by
        unfold writeNode
        rw [hl1]
        cases hx : fs.lookup (joinPath outputDir "analysis_results.txt") with
        | none => rfl
        | some node =>
          cases node with
          | dir => exact absurd hx hfile
          | file c => rfl
          | metadata a b c => rfl
      simp only [TerraformAnalyzer.saveResults, hlen, if_false, Bool.false_eq_true, mkdirAll,
        hnone, hw]
      refine ⟨trivial, ?_, lookup_setKey_self _ _ _⟩
      simp [isDir, lookup_setKey_other _ _ _ _ hpath', hl2]
    · have hw : writeNode fs (joinPath outputDir "analysis_results.txt")
          (FsNode.file (String.join (result.Errors.map reportLine)))
          = some (setKey (joinPath outputDir "analysis_results.txt")
              (FsNode.file (String.join (result.Errors.map reportLine))) fs) := by
        unfold writeNode
        cases hx : fs.lookup (joinPath outputDir "analysis_results.txt") with
        | none => rfl
        | some node =>
          cases node with
          | dir => exact absurd hx hfile
          | file c => rfl
          | metadata a b c => rfl
      simp only [TerraformAnalyzer.saveResults, hlen, if_false, Bool.false_eq_true, mkdirAll,
        hsome, hw]
      refine ⟨trivial, ?_, lookup_setKey_self _ _ _⟩
      simp [isDir, lookup_setKey_other _ _ _ _ hpath', hsome]
  · intro collect osErr files workspace
    unfold TerraformAnalyzer.Analyze
    rcases hs : TerraformAnalyzer.saveResults osErr fs (collect files)
      (joinPath workspace "static_validator") with ⟨fs1, _ | e⟩ <;> simp [hs]

/-- C17, at a concrete result: the two advisories collected for `main.tf` are written as two
lines to `deployments/j1/static_validator/analysis_results.txt`. -/
theorem saveResults_report_witness :
    (TerraformAnalyzer.collect exampleParseConfig sourceOrder [mainTf]).Errors ≠ [] ∧
    (TerraformAnalyzer.saveResults false workspaceFs
        (TerraformAnalyzer.collect exampleParseConfig sourceOrder [mainTf])
        "deployments/j1/static_validator").2 = none ∧
    (TerraformAnalyzer.saveResults false workspaceFs
        (TerraformAnalyzer.collect exampleParseConfig sourceOrder [mainTf])
        "deployments/j1/static_validator").1.lookup
          "deployments/j1/static_validator/analysis_results.txt"
      = some (FsNode.file
          ("File: main.tf, Line: 1, Column: 1, Message: Resource a.b missing lifecycle block in main.tf: \n"
            ++ "File: main.tf, Line: 1, Column: 1, Message: Resource a.b missing tags attribute in main.tf: \n")) :=
  ⟨by decide,
    ((saveResults_report workspaceFs
      (TerraformAnalyzer.collect exampleParseConfig sourceOrder [mainTf])
      "deployments/j1/static_validator").2.1 (by decide) (Or.inl (by decide)) (by decide)).1,
    ((saveResults_report workspaceFs
      (TerraformAnalyzer.collect exampleParseConfig sourceOrder [mainTf])
      "deployments/j1/static_validator").2.1 (by decide) (Or.inl (by decide)) (by decide)).2.2⟩

/-! ## C19, C20: Deploy -/

/-- C19: when the path `deployments/<job id>` does not exist or is not a directory, `Deploy`
returns an error together with the empty log path, leaves the file system as it is (no log
directory, no log file) and calls `runCmd` for no command. -/
theorem Deploy_requires_workspace (env : DeployEnv) (fs : FS) (job : Job)
    (h : isDir fs (joinPath "./deployments" job.ID) = false) :
    (∃ err, (TerraformDeployer.Deploy env fs (some job)).exit = Exit.returned (some err)) ∧
    (TerraformDeployer.Deploy env fs (some job)).logPath = "" ∧
    (TerraformDeployer.Deploy env fs (some job)).fs = fs ∧
    (TerraformDeployer.Deploy env fs (some job)).commands = [] := by
  by_cases hid : (job.ID == "") = true
  · simp [TerraformDeployer.Deploy, hid]
  · by_cases hst : (env.statErr || (fs.lookup (joinPath "./deployments" job.ID)).isNone) = true
    · simp only [TerraformDeployer.Deploy, hid, hst, if_true, if_false]
      simp
    · simp only [TerraformDeployer.Deploy, hid, hst, h, Bool.not_false, if_true, if_false]
      simp

/-- C19, at a concrete input: no path of the file system is the workspace of job `j1`. -/
theorem Deploy_requires_workspace_witness :
    isDir world0.fs (joinPath "./deployments" pendingJob1.ID) = false ∧
    ((∃ err, (TerraformDeployer.Deploy (deployOk "" "") world0.fs (some pendingJob1)).exit
        = Exit.returned (some err)) ∧
     (TerraformDeployer.Deploy (deployOk "" "") world0.fs (some pendingJob1)).logPath = "" ∧
     (TerraformDeployer.Deploy (deployOk "" "") world0.fs (some pendingJob1)).fs = world0.fs ∧
     (TerraformDeployer.Deploy (deployOk "" "") world0.fs (some pendingJob1)).commands = []) :=
  ⟨by decide, Deploy_requires_workspace (deployOk "" "") world0.fs pendingJob1 (by decide)⟩

/-- C20: when `runCmd` returns an error for the init phase (the process could not be started,
exited with a non-zero status, or the phase context with its bound of two minutes under the
caller's context was done first), `Deploy` returns a non-nil error and never calls `runCmd` for
the apply command. When the init phase was reached, the call moreover returns the path of the
log file `deployments/<job id>/terraform-deployer-logs/<job id>.log`, the error is the one of
the init phase, and the log file holds the header, the init banner and the output of the
process, and nothing after them: neither the apply banner nor the footer was written. -/
theorem Deploy_init_failure (env : DeployEnv) (fs : FS) (job : Job) (e : Error)
    (h : env.init.err = some e) :
    (∃ err, (TerraformDeployer.Deploy env fs (some job)).exit = Exit.returned (some err)) ∧
    applyCommand ∉ (TerraformDeployer.Deploy env fs (some job)).commands ∧
    (initCommand ∈ (TerraformDeployer.Deploy env fs (some job)).commands →
      (TerraformDeployer.Deploy env fs (some job)).commands = [initCommand] ∧
      (TerraformDeployer.Deploy env fs (some job)).exit
        = Exit.returned (some (phaseError "init" env.init e)) ∧
      (TerraformDeployer.Deploy env fs (some job)).logPath
        = joinPath (joinPath (joinPath "./deployments" job.ID) "terraform-deployer-logs")
            (job.ID ++ ".log") ∧
      (TerraformDeployer.Deploy env fs (some job)).fs.lookup
          (TerraformDeployer.Deploy env fs (some job)).logPath
        = some (FsNode.file (logHeader job.ID env.startedAt (joinPath "./deployments" job.ID)
            ++ initBanner ++ env.init.output))) := by
  have hne : applyCommand ≠ initCommand := by decide
  by_cases hid : (job.ID == "") = true
  · simp [TerraformDeployer.Deploy, hid]
  by_cases hst : (env.statErr || (fs.lookup (joinPath "./deployments" job.ID)).isNone) = true
  · simp only [TerraformDeployer.Deploy, hid, hst, if_true, if_false]
    simp
  by_cases hd : (!isDir fs (joinPath "./deployments" job.ID)) = true
  · simp only [TerraformDeployer.Deploy, hid, hst, hd, if_true, if_false]
    simp
  simp only [TerraformDeployer.Deploy, hid, hst, hd, if_false]
  rcases hm : (if env.mkdirErr = true then none
      else mkdirAll fs (joinPath (joinPath "./deployments" job.ID) "terraform-deployer-logs"))
    with _ | fs1
  · simp
  simp only []
  rcases hc : (if env.createErr = true then none
      else writeNode fs1 (joinPath (joinPath (joinPath "./deployments" job.ID)
        "terraform-deployer-logs") (job.ID ++ ".log")) (FsNode.file "")) with _ | fs2
  · simp
  simp only []
  by_cases hh : env.headerErr = true
  · simp [hh]
  by_cases hb : env.initBannerErr = true
  · simp [hh, hb]
  simp [hh, hb, h, hne, lookup_setKey_self]

/-- C20, at a concrete input: the init phase of job `j1` runs into its bound. -/
theorem Deploy_init_failure_witness :
    deployInitTimeout.init.err = some "context deadline exceeded" ∧
    applyCommand ∉ (TerraformDeployer.Deploy deployInitTimeout workspaceFs
      (some pendingJob1)).commands ∧
    (TerraformDeployer.Deploy deployInitTimeout workspaceFs (some pendingJob1)).exit
      = Exit.returned (some "terraform init canceled or timed out: context deadline exceeded") ∧
    (TerraformDeployer.Deploy deployInitTimeout workspaceFs (some pendingJob1)).logPath
      = "deployments/j1/terraform-deployer-logs/j1.log" ∧
    (TerraformDeployer.Deploy deployInitTimeout workspaceFs (some pendingJob1)).fs.lookup
        "deployments/j1/terraform-deployer-logs/j1.log"
      = some (FsNode.file ("job_id: j1\nstarted_at: 2024-01-01T00:00:00Z\ndir: deployments/j1"
          ++ "\n\n--- COMMAND OUTPUT ---\n\n\n--- terraform init ---\npartial")) :=
  ⟨rfl,
    (Deploy_init_failure deployInitTimeout workspaceFs pendingJob1
      "context deadline exceeded" rfl).2.1,
    ((Deploy_init_failure deployInitTimeout workspaceFs pendingJob1
      "context deadline exceeded" rfl).2.2 (by decide)).2.1,
    ((Deploy_init_failure deployInitTimeout workspaceFs pendingJob1
      "context deadline exceeded" rfl).2.2 (by decide)).2.2.1,
    ((Deploy_init_failure deployInitTimeout workspaceFs pendingJob1
      "context deadline exceeded" rfl).2.2 (by decide)).2.2.2⟩

/-! ## C26: the files extracted from the text of the model -/

theorem pairedNames_cons (opening : String) (rest : List String) :
    pairedNames (opening :: rest)
      = (if fenceLabel opening = "" then "main.tf" else fenceLabel opening)
        :: pairedNames rest.tail := by
  cases rest with
  | nil => rfl
  | cons closing rest => rfl

theorem pairedNames_length : ∀ (n : Nat) (fences : List String), fences.length = n →
    (pairedNames fences).length = (n + 1) / 2 := by
  intro n
  induction n using Nat.strong_induction_on with
  | _ n ih =>
    intro fences hn
    match fences, hn with
    | [], hn => simp at hn; subst hn; rfl
    | [opening], hn => simp at hn; subst hn; rfl
    | opening :: closing :: rest, hn =>
      simp only [List.length_cons] at hn
      have h := ih rest.length (by omega) rest rfl
      simp only [pairedNames, List.length_cons, h]
      omega

theorem fenceFileName_eq (rawLine : String) (h : isFenceLine rawLine = true) :
    fenceFileName (stringsTrimSpace rawLine)
      = if fenceLabel rawLine = "" then "main.tf" else fenceLabel rawLine := by
  unfold isFenceLine at h
  have h3 : ("```" : String).length = 3 := rfl
  simp only [fenceFileName, stringsTrimPrefix, h, if_true, fenceLabel, h3, beq_iff_eq]

/-- The files the loop of `extractFilesFromContent` returns when it ends in a state. -/
theorem extractLoop_names (lines : List String) :
    ∀ st : ExtractState, st.inCodeBlock = st.currentFile.isSome →
      (match (lines.foldl extractStep st).currentFile with
        | some currentFile => (lines.foldl extractStep st).files ++ [currentFile]
        | none => (lines.foldl extractStep st).files).map ConfigFile.Name
        = st.files.map ConfigFile.Name
          ++ (match st.currentFile with
              | none => pairedNames (lines.filter isFenceLine)
              | some currentFile =>
                currentFile.Name :: pairedNames (lines.filter isFenceLine).tail) := by
  induction lines with
  | nil =>
    intro st _
    rcases st with ⟨files, _ | currentFile, inCodeBlock⟩ <;> simp [pairedNames]
  | cons rawLine rest ih =>
    intro st hinv
    simp only [List.foldl_cons]
    by_cases hf : isFenceLine rawLine = true
    · have hf' : stringsHasPrefix (stringsTrimSpace rawLine) "```" = true := hf
      cases hc : st.currentFile with
      | none =>
        have hb : st.inCodeBlock = false := by simpa [hc] using hinv
        have hstep : extractStep st rawLine
            = { files := st.files,
                currentFile := some
                  { JobID := "", Name := fenceFileName (stringsTrimSpace rawLine), Content := "",
                    Type_ := AmveraGenerator.detectFileType
                      (fenceFileName (stringsTrimSpace rawLine)),
                    HasError := false, ErrorMsg := none },
                inCodeBlock := true } := by
          simp [extractStep, hf', hc, hb]
        rw [hstep, ih _ (by simp)]
        simp only [List.filter_cons, hf, if_true, pairedNames_cons, fenceFileName_eq rawLine hf]
      | some currentFile =>
        have hb : st.inCodeBlock = true := by simpa [hc] using hinv
        have hstep : extractStep st rawLine
            = { files := st.files ++ [currentFile], currentFile := none,
                inCodeBlock := false } := by
          simp [extractStep, hf', hc, hb]
        rw [hstep, ih _ (by simp)]
        simp [List.filter_cons, hf]
    · have hf' : stringsHasPrefix (stringsTrimSpace rawLine) "```" = false := by
        simpa [isFenceLine] using hf
      cases hc : st.currentFile with
      | none =>
        have hb : st.inCodeBlock = false := by simpa [hc] using hinv
        have hstep : extractStep st rawLine = st := by
          simp [extractStep, hf', hc, hb]
        rw [hstep, ih st hinv]
        simp [List.filter_cons, hf, hc]
      | some currentFile =>
        have hb : st.inCodeBlock = true := by simpa [hc] using hinv
        have hstep : extractStep st rawLine
            = { st with
                currentFile := some
                  { currentFile with
                    Content := (if currentFile.Content != "" then currentFile.Content ++ "\n"
                      else currentFile.Content) ++ stringsTrimSpace rawLine } } := by
          simp [extractStep, hf', hc, hb]
        rw [hstep, ih _ (by simpa using hb)]
        simp [List.filter_cons, hf]

/-- C26: for every text, the files `extractFilesFromContent` returns are, in order of
appearance, one for each pair of fence lines (an opening line that, trimmed, starts with three
backticks, and the next fence line, which closes it whatever follows its backticks) and one for
a last opening fence that is never closed; each is named by the label after the opening
fence line, or `main.tf` when the label is empty; a text with `k` fence lines yields
`(k + 1) / 2` files, the half of `k` rounded up. -/
theorem extractFilesFromContent_pairs (content : String) :
    (AmveraGenerator.extractFilesFromContent content).map ConfigFile.Name
      = pairedNames ((stringsSplitNewline content).filter isFenceLine) ∧
    (AmveraGenerator.extractFilesFromContent content).length
      = (((stringsSplitNewline content).filter isFenceLine).length + 1) / 2 := by
  have h := extractLoop_names (stringsSplitNewline content)
    { files := [], currentFile := none, inCodeBlock := false } rfl
  have hn : (AmveraGenerator.extractFilesFromContent content).map ConfigFile.Name
      = pairedNames ((stringsSplitNewline content).filter isFenceLine) := by
    simpa [AmveraGenerator.extractFilesFromContent] using h
  refine ⟨hn, ?_⟩
  have hl := congrArg List.length hn
  rw [List.length_map] at hl
  rw [hl]
  exact pairedNames_length _ _ rfl

/-- The files extracted from `fencedText`: three, for its five fence lines. -/
theorem extractFilesFromContent_example :
    (stringsSplitNewline fencedText).filter isFenceLine
      = ["```main.tf", "```", "  ```", "```yaml", "```vars.tf"] ∧
    (AmveraGenerator.extractFilesFromContent fencedText).map
        (fun f => (f.Name, f.Content, f.Type_))
      = [("main.tf", "resource \"a\" \"b\" \x7b\x7d", "terraform"),
         ("main.tf", "x = 1", "terraform"),
         ("vars.tf", "variable \"v\" \x7b\x7d", "terraform")] := by
  constructor <;> decide

/-! ## Lemmas on Deploy -/

theorem timeout_ne_failed_init (c e : String) :
    "terraform init canceled or timed out: " ++ c ≠ "terraform init failed: " ++ e := by
  intro h
  have h2 := congrArg (fun s : String => s.data.take 16) h
  have hl : (fun s : String => s.data.take 16) ("terraform init canceled or timed out: " ++ c)
      = "terraform init c".data := rfl
  have hr : (fun s : String => s.data.take 16) ("terraform init failed: " ++ e)
      = "terraform init f".data := rfl
  rw [hl, hr] at h2
  exact absurd h2 (by decide)

theorem timeout_ne_failed_apply (c e : String) :
    "terraform apply canceled or timed out: " ++ c ≠ "terraform apply failed: " ++ e := by
  intro h
  have h2 := congrArg (fun s : String => s.data.take 17) h
  have hl : (fun s : String => s.data.take 17) ("terraform apply canceled or timed out: " ++ c)
      = "terraform apply c".data := rfl
  have hr : (fun s : String => s.data.take 17) ("terraform apply failed: " ++ e)
      = "terraform apply f".data := rfl
  rw [hl, hr] at h2
  exact absurd h2 (by decide)

theorem phaseError_init (outcome : PhaseOutcome) (e : Error) :
    phaseError "init" outcome e
      = match outcome.ctxErr with
        | some c => "terraform init canceled or timed out: " ++ c
        | none => "terraform init failed: " ++ e := by
  unfold phaseError
  cases outcome.ctxErr <;> simp

theorem phaseError_apply (outcome : PhaseOutcome) (e : Error) :
    phaseError "apply" outcome e
      = match outcome.ctxErr with
        | some c => "terraform apply canceled or timed out: " ++ c
        | none => "terraform apply failed: " ++ e := by
  unfold phaseError
  cases outcome.ctxErr <;> simp

theorem Deploy_init_error (env : DeployEnv) (fs : FS) (job : Job) (e : Error)
    (h : env.init.err = some e)
    (hrun : initCommand ∈ (TerraformDeployer.Deploy env fs (some job)).commands) :
    (TerraformDeployer.Deploy env fs (some job)).exit
      = Exit.returned (some (phaseError "init" env.init e)) := by
  revert hrun
  by_cases hid : (job.ID == "") = true
  · simp [TerraformDeployer.Deploy, hid]
  by_cases hst : (env.statErr || (fs.lookup (joinPath "./deployments" job.ID)).isNone) = true
  · simp only [TerraformDeployer.Deploy, hid, hst, if_true, if_false]
    simp
  by_cases hd : (!isDir fs (joinPath "./deployments" job.ID)) = true
  · simp only [TerraformDeployer.Deploy, hid, hst, hd, if_true, if_false]
    simp
  simp only [TerraformDeployer.Deploy, hid, hst, hd, if_false]
  rcases hm : (if env.mkdirErr = true then none
      else mkdirAll fs (joinPath (joinPath "./deployments" job.ID) "terraform-deployer-logs"))
    with _ | fs1
  · simp
  simp only []
  rcases hc : (if env.createErr = true then none
      else writeNode fs1 (joinPath (joinPath (joinPath "./deployments" job.ID)
        "terraform-deployer-logs") (job.ID ++ ".log")) (FsNode.file "")) with _ | fs2
  · simp
  simp only []
  by_cases hh : env.headerErr = true
  · simp [hh]
  by_cases hb : env.initBannerErr = true
  · simp [hh, hb]
  simp [hh, hb, h]

theorem Deploy_apply_error (env : DeployEnv) (fs : FS) (job : Job) (e : Error)
    (h : env.apply.err = some e)
    (hrun : applyCommand ∈ (TerraformDeployer.Deploy env fs (some job)).commands) :
    (TerraformDeployer.Deploy env fs (some job)).exit
      = Exit.returned (some (phaseError "apply" env.apply e)) := by
  have hne : applyCommand ≠ initCommand := by decide
  revert hrun
  by_cases hid : (job.ID == "") = true
  · simp [TerraformDeployer.Deploy, hid]
  by_cases hst : (env.statErr || (fs.lookup (joinPath "./deployments" job.ID)).isNone) = true
  · simp only [TerraformDeployer.Deploy, hid, hst, if_true, if_false]
    simp
  by_cases hd : (!isDir fs (joinPath "./deployments" job.ID)) = true
  · simp only [TerraformDeployer.Deploy, hid, hst, hd, if_true, if_false]
    simp
  simp only [TerraformDeployer.Deploy, hid, hst, hd, if_false]
  rcases hm : (if env.mkdirErr = true then none
      else mkdirAll fs (joinPath (joinPath "./deployments" job.ID) "terraform-deployer-logs"))
    with _ | fs1
  · simp
  simp only []
  rcases hc : (if env.createErr = true then none
      else writeNode fs1 (joinPath (joinPath (joinPath "./deployments" job.ID)
        "terraform-deployer-logs") (job.ID ++ ".log")) (FsNode.file "")) with _ | fs2
  · simp
  simp only []
  by_cases hh : env.headerErr = true
  · simp [hh]
  by_cases hb : env.initBannerErr = true
  · simp [hh, hb]
  rcases hi : env.init.err with _ | ie
  · by_cases ha : env.applyBannerErr = true
    · simp [hh, hb, hi, ha, hne]
    · simp [hh, hb, hi, ha, h]
  · simp [hh, hb, hi, hne]

/-! ## C21: the two kinds of phase error -/

/-- C21: when a phase that `Deploy` ran (init, or apply) failed, that is `runCmd` returned an
error `e` for it, the error `Deploy` returns is `terraform <phase> canceled or timed out: <c>`
exactly when the phase context is done (`c` being the error of the context: the phase bound or
the deadline or cancel of the caller), and `terraform <phase> failed: <e>`, wrapping the error of
`runCmd`, exactly when the context is still live; the two forms never coincide, so no failure
is reported as both. -/
theorem Deploy_error_distinguishes_causes (env : DeployEnv) (fs : FS) (job : Job) :
    (∀ e, env.init.err = some e →
      initCommand ∈ (TerraformDeployer.Deploy env fs (some job)).commands →
      ((∀ c, (TerraformDeployer.Deploy env fs (some job)).exit
            = Exit.returned (some ("terraform init canceled or timed out: " ++ c))
          ↔ env.init.ctxErr = some c) ∧
        ((TerraformDeployer.Deploy env fs (some job)).exit
            = Exit.returned (some ("terraform init failed: " ++ e))
          ↔ env.init.ctxErr = none))) ∧
    (∀ e, env.apply.err = some e →
      applyCommand ∈ (TerraformDeployer.Deploy env fs (some job)).commands →
      ((∀ c, (TerraformDeployer.Deploy env fs (some job)).exit
            = Exit.returned (some ("terraform apply canceled or timed out: " ++ c))
          ↔ env.apply.ctxErr = some c) ∧
        ((TerraformDeployer.Deploy env fs (some job)).exit
            = Exit.returned (some ("terraform apply failed: " ++ e))
          ↔ env.apply.ctxErr = none))) ∧
    (∀ c e : String,
      "terraform init canceled or timed out: " ++ c ≠ "terraform init failed: " ++ e ∧
      "terraform apply canceled or timed out: " ++ c ≠ "terraform apply failed: " ++ e) := by
  refine ⟨?_, ?_, fun c e => ⟨timeout_ne_failed_init c e, timeout_ne_failed_apply c e⟩⟩
  · intro e he hrun
    rw [Deploy_init_error env fs job e he hrun, phaseError_init]
    rcases hc : env.init.ctxErr with _ | c0
    · refine ⟨fun c => ⟨fun h => ?_, fun h => by simp at h⟩, by simp⟩
      simp only [Exit.returned.injEq, Option.some.injEq] at h
      exact absurd h.symm (timeout_ne_failed_init c e)
    · refine ⟨fun c => ⟨fun h => ?_, fun h => ?_⟩, ⟨fun h => ?_, fun h => by simp at h⟩⟩
      · simp only [Exit.returned.injEq, Option.some.injEq] at h
        have h2 := congrArg (fun s : String => String.mk (s.data.drop 38)) h
        have hl : (fun s : String => String.mk (s.data.drop 38))
            ("terraform init canceled or timed out: " ++ c0) = c0 := rfl
        have hr : (fun s : String => String.mk (s.data.drop 38))
            ("terraform init canceled or timed out: " ++ c) = c := rfl
        rw [hl, hr] at h2
        rw [h2]
      · simp only [Option.some.injEq] at h
        rw [h]
      · simp only [Exit.returned.injEq, Option.some.injEq] at h
        exact absurd h (timeout_ne_failed_init c0 e)
  · intro e he hrun
    rw [Deploy_apply_error env fs job e he hrun, phaseError_apply]
    rcases hc : env.apply.ctxErr with _ | c0
    · refine ⟨fun c => ⟨fun h => ?_, fun h => by simp at h⟩, by simp⟩
      simp only [Exit.returned.injEq, Option.some.injEq] at h
      exact absurd h.symm (timeout_ne_failed_apply c e)
    · refine ⟨fun c => ⟨fun h => ?_, fun h => ?_⟩, ⟨fun h => ?_, fun h => by simp at h⟩⟩
      · simp only [Exit.returned.injEq, Option.some.injEq] at h
        have h2 := congrArg (fun s : String => String.mk (s.data.drop 39)) h
        have hl : (fun s : String => String.mk (s.data.drop 39))
            ("terraform apply canceled or timed out: " ++ c0) = c0 := rfl
        have hr : (fun s : String => String.mk (s.data.drop 39))
            ("terraform apply canceled or timed out: " ++ c) = c := rfl
        rw [hl, hr] at h2
        rw [h2]
      · simp only [Option.some.injEq] at h
        rw [h]
      · simp only [Exit.returned.injEq, Option.some.injEq] at h
        exact absurd h (timeout_ne_failed_apply c0 e)

/-- C21, at concrete inputs: an init phase that runs into its bound is reported as canceled or
timed out, an init phase that exits with status 1 under a live context as failed. -/
theorem Deploy_error_distinguishes_causes_witness :
    (deployInitTimeout.init.err = some "context deadline exceeded" ∧
      (TerraformDeployer.Deploy deployInitTimeout workspaceFs (some pendingJob1)).exit
        = Exit.returned
            (some ("terraform init canceled or timed out: " ++ "context deadline exceeded"))) ∧
    (deployInitExit1.init.err = some "exit status 1" ∧
      (TerraformDeployer.Deploy deployInitExit1 workspaceFs (some pendingJob1)).exit
        = Exit.returned (some ("terraform init failed: " ++ "exit status 1"))) :=
  ⟨⟨rfl, (((Deploy_error_distinguishes_causes deployInitTimeout workspaceFs pendingJob1).1
      "context deadline exceeded" rfl (by decide)).1 "context deadline exceeded").mpr rfl⟩,
   ⟨rfl, ((Deploy_error_distinguishes_causes deployInitExit1 workspaceFs pendingJob1).1
      "exit status 1" rfl (by decide)).2.mpr rfl⟩⟩

/-! ## C22: the log of a successful deployment -/

theorem mkdirAll_lookup (fs fs1 : FS) (path : String) (h : mkdirAll fs path = some fs1) :
    fs1.lookup path = some FsNode.dir := by
  unfold mkdirAll at h
  cases hl : fs.lookup path with
  | none =>
    simp only [hl, Option.some.injEq] at h
    subst h
    rw [lookup_append_new, hl]
    simp
  | some node =>
    cases node with
    | dir =>
      simp only [hl, Option.some.injEq] at h
      subst h
      exact hl
    | file c => simp [hl] at h
    | metadata a b c => simp [hl] at h

theorem writeNode_some (fs fs2 : FS) (path : String) (node : FsNode)
    (h : writeNode fs path node = some fs2) : fs2 = setKey path node fs := by
  unfold writeNode at h
  cases hl : fs.lookup path with
  | none => simp only [hl, Option.some.injEq] at h; exact h.symm
  | some n =>
    cases n with
    | dir => simp [hl] at h
    | file c => simp only [hl, Option.some.injEq] at h; exact h.symm
    | metadata a b c => simp only [hl, Option.some.injEq] at h; exact h.symm

theorem mkdirAll_some (fs : FS) (path : String)
    (h : fs.lookup path = none ∨ fs.lookup path = some FsNode.dir) :
    ∃ fs1, mkdirAll fs path = some fs1 ∧
      ∀ other, other ≠ path → fs1.lookup other = fs.lookup other := by
  unfold mkdirAll
  rcases h with h | h
  · refine ⟨fs ++ [(path, FsNode.dir)], by simp [h], ?_⟩
    intro other hne
    rw [lookup_append_new]
    have hb : (other == path) = false := by simpa [beq_eq_false_iff_ne] using hne
    cases fs.lookup other <;> simp [hb]
  · exact ⟨fs, by simp [h], fun _ _ => rfl⟩

theorem writeNode_file (fs : FS) (path : String) (node : FsNode)
    (h : fs.lookup path ≠ some FsNode.dir) :
    writeNode fs path node = some (setKey path node fs) := by
  unfold writeNode
  cases hx : fs.lookup path with
  | none => rfl
  | some n =>
    cases n with
    | dir => exact absurd hx h
    | file c => rfl
    | metadata a b c => rfl

/-- C22: for a job with a non-empty id whose workspace `deployments/<job id>` is a
directory, when the operating system lets the log directory and the log file be created and
written and both phases succeed (`runCmd` returns nil for init and for apply), `Deploy` returns
the log path with a nil error after running init and then apply, and the log file holds, in
this order: the header (job id, start time, working directory), the init banner and the output
of init, the apply banner and the output of apply, and the footer with the end time. -/
theorem Deploy_success_log (env : DeployEnv) (fs : FS) (job : Job)
    (hid : (job.ID == "") = false)
    (hws : isDir fs (joinPath "./deployments" job.ID) = true)
    (hos : env.statErr = false ∧ env.mkdirErr = false ∧ env.createErr = false ∧
      env.headerErr = false ∧ env.initBannerErr = false ∧ env.applyBannerErr = false ∧
      env.footerErr = false)
    (hdir : fs.lookup (joinPath (joinPath "./deployments" job.ID) "terraform-deployer-logs")
        = none ∨
      fs.lookup (joinPath (joinPath "./deployments" job.ID) "terraform-deployer-logs")
        = some FsNode.dir)
    (hfile : fs.lookup (joinPath (joinPath (joinPath "./deployments" job.ID)
        "terraform-deployer-logs") (job.ID ++ ".log")) ≠ some FsNode.dir)
    (hinit : env.init.err = none) (happly : env.apply.err = none) :
    (TerraformDeployer.Deploy env fs (some job)).exit = Exit.returned none ∧
    (TerraformDeployer.Deploy env fs (some job)).logPath
      = joinPath (joinPath (joinPath "./deployments" job.ID) "terraform-deployer-logs")
          (job.ID ++ ".log") ∧
    (TerraformDeployer.Deploy env fs (some job)).commands = [initCommand, applyCommand] ∧
    (TerraformDeployer.Deploy env fs (some job)).fs.lookup
        (TerraformDeployer.Deploy env fs (some job)).logPath
      = some (FsNode.file
          (("job_id: " ++ job.ID ++ "\nstarted_at: " ++ env.startedAt ++ "\ndir: "
              ++ joinPath "./deployments" job.ID ++ "\n\n--- COMMAND OUTPUT ---\n\n")
            ++ "\n--- terraform init ---\n" ++ env.init.output
            ++ "\n--- terraform apply ---\n" ++ env.apply.output
            ++ ("\n--- SUCCESS ---\nended_at: " ++ env.endedAt ++ "\n"))) := by
  obtain ⟨h1, h2, h3, h4, h5, h6, h7⟩ := hos
  obtain ⟨fs1, hm, hother⟩ := mkdirAll_some fs _ hdir
  have hne : joinPath (joinPath (joinPath "./deployments" job.ID) "terraform-deployer-logs")
      (job.ID ++ ".log")
      ≠ joinPath (joinPath "./deployments" job.ID) "terraform-deployer-logs" :=
    logPath_ne_logDir _ _
  have hfile1 : fs1.lookup (joinPath (joinPath (joinPath "./deployments" job.ID)
      "terraform-deployer-logs") (job.ID ++ ".log")) ≠ some FsNode.dir := by
    rw [hother _ hne]; exact hfile
  have hw := writeNode_file fs1 _ (FsNode.file "") hfile1
  have hex : (fs.lookup (joinPath "./deployments" job.ID)).isNone = false := by
    unfold isDir at hws
    cases hl : fs.lookup (joinPath "./deployments" job.ID) with
    | none => simp [hl] at hws
    | some n => rfl
  simp only [TerraformDeployer.Deploy, hid, h1, h2, h3, h4, h5, h6, h7, hws, hex, hm, hw, hinit,
    happly, Bool.false_eq_true, if_false, Bool.or_self, Bool.not_true, lookup_setKey_self,
    logHeader, initBanner, applyBanner, logFooter]
  exact ⟨trivial, trivial, trivial, trivial⟩

set_option maxRecDepth 100000 in
/-- C22, at a concrete input: the log of the deployment of job `j1`. -/
theorem Deploy_success_log_witness :
    isDir workspaceFs (joinPath "./deployments" pendingJob1.ID) = true ∧
    (TerraformDeployer.Deploy deployBothOk workspaceFs (some pendingJob1)).exit
      = Exit.returned none ∧
    (TerraformDeployer.Deploy deployBothOk workspaceFs (some pendingJob1)).fs.lookup
        (TerraformDeployer.Deploy deployBothOk workspaceFs (some pendingJob1)).logPath
      = some (FsNode.file ("job_id: j1\nstarted_at: 2024-01-01T00:00:00Z\ndir: deployments/j1"
          ++ "\n\n--- COMMAND OUTPUT ---\n\n\n--- terraform init ---\n"
          ++ "Terraform has been successfully initialized!\n\n--- terraform apply ---\n"
          ++ "Apply complete!\n\n--- SUCCESS ---\nended_at: 2024-01-01T00:05:00Z\n")) :=
  ⟨by decide,
    (Deploy_success_log deployBothOk workspaceFs pendingJob1 (by decide) (by decide)
      (by decide) (Or.inl (by decide)) (by decide) rfl rfl).1,
    (Deploy_success_log deployBothOk workspaceFs pendingJob1 (by decide) (by decide)
      (by decide) (Or.inl (by decide)) (by decide) rfl rfl).2.2.2⟩

/-! ## C23: the path of the deployment log -/

theorem Deploy_opened (env : DeployEnv) (fs fs1 fs2 : FS) (job : Job)
    (hid : ¬ (job.ID == "") = true)
    (hst : ¬ (env.statErr || (fs.lookup (joinPath "./deployments" job.ID)).isNone) = true)
    (hd : ¬ (!isDir fs (joinPath "./deployments" job.ID)) = true)
    (hm : (if env.mkdirErr = true then none
      else mkdirAll fs (joinPath (joinPath "./deployments" job.ID) "terraform-deployer-logs"))
      = some fs1)
    (hc : (if env.createErr = true then none
      else writeNode fs1 (joinPath (joinPath (joinPath "./deployments" job.ID)
        "terraform-deployer-logs") (job.ID ++ ".log")) (FsNode.file "")) = some fs2) :
    (TerraformDeployer.Deploy env fs (some job)).logPath
      = joinPath (joinPath (joinPath "./deployments" job.ID) "terraform-deployer-logs")
          (job.ID ++ ".log") ∧
    isDir (TerraformDeployer.Deploy env fs (some job)).fs
      (joinPath (joinPath "./deployments" job.ID) "terraform-deployer-logs") = true ∧
    ∃ content, (TerraformDeployer.Deploy env fs (some job)).fs.lookup
      (joinPath (joinPath (joinPath "./deployments" job.ID) "terraform-deployer-logs")
        (job.ID ++ ".log")) = some (FsNode.file content) := by
  have hne : joinPath (joinPath "./deployments" job.ID) "terraform-deployer-logs"
      ≠ joinPath (joinPath (joinPath "./deployments" job.ID) "terraform-deployer-logs")
          (job.ID ++ ".log") := fun h => logPath_ne_logDir _ _ h.symm
  have hm1 : mkdirAll fs (joinPath (joinPath "./deployments" job.ID) "terraform-deployer-logs")
      = some fs1 := by
    by_cases he : env.mkdirErr = true
    · simp [he] at hm
    · simpa [he] using hm
  have hc1 : writeNode fs1 (joinPath (joinPath (joinPath "./deployments" job.ID)
      "terraform-deployer-logs") (job.ID ++ ".log")) (FsNode.file "") = some fs2 := by
    by_cases he : env.createErr = true
    · simp [he] at hc
    · simpa [he] using hc
  have hfs2 := writeNode_some _ _ _ _ hc1
  have hdir1 := mkdirAll_lookup _ _ _ hm1
  have hA : fs2.lookup (joinPath (joinPath "./deployments" job.ID) "terraform-deployer-logs")
      = some FsNode.dir := by
    rw [hfs2, lookup_setKey_other _ _ _ _ hne]; exact hdir1
  have hB : fs2.lookup (joinPath (joinPath (joinPath "./deployments" job.ID)
      "terraform-deployer-logs") (job.ID ++ ".log")) = some (FsNode.file "") := by
    rw [hfs2]; exact lookup_setKey_self _ _ _
  have hA2 : ∀ content, (setKey (joinPath (joinPath (joinPath "./deployments" job.ID)
      "terraform-deployer-logs") (job.ID ++ ".log")) (FsNode.file content) fs2).lookup
      (joinPath (joinPath "./deployments" job.ID) "terraform-deployer-logs")
      = some FsNode.dir := by
    intro content
    rw [lookup_setKey_other _ _ _ _ hne]; exact hA
  simp only [TerraformDeployer.Deploy, hid, hst, hd, if_false, hm, hc]
  by_cases hh : env.headerErr = true
  · simp [hh, isDir, hA, hB]
  by_cases hb : env.initBannerErr = true
  · simp [hh, hb, isDir, hA2, lookup_setKey_self]
  rcases hi : env.init.err with _ | ie
  · by_cases ha : env.applyBannerErr = true
    · simp [hh, hb, hi, ha, isDir, hA2, lookup_setKey_self]
    · rcases hp : env.apply.err with _ | ae
      · by_cases hf : env.footerErr = true
        · simp [hh, hb, hi, ha, hp, hf, isDir, hA2, lookup_setKey_self]
        · simp [hh, hb, hi, ha, hp, hf, isDir, hA2, lookup_setKey_self]
      · simp [hh, hb, hi, ha, hp, isDir, hA2, lookup_setKey_self]
  · simp [hh, hb, hi, isDir, hA2, lookup_setKey_self]

/-- C23 (as stated, refuted): the successful deployment of job `j1` returns the log path
`deployments/j1/terraform-deployer-logs/j1.log`, not `deployments/j1/deploy-logs/j1.log`
(nor either of them with `./` in front), and afterwards neither the directory `deploy-logs`
nor a file in it exists in the workspace. -/
theorem Deploy_log_not_in_deploy_logs :
    (TerraformDeployer.Deploy deployBothOk workspaceFs (some pendingJob1)).exit
      = Exit.returned none ∧
    (TerraformDeployer.Deploy deployBothOk workspaceFs (some pendingJob1)).logPath
      = "deployments/j1/terraform-deployer-logs/j1.log" ∧
    (TerraformDeployer.Deploy deployBothOk workspaceFs (some pendingJob1)).logPath
      ≠ "deployments/j1/deploy-logs/j1.log" ∧
    (TerraformDeployer.Deploy deployBothOk workspaceFs (some pendingJob1)).logPath
      ≠ "./deployments/j1/deploy-logs/j1.log" ∧
    (TerraformDeployer.Deploy deployBothOk workspaceFs (some pendingJob1)).logPath
      ≠ "./deployments/j1/terraform-deployer-logs/j1.log" ∧
    (TerraformDeployer.Deploy deployBothOk workspaceFs (some pendingJob1)).fs.lookup
      "deployments/j1/deploy-logs" = none ∧
    (TerraformDeployer.Deploy deployBothOk workspaceFs (some pendingJob1)).fs.lookup
      "deployments/j1/deploy-logs/j1.log" = none := by
  refine ⟨?_, ?_, ?_, ?_, ?_, ?_, ?_⟩ <;> decide

/-- C23 (amended): for every job, the log path `Deploy` returns is either empty (it failed
before the log file was created) or the cleaned join of the workspace of the job
(`filepath.Join("./deployments", <job id>)`), `terraform-deployer-logs` and `<job id>.log`;
whenever it returns a non-empty path, that path holds a file and its directory
`terraform-deployer-logs` exists; it does create and return this path once the job id is
non-empty, the workspace is a directory and the operating system lets the directory and the
file be created; and for a job id that is a plain name (not empty, not `.` or `..`, without a
slash) the workspace is spelled `deployments/<job id>` and the path
`deployments/<job id>/terraform-deployer-logs/<job id>.log`, without `./` in front. -/
theorem Deploy_log_path (env : DeployEnv) (fs : FS) (job : Job) :
    ((TerraformDeployer.Deploy env fs (some job)).logPath = "" ∨
      (TerraformDeployer.Deploy env fs (some job)).logPath
        = joinPath (joinPath (joinPath "./deployments" job.ID) "terraform-deployer-logs")
            (job.ID ++ ".log")) ∧
    ((TerraformDeployer.Deploy env fs (some job)).logPath ≠ "" →
      isDir (TerraformDeployer.Deploy env fs (some job)).fs
        (joinPath (joinPath "./deployments" job.ID) "terraform-deployer-logs") = true ∧
      ∃ content, (TerraformDeployer.Deploy env fs (some job)).fs.lookup
        (TerraformDeployer.Deploy env fs (some job)).logPath = some (FsNode.file content)) ∧
    ((job.ID == "") = false → isDir fs (joinPath "./deployments" job.ID) = true →
      env.statErr = false → env.mkdirErr = false → env.createErr = false →
      (fs.lookup (joinPath (joinPath "./deployments" job.ID) "terraform-deployer-logs") = none ∨
        fs.lookup (joinPath (joinPath "./deployments" job.ID) "terraform-deployer-logs")
          = some FsNode.dir) →
      fs.lookup (joinPath (joinPath (joinPath "./deployments" job.ID)
        "terraform-deployer-logs") (job.ID ++ ".log")) ≠ some FsNode.dir →
      (TerraformDeployer.Deploy env fs (some job)).logPath
        = joinPath (joinPath (joinPath "./deployments" job.ID) "terraform-deployer-logs")
            (job.ID ++ ".log")) ∧
    (isNormal job.ID.toList → '/' ∉ job.ID.toList →
      joinPath "./deployments" job.ID = "deployments/" ++ job.ID ∧
      joinPath (joinPath (joinPath "./deployments" job.ID) "terraform-deployer-logs")
          (job.ID ++ ".log")
        = "deployments/" ++ job.ID ++ "/terraform-deployer-logs/" ++ job.ID ++ ".log") := by
  have key : ((TerraformDeployer.Deploy env fs (some job)).logPath = "" ∨
      ((TerraformDeployer.Deploy env fs (some job)).logPath
        = joinPath (joinPath (joinPath "./deployments" job.ID) "terraform-deployer-logs")
            (job.ID ++ ".log") ∧
      isDir (TerraformDeployer.Deploy env fs (some job)).fs
        (joinPath (joinPath "./deployments" job.ID) "terraform-deployer-logs") = true ∧
      ∃ content, (TerraformDeployer.Deploy env fs (some job)).fs.lookup
        (joinPath (joinPath (joinPath "./deployments" job.ID) "terraform-deployer-logs")
          (job.ID ++ ".log")) = some (FsNode.file content))) := by
    by_cases hid : (job.ID == "") = true
    · left; simp [TerraformDeployer.Deploy, hid]
    by_cases hst : (env.statErr || (fs.lookup (joinPath "./deployments" job.ID)).isNone) = true
    · left; simp only [TerraformDeployer.Deploy, hid, hst, if_true, if_false]; simp
    by_cases hd : (!isDir fs (joinPath "./deployments" job.ID)) = true
    · left; simp only [TerraformDeployer.Deploy, hid, hst, hd, if_true, if_false]; simp
    rcases hm : (if env.mkdirErr = true then none
        else mkdirAll fs (joinPath (joinPath "./deployments" job.ID) "terraform-deployer-logs"))
      with _ | fs1
    · left; simp only [TerraformDeployer.Deploy, hid, hst, hd, if_false, hm]; simp
    rcases hc : (if env.createErr = true then none
        else writeNode fs1 (joinPath (joinPath (joinPath "./deployments" job.ID)
          "terraform-deployer-logs") (job.ID ++ ".log")) (FsNode.file "")) with _ | fs2
    · left; simp only [TerraformDeployer.Deploy, hid, hst, hd, if_false, hm, hc]; simp
    · right; exact Deploy_opened env fs fs1 fs2 job hid hst hd hm hc
  refine ⟨?_, ?_, ?_, fun hn hs => deployLogPath_plain job.ID hn hs⟩
  · rcases key with h | ⟨h, _⟩
    · exact Or.inl h
    · exact Or.inr h
  · intro hne
    rcases key with h | ⟨h, hdir, hfile⟩
    · exact absurd h hne
    · rw [h]; exact ⟨hdir, hfile⟩
  · intro hid hws h1 h2 h3 hdir hfile
    have hne : joinPath (joinPath (joinPath "./deployments" job.ID) "terraform-deployer-logs")
        (job.ID ++ ".log")
        ≠ joinPath (joinPath "./deployments" job.ID) "terraform-deployer-logs" :=
      logPath_ne_logDir _ _
    obtain ⟨fs1, hm, hother⟩ := mkdirAll_some fs _ hdir
    have hfile1 : fs1.lookup (joinPath (joinPath (joinPath "./deployments" job.ID)
        "terraform-deployer-logs") (job.ID ++ ".log")) ≠ some FsNode.dir := by
      rw [hother _ hne]; exact hfile
    have hw := writeNode_file fs1 _ (FsNode.file "") hfile1
    have hex : (fs.lookup (joinPath "./deployments" job.ID)).isNone = false := by
      unfold isDir at hws
      cases hl : fs.lookup (joinPath "./deployments" job.ID) with
      | none => simp [hl] at hws
      | some n => rfl
    exact (Deploy_opened env fs fs1
      (setKey (joinPath (joinPath (joinPath "./deployments" job.ID) "terraform-deployer-logs")
        (job.ID ++ ".log")) (FsNode.file "") fs1) job (by simp [hid]) (by simp [h1, hex])
      (by simp [hws]) (by simp [h2, hm]) (by simp [h3, hw])).1

/-- C23 (amended), at a concrete input: the failed deployment of job `j1` (init runs into its
bound) returns the path of the log it created under `terraform-deployer-logs`, spelled
`deployments/j1/terraform-deployer-logs/j1.log`. -/
theorem Deploy_log_path_witness :
    (TerraformDeployer.Deploy deployInitTimeout workspaceFs (some pendingJob1)).logPath ≠ "" ∧
    (TerraformDeployer.Deploy deployInitTimeout workspaceFs (some pendingJob1)).logPath
      = "deployments/j1/terraform-deployer-logs/j1.log" ∧
    isDir (TerraformDeployer.Deploy deployInitTimeout workspaceFs (some pendingJob1)).fs
      "deployments/j1/terraform-deployer-logs" = true ∧
    (isNormal pendingJob1.ID.toList ∧ '/' ∉ pendingJob1.ID.toList ∧
      joinPath "./deployments" pendingJob1.ID = "deployments/" ++ pendingJob1.ID ∧
      joinPath (joinPath (joinPath "./deployments" pendingJob1.ID) "terraform-deployer-logs")
          (pendingJob1.ID ++ ".log")
        = "deployments/" ++ pendingJob1.ID ++ "/terraform-deployer-logs/" ++ pendingJob1.ID
          ++ ".log") :=
  ⟨by decide,
    (Deploy_log_path deployInitTimeout workspaceFs pendingJob1).2.2.1 (by decide) (by decide)
      rfl rfl rfl (Or.inl (by decide)) (by decide),
    ((Deploy_log_path deployInitTimeout workspaceFs pendingJob1).2.1 (by decide)).1,
    by decide, by decide,
    (Deploy_log_path deployInitTimeout workspaceFs pendingJob1).2.2.2 (by decide) (by decide)⟩

/-! ## C24, C25, C28: DeployJob -/

theorem DeployJob_get_error (updateErr : Bool) (env : DeployEnv) (w : World) (jobID : String) :
    JobService.DeployJob true updateErr env w jobID
      = { world := w,
          exit := Exit.returned (some ("err get job from store: " ++ ErrDriver)),
          deployCalls := [], commands := [] } := by
  simp [JobService.DeployJob, MongoJobRepo.GetByID]

theorem GetByID_no_error (jobsCol : List JobDoc) (id : String) :
    MongoJobRepo.GetByID false jobsCol id
      = ((MongoJobRepo.GetByID false jobsCol id).1, none) := by
  simp [MongoJobRepo.GetByID]

theorem DeployJob_executor_error (updateErr : Bool) (env : DeployEnv) (w : World)
    (jobID : String) (e : Error)
    (h : (TerraformDeployer.Deploy env w.fs (MongoJobRepo.GetByID false w.jobs jobID).1).exit
      = Exit.returned (some e)) :
    JobService.DeployJob false updateErr env w jobID
      = { world := { w with fs := (TerraformDeployer.Deploy env w.fs
              (MongoJobRepo.GetByID false w.jobs jobID).1).fs },
          exit := Exit.returned (some ("err deploy job: " ++ e)),
          deployCalls := [(MongoJobRepo.GetByID false w.jobs jobID).1],
          commands := (TerraformDeployer.Deploy env w.fs
            (MongoJobRepo.GetByID false w.jobs jobID).1).commands } := by
  unfold JobService.DeployJob
  rw [GetByID_no_error]
  simp only [h]

theorem DeployJob_executor_panic (updateErr : Bool) (env : DeployEnv) (w : World)
    (jobID : String) (msg : String)
    (h : (TerraformDeployer.Deploy env w.fs (MongoJobRepo.GetByID false w.jobs jobID).1).exit
      = Exit.panicked msg) :
    JobService.DeployJob false updateErr env w jobID
      = { world := { w with fs := (TerraformDeployer.Deploy env w.fs
              (MongoJobRepo.GetByID false w.jobs jobID).1).fs },
          exit := Exit.panicked msg,
          deployCalls := [(MongoJobRepo.GetByID false w.jobs jobID).1],
          commands := (TerraformDeployer.Deploy env w.fs
            (MongoJobRepo.GetByID false w.jobs jobID).1).commands } := by
  unfold JobService.DeployJob
  rw [GetByID_no_error]
  simp only [h]

theorem DeployJob_executor_ok (updateErr : Bool) (env : DeployEnv) (w : World)
    (jobID : String)
    (h : (TerraformDeployer.Deploy env w.fs (MongoJobRepo.GetByID false w.jobs jobID).1).exit
      = Exit.returned none) :
    (JobService.DeployJob false updateErr env w jobID).world
      = ({ w with fs := (TerraformDeployer.Deploy env w.fs
              (MongoJobRepo.GetByID false w.jobs jobID).1).fs }.UpdateStatus updateErr jobID
            JobStatusDeployed).1 ∧
    (JobService.DeployJob false updateErr env w jobID).deployCalls
      = [(MongoJobRepo.GetByID false w.jobs jobID).1] := by
  unfold JobService.DeployJob
  rw [GetByID_no_error]
  simp only [h]
  rcases hu : World.UpdateStatus updateErr
    { w with fs := (TerraformDeployer.Deploy env w.fs
      (MongoJobRepo.GetByID false w.jobs jobID).1).fs } jobID JobStatusDeployed
    with ⟨w2, _ | err⟩ <;> simp

/-- C24: `DeployJob` issues at most one status update, the request of DEPLOYED, and it issues
it exactly when the job was fetched without error and the deploy executor, invoked on it,
returned no error. When the executor returns an error, `DeployJob` returns the error `err
deploy job: <error>` after invoking the executor once, issues no status update, and the job
store is what it was before the call. -/
theorem DeployJob_requests_deployed_iff (getErr updateErr : Bool) (env : DeployEnv) (w : World)
    (jobID : String) :
    ((JobService.DeployJob getErr updateErr env w jobID).world.trace
        = w.trace ++ [Event.updateStatus jobID JobStatusDeployed]
      ↔ (getErr = false ∧
          (TerraformDeployer.Deploy env w.fs (MongoJobRepo.GetByID false w.jobs jobID).1).exit
            = Exit.returned none)) ∧
    (¬ (getErr = false ∧
          (TerraformDeployer.Deploy env w.fs (MongoJobRepo.GetByID false w.jobs jobID).1).exit
            = Exit.returned none) →
      (JobService.DeployJob getErr updateErr env w jobID).world.trace = w.trace ∧
      (JobService.DeployJob getErr updateErr env w jobID).world.jobs = w.jobs) ∧
    (∀ e, getErr = false →
      (TerraformDeployer.Deploy env w.fs (MongoJobRepo.GetByID false w.jobs jobID).1).exit
        = Exit.returned (some e) →
      (JobService.DeployJob getErr updateErr env w jobID).exit
        = Exit.returned (some ("err deploy job: " ++ e)) ∧
      (JobService.DeployJob getErr updateErr env w jobID).deployCalls
        = [(MongoJobRepo.GetByID false w.jobs jobID).1] ∧
      (JobService.DeployJob getErr updateErr env w jobID).world.trace = w.trace ∧
      (JobService.DeployJob getErr updateErr env w jobID).world.jobs = w.jobs) := by
  have hself : ∀ x : Event, w.trace ≠ w.trace ++ [x] := by
    intro x h
    have := congrArg List.length h
    simp at this
  cases getErr with
  | true =>
    rw [DeployJob_get_error]
    refine ⟨⟨fun h => absurd h (hself _), fun h => by simp at h⟩, fun _ => ⟨rfl, rfl⟩, ?_⟩
    intro e h
    simp at h
  | false =>
    rcases hx : (TerraformDeployer.Deploy env w.fs
      (MongoJobRepo.GetByID false w.jobs jobID).1).exit with (_ | e) | msg
    · obtain ⟨hw, hc⟩ := DeployJob_executor_ok updateErr env w jobID hx
      refine ⟨⟨fun _ => ⟨rfl, rfl⟩, fun _ => ?_⟩, fun h => absurd ⟨rfl, rfl⟩ h, ?_⟩
      · rw [hw]; rfl
      · intro e _ h
        simp at h
    · rw [DeployJob_executor_error updateErr env w jobID e hx]
      refine ⟨⟨fun h => absurd h (hself _), fun h => by simp at h⟩, fun _ => ⟨rfl, rfl⟩, ?_⟩
      intro e2 _ h
      simp only [Exit.returned.injEq, Option.some.injEq] at h
      subst h
      exact ⟨rfl, rfl, rfl, rfl⟩
    · rw [DeployJob_executor_panic updateErr env w jobID msg hx]
      refine ⟨⟨fun h => absurd h (hself _), fun h => by simp at h⟩, fun _ => ⟨rfl, rfl⟩, ?_⟩
      intro e _ h
      simp at h

/-- C24, at concrete inputs: the deployment of the READY job `j1` succeeds and DEPLOYED is
requested; when init runs into its bound `DeployJob` returns the error, requests nothing and
leaves the job READY. -/
theorem DeployJob_requests_deployed_iff_witness :
    (JobService.DeployJob false false deployBothOk (deployWorld JobStatusReady2Deploy)
        "j1").world.trace
      = [Event.updateStatus "j1" JobStatusDeployed] ∧
    (JobService.DeployJob false false deployInitTimeout (deployWorld JobStatusReady2Deploy)
        "j1").exit
      = Exit.returned (some ("err deploy job: "
          ++ "terraform init canceled or timed out: context deadline exceeded")) ∧
    (JobService.DeployJob false false deployInitTimeout (deployWorld JobStatusReady2Deploy)
        "j1").world.trace = [] ∧
    (JobService.DeployJob false false deployInitTimeout (deployWorld JobStatusReady2Deploy)
        "j1").world.jobs = [{ job := jobWithStatus JobStatusReady2Deploy, extra := [] }] :=
  ⟨(DeployJob_requests_deployed_iff false false deployBothOk
      (deployWorld JobStatusReady2Deploy) "j1").1.mpr ⟨rfl, by decide⟩,
   ((DeployJob_requests_deployed_iff false false deployInitTimeout
      (deployWorld JobStatusReady2Deploy) "j1").2.2
      "terraform init canceled or timed out: context deadline exceeded" rfl (by decide)).1,
   ((DeployJob_requests_deployed_iff false false deployInitTimeout
      (deployWorld JobStatusReady2Deploy) "j1").2.2
      "terraform init canceled or timed out: context deadline exceeded" rfl (by decide)).2.2.1,
   ((DeployJob_requests_deployed_iff false false deployInitTimeout
      (deployWorld JobStatusReady2Deploy) "j1").2.2
      "terraform init canceled or timed out: context deadline exceeded" rfl (by decide)).2.2.2⟩

theorem Deploy_congr_ID (env : DeployEnv) (fs : FS) (j₁ j₂ : Job) (h : j₁.ID = j₂.ID) :
    TerraformDeployer.Deploy env fs (some j₁) = TerraformDeployer.Deploy env fs (some j₂) := by
  unfold TerraformDeployer.Deploy
  simp only [h]

/-- The deployment of `j1` in the world `deployWorld status`, whatever the status. -/
theorem DeployJob_any_status (status : JobStatus) :
    (JobService.DeployJob false false deployBothOk (deployWorld status) "j1").deployCalls
      = [some (jobWithStatus status)] ∧
    (JobService.DeployJob false false deployBothOk (deployWorld status) "j1").commands
      = [initCommand, applyCommand] ∧
    (JobService.DeployJob false false deployBothOk (deployWorld status) "j1").exit
      = Exit.returned none ∧
    statusUpdates
        (JobService.DeployJob false false deployBothOk (deployWorld status) "j1").world.trace
      = [("j1", JobStatusDeployed)] := by
  have hget : MongoJobRepo.GetByID false (deployWorld status).jobs "j1"
      = (some (jobWithStatus status), none) := by
    simp [MongoJobRepo.GetByID, deployWorld, JobDoc.field, jobWithStatus, pendingJob1]
  have hdep : TerraformDeployer.Deploy deployBothOk (deployWorld status).fs
      (some (jobWithStatus status))
      = TerraformDeployer.Deploy deployBothOk workspaceFs (some pendingJob1) :=
    Deploy_congr_ID deployBothOk workspaceFs (jobWithStatus status) pendingJob1 rfl
  have hexit : (TerraformDeployer.Deploy deployBothOk workspaceFs (some pendingJob1)).exit
      = Exit.returned none := by decide
  have hcmd : (TerraformDeployer.Deploy deployBothOk workspaceFs (some pendingJob1)).commands
      = [initCommand, applyCommand] := by decide
  have hupd : ∀ w : World, w.jobs = (deployWorld status).jobs →
      (w.UpdateStatus false "j1" JobStatusDeployed).2 = none := by
    intro w hw
    simp [World.UpdateStatus, MongoJobRepo.UpdateStatus, updateOne, hw, deployWorld,
      JobDoc.field, jobWithStatus, pendingJob1]
  unfold JobService.DeployJob
  rw [hget]
  simp only [hdep, hexit]
  rcases hu : World.UpdateStatus false
    { deployWorld status with
      fs := (TerraformDeployer.Deploy deployBothOk workspaceFs (some pendingJob1)).fs }
    "j1" JobStatusDeployed with ⟨w2, _ | err⟩
  · have ht : w2.trace = [Event.updateStatus "j1" JobStatusDeployed] := by
      have := congrArg (fun p => p.1.trace) hu
      simpa [World.UpdateStatus, deployWorld] using this.symm
    simp only [hcmd, ht]
    refine ⟨?_, ?_, ?_, ?_⟩ <;> trivial
  · have := hupd { deployWorld status with
      fs := (TerraformDeployer.Deploy deployBothOk workspaceFs (some pendingJob1)).fs } rfl
    rw [hu] at this
    simp at this

/-- C25 (refuted): `DeployJob` never reads the status of the job. For the job `j1` in any
status, with its workspace present and both phases succeeding, the executor is invoked on the
job and the only status update issued is the request of DEPLOYED; DEPLOYING is never
requested. So the PENDING job, which `IsReadyForDeploy` rejects, is deployed and ends
DEPLOYED, and the READY job goes to DEPLOYED without passing through DEPLOYING. -/
theorem DeployJob_ignores_status :
    (∀ status : JobStatus,
      (JobService.DeployJob false false deployBothOk (deployWorld status) "j1").deployCalls
        = [some (jobWithStatus status)] ∧
      (JobService.DeployJob false false deployBothOk (deployWorld status) "j1").commands
        = [initCommand, applyCommand] ∧
      (JobService.DeployJob false false deployBothOk (deployWorld status) "j1").exit
        = Exit.returned none ∧
      statusUpdates
          (JobService.DeployJob false false deployBothOk (deployWorld status) "j1").world.trace
        = [("j1", JobStatusDeployed)]) ∧
    (jobWithStatus JobStatusPending).IsReadyForDeploy = false ∧
    (MongoJobRepo.GetByID false
        (JobService.DeployJob false false deployBothOk (deployWorld JobStatusPending)
          "j1").world.jobs "j1").1.map Job.Status = some JobStatusDeployed ∧
    (MongoJobRepo.GetByID false
        (JobService.DeployJob false false deployBothOk (deployWorld JobStatusReady2Deploy)
          "j1").world.jobs "j1").1.map Job.Status = some JobStatusDeployed := by
  refine ⟨fun status => DeployJob_any_status status, by decide, by decide, by decide⟩

/-- C28 (refuted): the store `world0` holds no job with id `j3`, so `GetByID` returns a nil
job and a nil error; `DeployJob` passes the nil job to the executor, whose first statement
reads `job.ID`: the call panics instead of returning an error. No status update is issued. -/
theorem DeployJob_panics_on_missing_job :
    MongoJobRepo.GetByID false world0.jobs "j3" = (none, none) ∧
    (JobService.DeployJob false false deployBothOk world0 "j3").deployCalls = [none] ∧
    (JobService.DeployJob false false deployBothOk world0 "j3").exit
      = Exit.panicked "invalid memory address or nil pointer dereference" ∧
    (JobService.DeployJob false false deployBothOk world0 "j3").world = world0 := by
  refine ⟨?_, ?_, ?_, ?_⟩ <;> decide

theorem DeployJob_nil_job (updateErr : Bool) (env : DeployEnv) (w : World) (jobID : String)
    (h : (MongoJobRepo.GetByID false w.jobs jobID).1 = none) :
    (JobService.DeployJob false updateErr env w jobID).exit
        = Exit.panicked "invalid memory address or nil pointer dereference" ∧
      (JobService.DeployJob false updateErr env w jobID).deployCalls = [none] := by
  have hx : (TerraformDeployer.Deploy env w.fs (MongoJobRepo.GetByID false w.jobs jobID).1).exit
      = Exit.panicked "invalid memory address or nil pointer dereference" := by
    rw [h]; rfl
  rw [DeployJob_executor_panic updateErr env w jobID _ hx, h]
  exact ⟨rfl, rfl⟩

/-! ## C27: a file that follows every rule -/

/-- The error `JustAttributes` reports for a body whose first nested block is `nested`. -/
theorem JustAttributes_nested (attrs : List hcl.Attribute) (nested : hcl.Block)
    (rest : List hcl.Block) :
    (hcl.Body.JustAttributes { Attributes := attrs, Blocks := nested :: rest }).2
      = [unexpectedBlockDiag nested] := rfl

/-- Every resource block with a nested block (a lifecycle block, for one) makes the analysis
fail: the error of `JustAttributes` is among the errors of the result and `Passed` is false. -/
theorem resource_nested_block_fails (parseConfig : hcl.ParseConfig) (ord : MapOrder)
    (pre post : List ConfigFile) (file : ConfigFile) (block nested : hcl.Block)
    (rest : List hcl.Block)
    (ha : isAnalyzed file = true)
    (hok : hcl.HasErrors (parseConfig file.Content file.Name).2 = false)
    (hpre : ∀ g ∈ pre, isAnalyzed g = true → g.Name ≠ file.Name)
    (hb : block ∈ (parseConfig file.Content file.Name).1.Blocks)
    (ht : block.Type_ = "resource") (hl : block.Labels.length = 2)
    (hn : block.Body.Blocks = nested :: rest) :
    (TerraformAnalyzer.collect parseConfig ord (pre ++ file :: post)).Passed = false ∧
    toValidationError file.Name (unexpectedBlockDiag nested)
      ∈ (TerraformAnalyzer.collect parseConfig ord (pre ++ file :: post)).Errors := by
  have hj : block.Body.JustAttributes.2 = [unexpectedBlockDiag nested] := by
    unfold hcl.Body.JustAttributes
    rw [hn]
    rfl
  have hd : ∀ k, unexpectedBlockDiag nested ∈ resourceBlockDiags ord k file.Name block := by
    intro k
    unfold resourceBlockDiags
    rw [hj]
    simp
  have hmem : ∀ n, unexpectedBlockDiag nested
      ∈ (TerraformAnalyzer.analyzeFile ord n (parseConfig file.Content file.Name).1
          file.Name).1 :=
    fun n => resource_diag_mem_analyzeFile ord n _ file.Name block _ hb ht hl hd
  refine ⟨?_, diag_mem_collect parseConfig ord pre post file _ ha hok hpre hmem⟩
  have hreg := analyzeFiles_registry parseConfig ord file.Name pre hpre
  have herr : hcl.HasErrors (TerraformAnalyzer.analyzeFile ord
      (TerraformAnalyzer.analyzeFiles parseConfig ord pre).iterations
      (parseConfig file.Content file.Name).1 file.Name).1 = true := by
    unfold hcl.HasErrors
    rw [List.any_eq_true]
    exact ⟨_, hmem _, by simp [unexpectedBlockDiag]⟩
  have hstep : (analyzeStep parseConfig ord
      (TerraformAnalyzer.analyzeFiles parseConfig ord pre) file).result.Passed = false := by
    unfold analyzeStep
    rw [isAnalyzed_eq, ha]
    simp [hcl.ParseHCL, hreg, hok, herr]
  simp only [TerraformAnalyzer.collect, TerraformAnalyzer.analyzeFiles, List.foldl_append,
    List.foldl_cons]
  exact foldl_analyzeStep_passed_false parseConfig ord post _ hstep

set_option maxRecDepth 100000 in
/-- C27 (refuted): the file `main.tf` holding `compliantText` parses without diagnostic; it has
no terraform block, its one resource has a lifecycle block and a tags attribute, and none of
its attributes has a sensitive name. `Analyze` nevertheless collects a hard error for it,
`Unexpected "lifecycle" block`, reported by `JustAttributes` on the body of the resource, and
`Passed` is false, in whatever order the attribute map is ranged over. -/
theorem Analyze_fails_compliant_file :
    furtherParseConfig compliantText "main.tf"
      = ({ Attributes := [], Blocks := [compliantBlock] }, []) ∧
    hasLifecycleBlock compliantBlock = true ∧
    hasTagsAttribute compliantBlock = true ∧
    compliantBlock.Body.Attributes.all (fun a => !isSensitiveName a.Name) = true ∧
    TerraformAnalyzer.collect furtherParseConfig sourceOrder [tfFile "main.tf" compliantText]
      = { Passed := false,
          Errors := [{ File := "main.tf",
                       Message := "Unexpected \"lifecycle\" block: Blocks are not allowed here.",
                       Line := 6, Column := 3 }] } ∧
    TerraformAnalyzer.collect furtherParseConfig reverseOrder [tfFile "main.tf" compliantText]
      = TerraformAnalyzer.collect furtherParseConfig sourceOrder
          [tfFile "main.tf" compliantText] := by
  refine ⟨rfl, ?_, ?_, ?_, ?_, ?_⟩ <;> decide

/-! ## C29: the number of diagnostics for one sensitive attribute -/

theorem flatMap_ite_replicate {α β : Type} (p : α → Bool) (d : β) (l : List α) :
    l.flatMap (fun x => if p x then [d] else []) = List.replicate (l.countP p) d := by
  induction l with
  | nil => rfl
  | cons x rest ih =>
    simp only [List.flatMap_cons, ih, List.countP_cons]
    cases p x <;> simp [List.replicate_succ]

theorem sensitiveAttrDiags_replicate (fileName resType resName : String) (attr : hcl.Attribute) :
    sensitiveAttrDiags fileName resType resName attr
      = if hcl.HasErrors attr.Expr.Value.2 then []
        else List.replicate
          (SensitiveKeywords.countP (fun kw => stringsContains (stringsToLower attr.Name) kw))
          (sensitiveDiag fileName resType resName attr) := by
  unfold sensitiveAttrDiags
  cases he : hcl.HasErrors attr.Expr.Value.2
  · simp only [Bool.not_false, if_true, Bool.false_eq_true, if_false]
    exact flatMap_ite_replicate _ _ _
  · simp

set_option maxRecDepth 100000 in
/-- C29: for a resource attribute whose value is a literal (its evaluation in the nil context
reports no error), the diagnostics the loop of `analyzeResourceBlocks` emits for the attribute
are as many copies of the hardcoded-secret advisory as there are entries of `SensitiveKeywords`
occurring in the lower-cased attribute name: none for `name`, one for `db_password`, three for
`secret_key` (secret, key, secret_key); and the diagnostics of a resource block end with these
copies for each attribute of the block, in the order the attribute map is ranged over. The
keywords occurring in the lower-cased name are those occurring in the name up to case: the
lower case of `Secret_KEY` is `secret_key`, which counts three, and the lower case of `token`
spelled with the Kelvin sign is `token`, which counts one. -/
theorem sensitive_diagnostics_count (fileName resType resName : String)
    (attr : hcl.Attribute) (hlit : hcl.HasErrors attr.Expr.Value.2 = false) :
    sensitiveAttrDiags fileName resType resName attr
      = List.replicate
          ((SensitiveKeywords.filter
            (fun kw => stringsContains (stringsToLower attr.Name) kw)).length)
          { Severity := hcl.DiagnosticSeverity.DiagWarning,
            Summary := "Potential hardcoded sensitive value in attribute " ++ attr.Name
              ++ " of resource " ++ resType ++ "." ++ resName ++ " in " ++ fileName,
            Detail := "", Subject := attr.Range } ∧
    (SensitiveKeywords.filter (fun kw => stringsContains (stringsToLower "name") kw)).length = 0 ∧
    SensitiveKeywords.filter (fun kw => stringsContains (stringsToLower "db_password") kw)
      = ["password"] ∧
    SensitiveKeywords.filter (fun kw => stringsContains (stringsToLower "secret_key") kw)
      = ["secret", "key", "secret_key"] ∧
    (∀ (ord : MapOrder) (n : Nat) (block : hcl.Block),
      resourceBlockDiags ord n fileName block
        = (block.Body.PartialContent resSchema).2 ++ lifecycleTagsDiags fileName block
          ++ block.Body.JustAttributes.2
          ++ (ord.order n block.Body.Attributes).flatMap (fun a =>
              if hcl.HasErrors a.Expr.Value.2 then []
              else List.replicate
                ((SensitiveKeywords.filter
                  (fun kw => stringsContains (stringsToLower a.Name) kw)).length)
                (sensitiveDiag fileName (block.Labels.getD 0 "") (block.Labels.getD 1 "") a))) ∧
    SensitiveKeywords.filter (fun kw => stringsContains (stringsToLower attr.Name) kw)
      = SensitiveKeywords.filter (containsIgnoringCase attr.Name) ∧
    (stringsToLower "Secret_KEY" = "secret_key" ∧
      SensitiveKeywords.filter (fun kw => stringsContains (stringsToLower "Secret_KEY") kw)
        = ["secret", "key", "secret_key"]) ∧
    (stringsToLower "DB_Password" = "db_password" ∧
      SensitiveKeywords.filter (fun kw => stringsContains (stringsToLower "DB_Password") kw)
        = ["password"]) ∧
    (stringsToLower "to\u212Aen" = "token" ∧
      SensitiveKeywords.filter (fun kw => stringsContains (stringsToLower "to\u212Aen") kw)
        = ["token"]) := by
  refine ⟨?_, by decide, by decide, by decide, ?_, keyword_filter_eq attr.Name,
    ⟨by decide, by decide⟩, ⟨by decide, by decide⟩, ⟨by decide, by decide⟩⟩
  · rw [sensitiveAttrDiags_replicate, hlit, ← List.countP_eq_length_filter]
    rfl
  · intro ord n block
    unfold resourceBlockDiags
    congr 1
    have hf : sensitiveAttrDiags fileName (block.Labels.getD 0 "") (block.Labels.getD 1 "")
        = fun a => if hcl.HasErrors a.Expr.Value.2 then []
          else List.replicate
            ((SensitiveKeywords.filter
              (fun kw => stringsContains (stringsToLower a.Name) kw)).length)
            (sensitiveDiag fileName (block.Labels.getD 0 "") (block.Labels.getD 1 "") a) := by
      funext a
      rw [sensitiveAttrDiags_replicate, ← List.countP_eq_length_filter]
    rw [hf]
    rfl

set_option maxRecDepth 100000 in
/-- C29, at concrete attributes: the literal `secret_key` of `secretKeyText` is reported three
times, after the two advisories for the missing lifecycle block and tags attribute; so is the
literal `Secret_KEY`, and the literal `token` spelled with the Kelvin sign is reported once. -/
theorem sensitive_diagnostics_count_witness :
    hcl.HasErrors hcl.Expression.literal.Value.2 = false ∧
    sensitiveAttrDiags "keys.tf" "aws_iam_access_key" "k"
        { Name := "secret_key", Expr := hcl.Expression.literal, Range := ⟨2, 3⟩ }
      = List.replicate 3
          { Severity := hcl.DiagnosticSeverity.DiagWarning,
            Summary := "Potential hardcoded sensitive value in attribute secret_key"
              ++ " of resource aws_iam_access_key.k in keys.tf",
            Detail := "", Subject := ⟨2, 3⟩ } ∧
    (TerraformAnalyzer.collect furtherParseConfig sourceOrder
        [tfFile "keys.tf" secretKeyText]).Errors.map ValidationConfigError.Message
      = ["Resource aws_iam_access_key.k missing lifecycle block in keys.tf: ",
         "Resource aws_iam_access_key.k missing tags attribute in keys.tf: ",
         "Potential hardcoded sensitive value in attribute secret_key of resource aws_iam_access_key.k in keys.tf: ",
         "Potential hardcoded sensitive value in attribute secret_key of resource aws_iam_access_key.k in keys.tf: ",
         "Potential hardcoded sensitive value in attribute secret_key of resource aws_iam_access_key.k in keys.tf: "] ∧
    sensitiveAttrDiags "keys.tf" "aws_iam_access_key" "k"
        { Name := "Secret_KEY", Expr := hcl.Expression.literal, Range := ⟨2, 3⟩ }
      = List.replicate 3
          { Severity := hcl.DiagnosticSeverity.DiagWarning,
            Summary := "Potential hardcoded sensitive value in attribute Secret_KEY"
              ++ " of resource aws_iam_access_key.k in keys.tf",
            Detail := "", Subject := ⟨2, 3⟩ } ∧
    sensitiveAttrDiags "keys.tf" "aws_iam_access_key" "k"
        { Name := "to\u212Aen", Expr := hcl.Expression.literal, Range := ⟨2, 3⟩ }
      = List.replicate 1
          { Severity := hcl.DiagnosticSeverity.DiagWarning,
            Summary := "Potential hardcoded sensitive value in attribute to\u212Aen"
              ++ " of resource aws_iam_access_key.k in keys.tf",
            Detail := "", Subject := ⟨2, 3⟩ } :=
  ⟨rfl,
   (sensitive_diagnostics_count "keys.tf" "aws_iam_access_key" "k"
      { Name := "secret_key", Expr := hcl.Expression.literal, Range := ⟨2, 3⟩ } rfl).1,
   by decide,
   (sensitive_diagnostics_count "keys.tf" "aws_iam_access_key" "k"
      { Name := "Secret_KEY", Expr := hcl.Expression.literal, Range := ⟨2, 3⟩ } rfl).1,
   (sensitive_diagnostics_count "keys.tf" "aws_iam_access_key" "k"
      { Name := "to\u212Aen", Expr := hcl.Expression.literal, Range := ⟨2, 3⟩ } rfl).1⟩


/-! ## C30: the job returned by handleCreateJob -/

/-- For every valid request that the store accepts, the job in the 201 response carries the
identifier drawn by the handler, the job appended to the store the one drawn by `CreateJob`. -/
theorem handleCreateJob_ids (uuid₁ uuid₂ : String) (w : World) (req : createJobReq)
    (hd : req.Description ≠ "") (ht : req.Target ≠ "") :
    (OrchestratorHandler.handleCreateJob false uuid₁ uuid₂ w (Except.ok req)).2
      = { code := 201,
          body := ResponseBody.job (NewJob uuid₁ w.clock req.Description req.Target) } ∧
    (OrchestratorHandler.handleCreateJob false uuid₁ uuid₂ w (Except.ok req)).1.jobs
      = w.jobs ++ [{ job := NewJob uuid₂ w.clock req.Description req.Target, extra := [] }] := by
  simp [OrchestratorHandler.handleCreateJob, JobService.CreateJob, MongoJobRepo.Create, hd, ht,
    NewJob]

/-- A request without description or target is answered with 400 and nothing is stored. -/
theorem handleCreateJob_invalid (dbErr : Bool) (uuid₁ uuid₂ : String) (w : World)
    (req : createJobReq) (h : req.Description = "" ∨ req.Target = "") :
    OrchestratorHandler.handleCreateJob dbErr uuid₁ uuid₂ w (Except.ok req)
      = (w, { code := 400, body := ResponseBody.error "description and target are required" }) := by
  rcases h with h | h <;> simp [OrchestratorHandler.handleCreateJob, h]

/-- C30 (refuted): for the valid request (`a vpc`, `terraform`) the handler builds a job of its
own, with the identifier `u1`, and answers 201 with it, while `CreateJob` builds and stores a
second job, with the identifier `u2` of its own call of `NewJob`: the identifier given to the
client is the identifier of no stored job, and the stored PENDING job has another one. A
request with an empty description or target is answered with 400 and stores nothing. -/
theorem handleCreateJob_returns_unstored_job :
    (OrchestratorHandler.handleCreateJob false "u1" "u2" world0
        (Except.ok { Description := "a vpc", Target := "terraform" })).2
      = { code := 201,
          body := ResponseBody.job
            { ID := "u1", Description := "a vpc", Target := "terraform",
              Status := JobStatusPending, CreatedAt := 1, UpdatedAt := 1 } } ∧
    storedIDs (OrchestratorHandler.handleCreateJob false "u1" "u2" world0
        (Except.ok { Description := "a vpc", Target := "terraform" })).1.jobs
      = ["j1", "j2", "u2"] ∧
    MongoJobRepo.GetByID false (OrchestratorHandler.handleCreateJob false "u1" "u2" world0
        (Except.ok { Description := "a vpc", Target := "terraform" })).1.jobs "u1"
      = (none, none) ∧
    (MongoJobRepo.GetByID false (OrchestratorHandler.handleCreateJob false "u1" "u2" world0
        (Except.ok { Description := "a vpc", Target := "terraform" })).1.jobs "u2").1
      = some { ID := "u2", Description := "a vpc", Target := "terraform",
               Status := JobStatusPending, CreatedAt := 1, UpdatedAt := 1 } ∧
    OrchestratorHandler.handleCreateJob false "u1" "u2" world0
        (Except.ok { Description := "", Target := "terraform" })
      = (world0,
          { code := 400, body := ResponseBody.error "description and target are required" }) := by
  refine ⟨?_, ?_, ?_, ?_, ?_⟩ <;> decide

end Orchestrator
